import Mathlib

/-!
Verification development for the textured-quad batching op (GrTextureOp.cpp).

The C++ source is shallowly embedded below: machine integers become `Nat`/`Int`
(the counts involved are tiny and never overflow), `SkRect`/quad coordinates
become `ℚ` in the discrete batching model, the float SIMD geometry of
`compute_quad_edges_and_outset_vertices` is idealized over `ℝ`, and fallible
steps return `Option`.  Code paths guarded by `SkASSERT` are modelled as
preconditions (debug builds abort when they fail).
-/

set_option linter.unusedVariables false

namespace Skia

/-- GrAAType from GrTypesPriv.h (kMixedSamples is rejected by the op ctor). -/
inductive GrAAType where
  | kNone
  | kCoverage
  | kMSAA
  | kMixedSamples
deriving DecidableEq, Repr

/-- GrSamplerState::Filter. -/
inductive GrSamplerState.Filter where
  | kNearest
  | kBilerp
  | kMipMap
deriving DecidableEq, Repr

instance : Inhabited GrSamplerState.Filter := ⟨GrSamplerState.Filter.kNearest⟩

/-- The sampler-type values of GrSLType that matter to mergeProxies: the check in
the source compares against kTexture2DSampler_GrSLType. -/
inductive GrSLType where
  | kTexture2DSampler_GrSLType
  | kTextureExternalSampler_GrSLType
  | kTexture2DRectSampler_GrSLType
deriving DecidableEq, Repr

/-- GrSurfaceOrigin. -/
inductive GrSurfaceOrigin where
  | kTopLeft_GrSurfaceOrigin
  | kBottomLeft_GrSurfaceOrigin
deriving DecidableEq, Repr

/-- The GrTexture facts the op reads through priv(): the sampler type, plus the
dimensions used to build texel-space reciprocals. -/
structure GrTexture where
  samplerType : GrSLType
  width : Nat
  height : Nat
deriving DecidableEq, Repr

/-- GrTextureProxy: identity (uniqueID), pixel config (an opaque numeric key),
origin, and the optionally-instantiated texture (priv().peekTexture()). -/
structure GrTextureProxy where
  uniqueID : Nat
  config : Nat
  origin : GrSurfaceOrigin
  texture : Option GrTexture
deriving DecidableEq, Repr

instance : Inhabited GrTextureProxy :=
  ⟨{ uniqueID := 0, config := 0, origin := GrSurfaceOrigin.kTopLeft_GrSurfaceOrigin,
     texture := none }⟩

/-- The GrShaderCaps fields consulted by this op. -/
structure GrShaderCaps where
  integerSupport : Bool
  maxFragmentSamplers : Nat
  disableImageMultitexturingDstRectAreaThreshold : Nat
  interpolantsAreInaccurate : Bool
deriving DecidableEq, Repr

/-- GrCaps as used here: only shaderCaps() is consulted. -/
structure GrCaps where
  shaderCaps : GrShaderCaps
deriving DecidableEq, Repr

/-- SkCLZ from SkMathPriv.h: count of leading zero bits of a 32-bit value
(32 for zero). -/
def SkCLZ (x : Nat) : Nat := if x = 0 then 32 else 31 - Nat.log2 x

/-- SkNextPow2 from SkMathPriv.h: `1 << (32 - SkCLZ(value - 1))`, the least
power of two that is >= value (for value > 0). -/
def SkNextPow2 (value : Nat) : Nat := 1 <<< (32 - SkCLZ (value - 1))

/-- SkTMin on ints. -/
def SkTMin (a b : Nat) : Nat := min a b

/-- SkTMax on size_t. -/
def SkTMaxN (a b : Nat) : Nat := max a b

namespace TextureGeometryProcessor

/-- Maximum number of textures supported by the op; 4 with SK_BUILD_FOR_ANDROID,
8 otherwise.  This embedding models the non-Android build. -/
def kMaxTextures : Nat := 8

/-- TextureGeometryProcessor::SupportsMultitexture:
`caps.integerSupport() && caps.maxFragmentSamplers() > 1`. -/
def SupportsMultitexture (caps : GrShaderCaps) : Bool :=
  caps.integerSupport && decide (1 < caps.maxFragmentSamplers)

/-- TextureGeometryProcessor::NumSamplersToUse.  The source asserts
`numRealProxies > 0 && numRealProxies <= kMaxTextures && numRealProxies <=
caps.maxFragmentSamplers()`; the assertion is carried as a hypothesis of the
theorems about this function. -/
def NumSamplersToUse (numRealProxies : Nat) (caps : GrShaderCaps) : Nat :=
  if numRealProxies = 1 then 1
  else if numRealProxies ≤ 4 then 4
  else SkTMin (SkNextPow2 numRealProxies) (SkTMin kMaxTextures caps.maxFragmentSamplers)

end TextureGeometryProcessor

/-- SkRect over ℚ. -/
structure SkRect where
  fLeft : ℚ
  fTop : ℚ
  fRight : ℚ
  fBottom : ℚ
deriving DecidableEq, Repr

namespace SkRect

def width (r : SkRect) : ℚ := r.fRight - r.fLeft

def height (r : SkRect) : ℚ := r.fBottom - r.fTop

/-- Modelled from the spec: GrOp::joinBounds unions the two destination bounds
("destination bounds are unioned"); the GrOp base class is not under src. -/
def join (r s : SkRect) : SkRect :=
  { fLeft := min r.fLeft s.fLeft, fTop := min r.fTop s.fTop,
    fRight := max r.fRight s.fRight, fBottom := max r.fBottom s.fBottom }

end SkRect

/-- GrPerspQuad: four device-space points stored as x, y and w lanes.  GrQuad.h
is not under src; the representation follows the spec's data model ("four 2D
(or homogeneous 3D, under perspective) device-space points"). -/
structure GrPerspQuad where
  fX : Fin 4 → ℚ
  fY : Fin 4 → ℚ
  fW : Fin 4 → ℚ

instance : DecidableEq GrPerspQuad := fun a b =>
  decidable_of_iff (a.fX = b.fX ∧ a.fY = b.fY ∧ a.fW = b.fW)
    (by cases a; cases b; simp [GrPerspQuad.mk.injEq])

namespace GrPerspQuad

/-- Modelled from the spec: GrPerspQuad::bounds (GrQuad.h, not under src) is the
extent of the four projected device-space points ("four 2D (or homogeneous 3D,
under perspective) device-space points"). -/
def bounds (q : GrPerspQuad) : SkRect :=
  let px : Fin 4 → ℚ := fun i => q.fX i / q.fW i
  let py : Fin 4 → ℚ := fun i => q.fY i / q.fW i
  { fLeft := min (min (px 0) (px 1)) (min (px 2) (px 3)),
    fTop := min (min (py 0) (py 1)) (min (py 2) (py 3)),
    fRight := max (max (px 0) (px 1)) (max (px 2) (px 3)),
    fBottom := max (max (py 0) (py 1)) (max (py 2) (py 3)) }

end GrPerspQuad

/-- TextureOp::RectSizeAsSizeT: `size_t(SkTMax(rect.width(), 1.f) *
SkTMax(rect.height(), 1.f))`; the product is at least 1, so the float-to-size_t
cast is the floor. -/
def RectSizeAsSizeT (rect : SkRect) : Nat :=
  (⌊max rect.width 1 * max rect.height 1⌋).toNat

/-- Modelled from the spec: GrColorSpaceXform is an external collaborator kept
opaque ("color-space transform is equal (value equality, not identity)"); a
transform is an opaque value key and GrColorSpaceXform::Equals is value
equality with null equal only to null. -/
def GrColorSpaceXform.Equals (a b : Option Nat) : Bool := a = b

/-- TextureOp::Draw. -/
structure Draw where
  fSrcRect : SkRect
  fTextureIdx : Nat
  fQuad : GrPerspQuad
  fColor : Nat
deriving DecidableEq

/-- The TextureOp state.  `fProxies` models the fProxy0/fFilter0 pair when the
count is one and the dynamically allocated fProxyArray (proxies followed by
filters, both sized kMaxTextures) when larger: the list pairs each proxy with
its filter and its length is fProxyCnt. -/
structure TextureOp where
  fDraws : List Draw
  fColorSpaceXform : Option Nat
  fProxies : List (GrTextureProxy × GrSamplerState.Filter)
  fMaxApproxDstPixelArea : Nat
  fAAType : GrAAType
  fPerspective : Bool
  fFinalized : Bool
  fAllowSRGBInputs : Bool
  fBounds : SkRect
deriving DecidableEq

namespace TextureOp

/-- TextureOp::TextureOp (and the Make factory around it).  The external
SkMatrix/GrQuad math that turns (dstRect, viewMatrix) into a GrPerspQuad and
viewMatrix.hasPerspective() is received here as the already-built quad and the
perspective flag. -/
def make (proxy : GrTextureProxy) (filter : GrSamplerState.Filter) (color : Nat)
    (srcRect : SkRect) (quad : GrPerspQuad) (perspective : Bool)
    (aaType : GrAAType) (csxf : Option Nat) (allowSRGBInputs : Bool) : TextureOp :=
  let bounds := quad.bounds
  { fDraws := [{ fSrcRect := srcRect, fTextureIdx := 0, fQuad := quad, fColor := color }]
    fColorSpaceXform := csxf
    fProxies := [(proxy, filter)]
    fMaxApproxDstPixelArea := RectSizeAsSizeT bounds
    fAAType := aaType
    fPerspective := perspective
    fFinalized := false
    fAllowSRGBInputs := allowSRGBInputs
    fBounds := bounds }

/-- The uniqueIDs of the op's current texture list, in slot order. -/
def proxyIDs (op : TextureOp) : List Nat :=
  op.fProxies.map (fun pf => pf.1.uniqueID)

/-- The batch invariant of the spec's data model: every Draw's texture index is
valid within the texture list, texture-list entries are unique by identity, and
the list is never empty. -/
def Wf (op : TextureOp) : Prop :=
  (∀ d ∈ op.fDraws, d.fTextureIdx < op.fProxies.length) ∧
    op.proxyIDs.Nodup ∧ 1 ≤ op.fProxies.length

/-- The texture count stays within both the hard maximum and the hardware
fragment-sampler limit. -/
def CapOk (op : TextureOp) (caps : GrShaderCaps) : Prop :=
  op.fProxies.length ≤ min TextureGeometryProcessor.kMaxTextures caps.maxFragmentSamplers

/-- The inner loop of mergeProxies' unification pass: the first index j (with
that slot's filter) whose proxy has the given uniqueID, scanning that's proxy
array in order. -/
def findMatch (id : Nat) :
    List (GrTextureProxy × GrSamplerState.Filter) → Option (Nat × GrSamplerState.Filter)
  | [] => none
  | pf :: rest =>
    if pf.1.uniqueID = id then some (0, pf.2)
    else
      match findMatch id rest with
      | none => none
      | some (j, f) => some (j + 1, f)

/-- The first (unification) double loop of TextureOp::mergeProxies: for each of
this op's proxies, scan that's proxies for the first one with the same
uniqueID; on a match with a different filter return -1 (here: none), otherwise
record the slot in the map and count it as shared. -/
def unifyProxiesLoop (thatPs : List (GrTextureProxy × GrSamplerState.Filter)) :
    List (GrTextureProxy × GrSamplerState.Filter) → Nat → List Int → Nat →
      Option (List Int × Nat)
  | [], _i, map, shared => some (map, shared)
  | pf :: rest, i, map, shared =>
    match findMatch pf.1.uniqueID thatPs with
    | none => unifyProxiesLoop thatPs rest (i + 1) map shared
    | some (j, f) =>
      if pf.2 ≠ f then none
      else unifyProxiesLoop thatPs rest (i + 1) (map.set j (Int.ofNat i)) (shared + 1)

/-- The sampler-type test of mergeProxies' second loop: an instantiated proxy
(peekTexture non-null) whose sampler type is not the plain 2D sampler blocks
merging; uninstantiated proxies pass. -/
def hasNon2DSamplerType (p : GrTextureProxy) : Bool :=
  match p.texture with
  | some tex => decide (tex.samplerType ≠ GrSLType.kTexture2DSampler_GrSLType)
  | none => false

/-- The second loop of TextureOp::mergeProxies: every one of that's proxies must
have the same config as this's slot 0, and an instantiated proxy must have the
plain 2D sampler type; unmatched slots are assigned the next free slot of this
op, recorded negated in the map. -/
def configCheckLoop (config0 : Nat) :
    List (GrTextureProxy × GrSamplerState.Filter) → Nat → List Int → Nat →
      Option (List Int)
  | [], _j, map, _next => some map
  | qg :: rest, j, map, next =>
    if qg.1.config ≠ config0 then none
    else if hasNon2DSamplerType qg.1 then none
    else if map.getD j 0 < 0 then
      configCheckLoop config0 rest (j + 1) (map.set j (-(next : Int))) (next + 1)
    else configCheckLoop config0 rest (j + 1) map next

/-- The initial slot map of mergeProxies:
`std::fill_n(map, kMaxTextures, -kMaxTextures)`. -/
def initialProxyMap : List Int :=
  List.replicate TextureGeometryProcessor.kMaxTextures
    (-(TextureGeometryProcessor.kMaxTextures : Int))

/-- TextureOp::mergeProxies.  Returns the slot map and the number of proxies to
add, or none for the source's -1 (the ops must not combine their proxies). -/
def mergeProxies (op that : TextureOp) (caps : GrShaderCaps) :
    Option (List Int × Int) :=
  match unifyProxiesLoop that.fProxies op.fProxies 0 initialProxyMap 0 with
  | none => none
  | some (map1, sharedProxyCnt) =>
    let actualMaxTextures :=
      SkTMin caps.maxFragmentSamplers TextureGeometryProcessor.kMaxTextures
    let newProxyCnt : Int := (that.fProxies.length : Int) - (sharedProxyCnt : Int)
    if (actualMaxTextures : Int) < newProxyCnt + (op.fProxies.length : Int) then none
    else
      match configCheckLoop ((op.fProxies.headD default).1.config) that.fProxies 0
          map1 op.fProxies.length with
      | none => none
      | some map2 => some (map2, newProxyCnt)

/-- The placement loop of onCombineIfPossible: that's proxies whose map entry is
still negative are appended, in index order, at the slots recorded (negated) in
the map. -/
def collectNewProxies (map2 : List Int) :
    List (GrTextureProxy × GrSamplerState.Filter) → Nat →
      List (GrTextureProxy × GrSamplerState.Filter)
  | [], _j => []
  | qg :: rest, j =>
    if map2.getD j 0 < 0 then qg :: collectNewProxies map2 rest (j + 1)
    else collectNewProxies map2 rest (j + 1)

/-- TextureOp::onCombineIfPossible.  Returning none models the source returning
false: the source mutates nothing on any false path, so both ops are unchanged;
some gives the combined state of this op (that is destroyed by the caller). -/
def onCombineIfPossible (caps : GrCaps) (op that : TextureOp) : Option TextureOp :=
  let shaderCaps := caps.shaderCaps
  if GrColorSpaceXform.Equals op.fColorSpaceXform that.fColorSpaceXform = false then none
  else if op.fAAType ≠ that.fAAType then none
  else
    let core : Option TextureOp :=
      if TextureGeometryProcessor.SupportsMultitexture shaderCaps &&
          op.fColorSpaceXform.isNone &&
          decide (op.fMaxApproxDstPixelArea ≤
            shaderCaps.disableImageMultitexturingDstRectAreaThreshold) &&
          decide (that.fMaxApproxDstPixelArea ≤
            shaderCaps.disableImageMultitexturingDstRectAreaThreshold) then
        match mergeProxies op that shaderCaps with
        | none => none
        | some (map2, _newProxyCnt) =>
          let added := collectNewProxies map2 that.fProxies 0
          let remapped := that.fDraws.map
            (fun d => { d with fTextureIdx := (map2.getD d.fTextureIdx 0).natAbs })
          some { op with fProxies := op.fProxies ++ added,
                         fDraws := op.fDraws ++ remapped }
      else
        if 1 < op.fProxies.length ∨ 1 < that.fProxies.length then none
        else if (op.fProxies.headD default).1.uniqueID ≠
                  (that.fProxies.headD default).1.uniqueID ∨
                (op.fProxies.headD default).2 ≠ (that.fProxies.headD default).2 then none
        else some { op with fDraws := op.fDraws ++ that.fDraws }
    match core with
    | none => none
    | some op2 =>
      some { op2 with
              fBounds := SkRect.join op2.fBounds that.fBounds,
              fMaxApproxDstPixelArea :=
                SkTMaxN that.fMaxApproxDstPixelArea op2.fMaxApproxDstPixelArea,
              fPerspective := op2.fPerspective || that.fPerspective }

end TextureOp

/-- GrPrimitiveType values used by the op. -/
inductive GrPrimitiveType where
  | kTriangles
  | kTriangleStrip
  | kTriangleFan
  | kPoints
  | kLines
  | kLineStrip
deriving DecidableEq, Repr

/-- The observable GrMesh submission: the primitive topology, the patterned
index-buffer parameters of setIndexedPatterned (indices per repeat, vertices
per repeat, pattern repeat count, max repetitions of the shared quad buffer),
or the vertex count of setNonIndexedNonInstanced. -/
structure GrMesh where
  fPrimitiveType : GrPrimitiveType
  fIndexPattern : Option (Nat × Nat × Nat × Nat)
  fNonIndexedVertexCount : Option Nat
deriving DecidableEq, Repr

/-- The flush-time environment of onPrepareDraws: whether each proxy can be
instantiated by the resource provider, whether makeVertexSpace yields a vertex
buffer, whether refQuadIndexBuffer yields the shared quad index buffer, and the
provider's QuadCountOfQuadBuffer constant. -/
structure FlushTarget where
  instantiateOk : GrTextureProxy → Bool
  vertexAllocOk : Bool
  quadIndexBufferOk : Bool
  quadCountOfQuadBuffer : Nat

namespace TextureOp

/-- TextureOp::onPrepareDraws, at the granularity the spec describes: realize
every referenced texture (skip the batch on the first failure), allocate a
vertex buffer for 4 vertices per draw (skip on failure), then submit one mesh:
a non-indexed 4-vertex triangle strip for a single draw, or an indexed triangle
list patterned 6 indices / 4 vertices per draw (skipped if the shared quad
index buffer is unavailable).  The result pairs the allocated vertex count with
the mesh; none means the batch issues no draw call at all.  Vertex contents
(the tessellated attribute data written through tessellate_quad) do not affect
the submission parameters the claims are about and are not replayed here. -/
def onPrepareDraws (op : TextureOp) (target : FlushTarget) : Option (Nat × GrMesh) :=
  if ¬ (op.fProxies.all fun pf => target.instantiateOk pf.1) then none
  else if ¬ target.vertexAllocOk then none
  else
    let vertexCount := 4 * op.fDraws.length
    let primitiveType :=
      if 1 < op.fDraws.length then GrPrimitiveType.kTriangles
      else GrPrimitiveType.kTriangleStrip
    if 1 < op.fDraws.length then
      if ¬ target.quadIndexBufferOk then none
      else
        some (vertexCount,
          { fPrimitiveType := primitiveType,
            fIndexPattern := some (6, 4, op.fDraws.length, target.quadCountOfQuadBuffer),
            fNonIndexedVertexCount := none })
    else
      some (vertexCount,
        { fPrimitiveType := primitiveType,
          fIndexPattern := none,
          fNonIndexedVertexCount := some 4 })

end TextureOp

/-- The reference-counting calls a TextureOp makes on the proxies it references,
identified by uniqueID: GrSurfaceProxy::addPendingRead, completedRead and
unref. -/
inductive LifeEvent where
  | addPendingRead (id : Nat)
  | completedRead (id : Nat)
  | unref (id : Nat)
deriving DecidableEq, Repr

/-- A lifecycle step of a live batch before destruction: an attempted merge
with another batch (onCombineIfPossible, which may fail and change nothing), or
finalize. -/
inductive PreStep where
  | mergeStep (that : TextureOp) (caps : GrCaps)
  | finalizeStep

namespace TextureOp

/-- The addPendingRead calls made inside a successful merge: one per proxy the
merge added (that's proxies whose map entry was negative). -/
def mergeEvents (op merged : TextureOp) : List LifeEvent :=
  (merged.fProxies.drop op.fProxies.length).map
    (fun pf => LifeEvent.addPendingRead pf.1.uniqueID)

/-- Run a batch through merge/finalize steps, collecting its reference-count
events.  finalize's SkASSERTs (!fFinalized and 1 == fProxyCnt) are modelled as
preconditions: a trace violating them is illegal (none).  finalize sets
fFinalized, then does fProxy0->addPendingRead() and fProxy0->unref(). -/
def runPre : TextureOp → List PreStep → Option (TextureOp × List LifeEvent)
  | op, [] => some (op, [])
  | op, PreStep.mergeStep that caps :: rest =>
    match onCombineIfPossible caps op that with
    | some merged =>
      match runPre merged rest with
      | none => none
      | some (opF, evs) => some (opF, mergeEvents op merged ++ evs)
    | none => runPre op rest
  | op, PreStep.finalizeStep :: rest =>
    if op.fFinalized then none
    else if op.fProxies.length ≠ 1 then none
    else
      let id0 := (op.fProxies.headD default).1.uniqueID
      match runPre { op with fFinalized := true } rest with
      | none => none
      | some (opF, evs) =>
        some (opF, LifeEvent.addPendingRead id0 :: LifeEvent.unref id0 :: evs)

/-- TextureOp::~TextureOp: a finalized batch calls completedRead on every slot;
an unfinalized batch (SkASSERT(1 == fProxyCnt), modelled as a precondition)
unrefs its single proxy. -/
def destroyEvents (op : TextureOp) : Option (List LifeEvent) :=
  if op.fFinalized then
    some (op.fProxies.map fun pf => LifeEvent.completedRead pf.1.uniqueID)
  else if op.fProxies.length = 1 then
    some [LifeEvent.unref (op.fProxies.headD default).1.uniqueID]
  else none

end TextureOp

/-- Number of addPendingRead events for a given proxy identity. -/
def countAdds (evs : List LifeEvent) (id : Nat) : Nat :=
  (evs.filter fun e => e = LifeEvent.addPendingRead id).length

/-- Number of completedRead events for a given proxy identity. -/
def countCompleted (evs : List LifeEvent) (id : Nat) : Nat :=
  (evs.filter fun e => e = LifeEvent.completedRead id).length

/-- Number of unref events for a given proxy identity. -/
def countUnrefs (evs : List LifeEvent) (id : Nat) : Nat :=
  (evs.filter fun e => e = LifeEvent.unref id).length

/-- Well-formedness of a lifecycle step: a merge partner is itself a valid
batch whose texture count respects the hard maximum (both are invariants every
live batch satisfies). -/
def PreStep.Wf : PreStep → Prop
  | PreStep.mergeStep that _ =>
    that.Wf ∧ that.fProxies.length ≤ TextureGeometryProcessor.kMaxTextures
  | PreStep.finalizeStep => True

/-- The reference-count bookkeeping invariant of a live batch born with proxy
slot pf0: the batch stays well-formed with pf0 still in slot 0, every slot
past 0 (each added by some merge) has exactly one pending read acquired, slot
0 has one exactly when the batch is finalized, nothing has been released yet,
and the plain reference was unreffed exactly at finalization. -/
def TraceInv (pf0 : GrTextureProxy × GrSamplerState.Filter) (op : TextureOp)
    (evs : List LifeEvent) : Prop :=
  op.Wf ∧
  (∃ tail, op.fProxies = pf0 :: tail) ∧
  (∀ id, countAdds evs id =
    if id ∈ (op.fProxies.drop 1).map (fun pf => pf.1.uniqueID) then 1
    else if id = pf0.1.uniqueID ∧ op.fFinalized = true then 1 else 0) ∧
  (∀ id, countCompleted evs id = 0) ∧
  (∀ id, countUnrefs evs id =
    if id = pf0.1.uniqueID ∧ op.fFinalized = true then 1 else 0)

section QuadGeometry

/-!
compute_quad_edges_and_outset_vertices, idealized over ℝ (the source computes
with float SIMD lanes and an approximate reciprocal square root; the idealized
model gives the intended exact values).  The input quad is the four points
(x i, y i) in triangle-strip order; lane k of the edge outputs is the edge from
point k to point nextCCW k.
-/

open Classical

/-- The SkNx_shuffle<2, 0, 3, 1> lane permutation (nextCW in the source). -/
def nextCW : Fin 4 → Fin 4 := ![2, 0, 3, 1]

/-- The SkNx_shuffle<1, 3, 0, 2> lane permutation (nextCCW in the source). -/
def nextCCW : Fin 4 → Fin 4 := ![1, 3, 0, 2]

/-- Edge coefficient a before normalization: `*a = ynext - *y`. -/
def rawA (x y : Fin 4 → ℝ) (k : Fin 4) : ℝ := y (nextCCW k) - y k

/-- Edge coefficient b before normalization: `*b = *x - xnext`. -/
def rawB (x y : Fin 4 → ℝ) (k : Fin 4) : ℝ := x k - x (nextCCW k)

/-- Edge coefficient c before normalization: `*c = fma(xnext, *y, -ynext * *x)`. -/
def rawC (x y : Fin 4 → ℝ) (k : Fin 4) : ℝ := x (nextCCW k) * y k - y (nextCCW k) * x k

/-- `invNormLengths = (*a * *a + *b * *b).rsqrt()`, idealized. -/
noncomputable def invNormLength (x y : Fin 4 → ℝ) (k : Fin 4) : ℝ :=
  (Real.sqrt (rawA x y k ^ 2 + rawB x y k ^ 2))⁻¹

/-- `test = fma(*a, nextCW(*x), fma(*b, nextCW(*y), *c))`: the edge value at the
next-clockwise point, used to orient the normals into the quad. -/
def edgeTest (x y : Fin 4 → ℝ) (k : Fin 4) : ℝ :=
  rawA x y k * x (nextCW k) + rawB x y k * y (nextCW k) + rawC x y k

/-- `if ((test < Sk4f(0)).anyTrue()) invNormLengths = -invNormLengths`. -/
def anyTestNegative (x y : Fin 4 → ℝ) : Prop := ∃ k, edgeTest x y k < 0

/-- The possibly-negated normalization factors. -/
noncomputable def invNormLengthsSigned (x y : Fin 4 → ℝ) (k : Fin 4) : ℝ :=
  if anyTestNegative x y then -(invNormLength x y k) else invNormLength x y k

/-- Output edge coefficient a: `*a *= invNormLengths`. -/
noncomputable def edgeA (x y : Fin 4 → ℝ) (k : Fin 4) : ℝ :=
  rawA x y k * invNormLengthsSigned x y k

/-- Output edge coefficient b: `*b *= invNormLengths`. -/
noncomputable def edgeB (x y : Fin 4 → ℝ) (k : Fin 4) : ℝ :=
  rawB x y k * invNormLengthsSigned x y k

/-- Output edge coefficient c: `*c *= invNormLengths; *c += Sk4f(0.5f)` — the
half-pixel outset added to the normalized constant term. -/
noncomputable def edgeC (x y : Fin 4 → ℝ) (k : Fin 4) : ℝ :=
  rawC x y k * invNormLengthsSigned x y k + 1 / 2

/-- The homogenizing denominator of the outset-vertex solve:
`fma(anext, *b, -bnext * *a)`. -/
noncomputable def outsetDenom (x y : Fin 4 → ℝ) (k : Fin 4) : ℝ :=
  edgeA x y (nextCW k) * edgeB x y k - edgeB x y (nextCW k) * edgeA x y k

/-- Outset vertex x: `*x = fma(bnext, *c, -*b * cnext); *x *= ic`. -/
noncomputable def outsetX (x y : Fin 4 → ℝ) (k : Fin 4) : ℝ :=
  (edgeB x y (nextCW k) * edgeC x y k - edgeB x y k * edgeC x y (nextCW k)) *
    (outsetDenom x y k)⁻¹

/-- Outset vertex y: `*y = fma(*a, cnext, -anext * *c); *y *= ic`. -/
noncomputable def outsetY (x y : Fin 4 → ℝ) (k : Fin 4) : ℝ :=
  (edgeA x y k * edgeC x y (nextCW k) - edgeA x y (nextCW k) * edgeC x y k) *
    (outsetDenom x y k)⁻¹

/-- The value of output edge equation j at output (outset) vertex k. -/
noncomputable def edgeValueAt (x y : Fin 4 → ℝ) (j k : Fin 4) : ℝ :=
  edgeA x y j * outsetX x y k + edgeB x y j * outsetY x y k + edgeC x y j

/-- Twice the signed area of the quad read along its strip-order perimeter
0, 1, 3, 2 (the shoelace sum). -/
def stripDoubleSignedArea (x y : Fin 4 → ℝ) : ℝ :=
  (x 0 * y 1 - x 1 * y 0) + (x 1 * y 3 - x 3 * y 1) +
    (x 3 * y 2 - x 2 * y 3) + (x 2 * y 0 - x 0 * y 2)

/-- The x lanes of an axis-aligned rectangle in triangle-strip order
(top-left, top-right, bottom-left, bottom-right). -/
def rectX (l r : ℝ) : Fin 4 → ℝ := ![l, r, l, r]

/-- The y lanes of an axis-aligned rectangle in triangle-strip order. -/
def rectY (t b : ℝ) : Fin 4 → ℝ := ![t, t, b, b]

/-- The x lanes of the dart quad used as the non-convex counterexample: strip
points (0,0), (20,21), (-20,21), (0,6), i.e. the simple perimeter
(0,0)-(20,21)-(0,6)-(-20,21) with a reflex vertex at (0,6).  All four edge
lengths (29, 25, 29, 25) are integral, so the normalized coefficients are
rational. -/
def dartX : Fin 4 → ℝ := ![0, 20, -20, 0]

/-- The y lanes of the dart counterexample quad. -/
def dartY : Fin 4 → ℝ := ![0, 21, 21, 6]

end QuadGeometry

section ConcreteSamples

/-! Concrete objects used to instantiate theorems with hypotheses and to build
counterexamples. -/

/-- An instantiated texture with the plain 2D sampler type. -/
def tex2D : GrTexture :=
  { samplerType := GrSLType.kTexture2DSampler_GrSLType, width := 100, height := 100 }

/-- An instantiated texture with the external-image sampler type. -/
def texExternal : GrTexture :=
  { samplerType := GrSLType.kTextureExternalSampler_GrSLType, width := 100, height := 100 }

/-- A proxy over the plain 2D texture with a given identity. -/
def proxy2D (id : Nat) : GrTextureProxy :=
  { uniqueID := id, config := 0, origin := GrSurfaceOrigin.kTopLeft_GrSurfaceOrigin,
    texture := some tex2D }

/-- A proxy over the external-sampler texture with a given identity. -/
def proxyExternal (id : Nat) : GrTextureProxy :=
  { uniqueID := id, config := 0, origin := GrSurfaceOrigin.kTopLeft_GrSurfaceOrigin,
    texture := some texExternal }

/-- A non-perspective unit-square destination quad. -/
def unitQuad : GrPerspQuad :=
  { fX := ![0, 1, 0, 1], fY := ![0, 0, 1, 1], fW := ![1, 1, 1, 1] }

/-- A 1x1 source rectangle. -/
def unitRect : SkRect := { fLeft := 0, fTop := 0, fRight := 1, fBottom := 1 }

/-- Shader caps with ample limits (integer support, 16 fragment samplers, a
large multitexturing area threshold). -/
def ampleShaderCaps : GrShaderCaps :=
  { integerSupport := true, maxFragmentSamplers := 16,
    disableImageMultitexturingDstRectAreaThreshold := 1000000,
    interpolantsAreInaccurate := false }

/-- Caps wrapping ampleShaderCaps. -/
def ampleCaps : GrCaps := { shaderCaps := ampleShaderCaps }

/-- Shader caps whose hardware fragment-sampler limit is exactly 2 (multitexture
is supported since the limit exceeds 1). -/
def twoSamplerShaderCaps : GrShaderCaps :=
  { integerSupport := true, maxFragmentSamplers := 2,
    disableImageMultitexturingDstRectAreaThreshold := 1000000,
    interpolantsAreInaccurate := false }

/-- Caps wrapping twoSamplerShaderCaps. -/
def twoSamplerCaps : GrCaps := { shaderCaps := twoSamplerShaderCaps }

/-- Shader caps like noLimit ones but with a capped nine-slot budget used in the
slot-rounding enumeration (no integer-support restriction, effectively
unbounded sampler limit). -/
def noLimitShaderCaps : GrShaderCaps :=
  { integerSupport := true, maxFragmentSamplers := 1000,
    disableImageMultitexturingDstRectAreaThreshold := 1000000,
    interpolantsAreInaccurate := false }

/-- A single-draw batch state over a 2D-sampler proxy with the given identity
and filter: the state a fresh ctor call produces for a unit destination quad
(approximate destination area 1); no AA, no color-space transform. -/
def plainOp (id : Nat) (filter : GrSamplerState.Filter) : TextureOp :=
  { fDraws := [{ fSrcRect := unitRect, fTextureIdx := 0, fQuad := unitQuad, fColor := 0 }],
    fColorSpaceXform := none,
    fProxies := [(proxy2D id, filter)],
    fMaxApproxDstPixelArea := 1,
    fAAType := GrAAType.kNone, fPerspective := false, fFinalized := false,
    fAllowSRGBInputs := false, fBounds := unitRect }

/-- A batch like plainOp but over an external-sampler proxy. -/
def plainOpExternal (id : Nat) (filter : GrSamplerState.Filter) : TextureOp :=
  { plainOp id filter with fProxies := [(proxyExternal id, filter)] }

/-- A flush target in which every resource operation succeeds. -/
def allOkTarget : FlushTarget :=
  { instantiateOk := fun _ => true, vertexAllocOk := true, quadIndexBufferOk := true,
    quadCountOfQuadBuffer := 512 }

end ConcreteSamples

/-- Number of finalize steps in a lifecycle step sequence. -/
def countFinalizes (steps : List PreStep) : Nat :=
  (steps.filter fun s =>
    match s with
    | PreStep.finalizeStep => true
    | PreStep.mergeStep _ _ => false).length

/-- A freshly made single-texture batch over the plain 2D texture, used to
instantiate the lifecycle accounting. -/
def c8op0 : TextureOp :=
  TextureOp.make (proxy2D 1) GrSamplerState.Filter.kNearest 0 unitRect unitQuad
    false GrAAType.kNone none false

/-- The batch after its finalize step. -/
def c8opF : TextureOp := { c8op0 with fFinalized := true }

/-- The reference-count events of finalizing the fresh batch. -/
def c8evs : List LifeEvent :=
  [LifeEvent.addPendingRead (proxy2D 1).uniqueID,
   LifeEvent.unref (proxy2D 1).uniqueID]

/-- The reference-count events of destroying the finalized batch. -/
def c8devs : List LifeEvent :=
  [LifeEvent.completedRead (proxy2D 1).uniqueID]

/-- A legal step sequence that finalizes first and then merges: used to show
merges are not confined to the pre-finalization phase. -/
def c9steps : List PreStep :=
  [PreStep.finalizeStep,
   PreStep.mergeStep (plainOp 2 GrSamplerState.Filter.kNearest) ampleCaps]

/-! ### Theorems -/

/-- Claim C1: for every requested distinct-texture count n with 1 ≤ n ≤ the hard
maximum and n ≤ the hardware fragment-sampler limit, the shader-variant
selector returns 1 slot when n = 1, 4 slots when 2 ≤ n ≤ 4, and otherwise the
next power of two of n capped by both the hard maximum (8 in this build) and
the hardware fragment-sampler limit; SkNextPow2 is indeed the least power of
two at or above n, and with a cap of 8 and no limit restriction the requests
1..8 (a request of 9 is clamped to 8 by the precondition) map to slot counts
1, 4, 4, 4, 8, 8, 8, 8. -/
theorem claim_C1 :
    (∀ (n : Nat) (caps : GrShaderCaps),
        1 ≤ n → n ≤ TextureGeometryProcessor.kMaxTextures →
        n ≤ caps.maxFragmentSamplers →
        TextureGeometryProcessor.NumSamplersToUse n caps =
          if n = 1 then 1
          else if n ≤ 4 then 4
          else
            min (SkNextPow2 n)
              (min TextureGeometryProcessor.kMaxTextures caps.maxFragmentSamplers)) ∧
    (∀ n : Nat, 1 ≤ n → n ≤ TextureGeometryProcessor.kMaxTextures →
        ∃ k : Nat, SkNextPow2 n = 2 ^ k ∧ n ≤ 2 ^ k ∧ 2 ^ k < 2 * n) ∧
    (List.range' 1 8).map
        (fun n => TextureGeometryProcessor.NumSamplersToUse n noLimitShaderCaps) =
      [1, 4, 4, 4, 8, 8, 8, 8] := by
  refine ⟨fun n caps _ _ _ => rfl, ?_, ?_⟩
  · intro n h1 h8
    rw [TextureGeometryProcessor.kMaxTextures] at h8
    interval_cases n
    · exact ⟨0, by simp [SkNextPow2, SkCLZ, Nat.log2], by norm_num, by norm_num⟩
    · exact ⟨1, by simp [SkNextPow2, SkCLZ, Nat.log2], by norm_num, by norm_num⟩
    · exact ⟨2, by simp [SkNextPow2, SkCLZ, Nat.log2], by norm_num, by norm_num⟩
    · exact ⟨2, by simp [SkNextPow2, SkCLZ, Nat.log2], by norm_num, by norm_num⟩
    · exact ⟨3, by simp [SkNextPow2, SkCLZ, Nat.log2], by norm_num, by norm_num⟩
    · exact ⟨3, by simp [SkNextPow2, SkCLZ, Nat.log2], by norm_num, by norm_num⟩
    · exact ⟨3, by simp [SkNextPow2, SkCLZ, Nat.log2], by norm_num, by norm_num⟩
    · exact ⟨3, by simp [SkNextPow2, SkCLZ, Nat.log2], by norm_num, by norm_num⟩
  · have h1 : TextureGeometryProcessor.NumSamplersToUse 1 noLimitShaderCaps = 1 := by
      simp [TextureGeometryProcessor.NumSamplersToUse]
    have h2 : TextureGeometryProcessor.NumSamplersToUse 2 noLimitShaderCaps = 4 := by
      simp [TextureGeometryProcessor.NumSamplersToUse]
    have h3 : TextureGeometryProcessor.NumSamplersToUse 3 noLimitShaderCaps = 4 := by
      simp [TextureGeometryProcessor.NumSamplersToUse]
    have h4 : TextureGeometryProcessor.NumSamplersToUse 4 noLimitShaderCaps = 4 := by
      simp [TextureGeometryProcessor.NumSamplersToUse]
    have h5 : TextureGeometryProcessor.NumSamplersToUse 5 noLimitShaderCaps = 8 := by
      simp [TextureGeometryProcessor.NumSamplersToUse, SkNextPow2, SkCLZ, Nat.log2,
        SkTMin, TextureGeometryProcessor.kMaxTextures, noLimitShaderCaps]
    have h6 : TextureGeometryProcessor.NumSamplersToUse 6 noLimitShaderCaps = 8 := by
      simp [TextureGeometryProcessor.NumSamplersToUse, SkNextPow2, SkCLZ, Nat.log2,
        SkTMin, TextureGeometryProcessor.kMaxTextures, noLimitShaderCaps]
    have h7 : TextureGeometryProcessor.NumSamplersToUse 7 noLimitShaderCaps = 8 := by
      simp [TextureGeometryProcessor.NumSamplersToUse, SkNextPow2, SkCLZ, Nat.log2,
        SkTMin, TextureGeometryProcessor.kMaxTextures, noLimitShaderCaps]
    have h8 : TextureGeometryProcessor.NumSamplersToUse 8 noLimitShaderCaps = 8 := by
      simp [TextureGeometryProcessor.NumSamplersToUse, SkNextPow2, SkCLZ, Nat.log2,
        SkTMin, TextureGeometryProcessor.kMaxTextures, noLimitShaderCaps]
    show [TextureGeometryProcessor.NumSamplersToUse 1 noLimitShaderCaps,
          TextureGeometryProcessor.NumSamplersToUse 2 noLimitShaderCaps,
          TextureGeometryProcessor.NumSamplersToUse 3 noLimitShaderCaps,
          TextureGeometryProcessor.NumSamplersToUse 4 noLimitShaderCaps,
          TextureGeometryProcessor.NumSamplersToUse 5 noLimitShaderCaps,
          TextureGeometryProcessor.NumSamplersToUse 6 noLimitShaderCaps,
          TextureGeometryProcessor.NumSamplersToUse 7 noLimitShaderCaps,
          TextureGeometryProcessor.NumSamplersToUse 8 noLimitShaderCaps] = _
    rw [h1, h2, h3, h4, h5, h6, h7, h8]

/-- Witness for C1: the theorem applied at n = 6 with the unrestricted caps. -/
theorem claim_C1_witness :
    TextureGeometryProcessor.NumSamplersToUse 6 noLimitShaderCaps =
      min (SkNextPow2 6)
        (min TextureGeometryProcessor.kMaxTextures noLimitShaderCaps.maxFragmentSamplers) ∧
    ∃ k : Nat, SkNextPow2 6 = 2 ^ k ∧ 6 ≤ 2 ^ k ∧ 2 ^ k < 2 * 6 := by
  constructor
  · have h := claim_C1.1 6 noLimitShaderCaps (by norm_num)
      (by norm_num [TextureGeometryProcessor.kMaxTextures])
      (by norm_num [noLimitShaderCaps])
    simpa using h
  · exact claim_C1.2.1 6 (by norm_num) (by norm_num [TextureGeometryProcessor.kMaxTextures])

/-- Claim C5: with all flush-time resources available, a single-draw batch
submits a non-indexed 4-vertex triangle strip, and a batch of n > 1 draws
submits an indexed triangle list over 4n allocated vertices with the shared
quad index pattern of 6 indices per 4-vertex quad repeated n times (so two
merged draws give 8 vertices and 12 indices); either way the submission is the
batch's one draw call. -/
theorem claim_C5 (op : TextureOp) (target : FlushTarget)
    (hInst : ∀ pf ∈ op.fProxies, target.instantiateOk pf.1 = true)
    (hVert : target.vertexAllocOk = true)
    (hIdx : target.quadIndexBufferOk = true) :
    (op.fDraws.length = 1 →
      op.onPrepareDraws target =
        some (4, { fPrimitiveType := GrPrimitiveType.kTriangleStrip,
                   fIndexPattern := none,
                   fNonIndexedVertexCount := some 4 })) ∧
    (1 < op.fDraws.length →
      op.onPrepareDraws target =
        some (4 * op.fDraws.length,
          { fPrimitiveType := GrPrimitiveType.kTriangles,
            fIndexPattern := some (6, 4, op.fDraws.length, target.quadCountOfQuadBuffer),
            fNonIndexedVertexCount := none })) := by
  have hAll : (op.fProxies.all fun pf => target.instantiateOk pf.1) = true :=
    List.all_eq_true.2 hInst
  constructor
  · intro h1
    simp [TextureOp.onPrepareDraws, hAll, hVert, h1]
  · intro h1
    simp [TextureOp.onPrepareDraws, hAll, hVert, hIdx, h1, Nat.lt_irrefl,
      Nat.not_lt.2 (Nat.le_of_lt h1)]

/-- Witness for C5: a concrete single-draw batch with every resource available
submits the 4-vertex strip. -/
theorem claim_C5_witness :
    (plainOp 1 GrSamplerState.Filter.kNearest).onPrepareDraws allOkTarget =
      some (4, { fPrimitiveType := GrPrimitiveType.kTriangleStrip,
                 fIndexPattern := none,
                 fNonIndexedVertexCount := some 4 }) :=
  (claim_C5 (plainOp 1 GrSamplerState.Filter.kNearest) allOkTarget (by decide) rfl rfl).1
    (by decide)

/-- Claim C6: if instantiating any referenced texture fails, or the vertex
buffer cannot be allocated, or (for a multi-draw batch) the shared quad index
buffer cannot be acquired, the batch submits nothing at all: onPrepareDraws is
none rather than a crash, and in this per-batch model the failure touches no
other batch. -/
theorem claim_C6 (op : TextureOp) (target : FlushTarget)
    (h : (∃ pf ∈ op.fProxies, target.instantiateOk pf.1 = false) ∨
         target.vertexAllocOk = false ∨
         (1 < op.fDraws.length ∧ target.quadIndexBufferOk = false)) :
    op.onPrepareDraws target = none := by
  rcases h with ⟨pf, hmem, hbad⟩ | hvert | ⟨hn, hidx⟩
  · have : ¬ (op.fProxies.all fun pf => target.instantiateOk pf.1) = true := by
      intro hall
      have := List.all_eq_true.1 hall pf hmem
      rw [hbad] at this
      exact Bool.false_ne_true this
    simp [TextureOp.onPrepareDraws, this]
  · by_cases hall : (op.fProxies.all fun pf => target.instantiateOk pf.1) = true
    · simp [TextureOp.onPrepareDraws, hall, hvert]
    · simp [TextureOp.onPrepareDraws, hall]
  · by_cases hall : (op.fProxies.all fun pf => target.instantiateOk pf.1) = true
    · by_cases hvert : target.vertexAllocOk = true
      · simp [TextureOp.onPrepareDraws, hall, hvert, hn, hidx]
      · simp [TextureOp.onPrepareDraws, hall, Bool.eq_false_iff.2 hvert]
    · simp [TextureOp.onPrepareDraws, hall]

/-- Witness for C6: a concrete batch whose vertex allocation fails submits
nothing. -/
theorem claim_C6_witness :
    (plainOp 1 GrSamplerState.Filter.kNearest).onPrepareDraws
      { allOkTarget with vertexAllocOk := false } = none :=
  claim_C6 (plainOp 1 GrSamplerState.Filter.kNearest)
    { allOkTarget with vertexAllocOk := false } (Or.inr (Or.inl rfl))

/-- findMatch misses exactly when no proxy in the list has the requested
identity. -/
theorem findMatch_eq_none_iff (id : Nat)
    (l : List (GrTextureProxy × GrSamplerState.Filter)) :
    TextureOp.findMatch id l = none ↔ ∀ pf ∈ l, pf.1.uniqueID ≠ id := by
  induction l with
  | nil => simp [TextureOp.findMatch]
  | cons pf rest ih =>
    rw [TextureOp.findMatch]
    by_cases h : pf.1.uniqueID = id
    · simp [h]
    · rw [if_neg h]
      cases hfm : TextureOp.findMatch id rest with
      | none =>
        simp only [List.mem_cons]
        constructor
        · intro _ pf2 hm
          rcases hm with rfl | hm
          · exact h
          · exact (ih.1 hfm) pf2 hm
        · intro _; trivial
      | some jf =>
        obtain ⟨j, f⟩ := jf
        simp only [List.mem_cons]
        constructor
        · intro hc; exact absurd hc (by simp)
        · intro hall
          have hnone : TextureOp.findMatch id rest = none :=
            ih.2 (fun pf2 hm => hall pf2 (Or.inr hm))
          rw [hnone] at hfm
          cases hfm
/-- On a duplicate-free proxy list, findMatch on a member's identity yields that
member's slot and filter. -/
theorem findMatch_mem_nodup {l : List (GrTextureProxy × GrSamplerState.Filter)}
    (hnd : (l.map (fun pf => pf.1.uniqueID)).Nodup)
    {qg : GrTextureProxy × GrSamplerState.Filter} (hmem : qg ∈ l) {id : Nat}
    (hid : qg.1.uniqueID = id) :
    ∃ j, TextureOp.findMatch id l = some (j, qg.2) := by
  induction l with
  | nil => cases hmem
  | cons pf rest ih =>
    rw [List.map_cons] at hnd
    rcases List.mem_cons.1 hmem with rfl | hmem2
    · exact ⟨0, by rw [TextureOp.findMatch, if_pos hid]⟩
    · by_cases h : pf.1.uniqueID = id
      · exfalso
        have hm : qg.1.uniqueID ∈ rest.map (fun pf2 => pf2.1.uniqueID) :=
          List.mem_map_of_mem _ hmem2
        rw [hid, ← h] at hm
        exact (List.nodup_cons.1 hnd).1 hm
      · obtain ⟨j, hj⟩ := ih (List.nodup_cons.1 hnd).2 hmem2
        exact ⟨j + 1, by rw [TextureOp.findMatch, if_neg h, hj]⟩

/-- If some proxy shared by both lists carries different filters, the
unification loop of mergeProxies aborts (the source's return -1). -/
theorem unifyLoop_abort (thatPs : List (GrTextureProxy × GrSamplerState.Filter))
    (hnd : (thatPs.map (fun pf => pf.1.uniqueID)).Nodup)
    (thisList : List (GrTextureProxy × GrSamplerState.Filter)) :
    ∀ (i : Nat) (map : List Int) (shared : Nat)
      (pf qg : GrTextureProxy × GrSamplerState.Filter),
      pf ∈ thisList → qg ∈ thatPs →
      pf.1.uniqueID = qg.1.uniqueID → pf.2 ≠ qg.2 →
      TextureOp.unifyProxiesLoop thatPs thisList i map shared = none := by
  induction thisList with
  | nil => intro i map shared pf qg hpf; cases hpf
  | cons pf0 rest ih =>
    intro i map shared pf qg hpf hqg hid hfil
    rw [TextureOp.unifyProxiesLoop]
    rcases List.mem_cons.1 hpf with rfl | hpf2
    · obtain ⟨j, hj⟩ := findMatch_mem_nodup hnd hqg hid.symm
      rw [hj]
      simp only [if_pos hfil]
    · cases hfm : TextureOp.findMatch pf0.1.uniqueID thatPs with
      | none => exact ih (i + 1) map shared pf qg hpf2 hqg hid hfil
      | some jf =>
        obtain ⟨j, f⟩ := jf
        dsimp only
        by_cases hf : pf0.2 ≠ f
        · rw [if_pos hf]
        · rw [if_neg hf]
          exact ih (i + 1) (map.set j (Int.ofNat i)) (shared + 1) pf qg hpf2 hqg hid hfil

/-- Claim C3: the merge predicate signals "not merged" (and by construction the
source mutates nothing on any false path) whenever the two batches' AA modes
differ, their color-space transforms are not value-equal, or some texture
identity appears in both with different filter modes (the latter needs the
other batch's texture list duplicate-free, which is invariant C7). -/
theorem claim_C3 (caps : GrCaps) (op that : TextureOp)
    (hnd : that.proxyIDs.Nodup)
    (h : op.fAAType ≠ that.fAAType ∨
         GrColorSpaceXform.Equals op.fColorSpaceXform that.fColorSpaceXform = false ∨
         ∃ pf ∈ op.fProxies, ∃ qg ∈ that.fProxies,
           pf.1.uniqueID = qg.1.uniqueID ∧ pf.2 ≠ qg.2) :
    TextureOp.onCombineIfPossible caps op that = none := by
  rw [TextureOp.onCombineIfPossible]
  by_cases hcs : GrColorSpaceXform.Equals op.fColorSpaceXform that.fColorSpaceXform = false
  · rw [if_pos hcs]
  · rw [if_neg hcs]
    by_cases haa : op.fAAType ≠ that.fAAType
    · rw [if_pos haa]
    · rw [if_neg haa]
      rcases h with h | h | ⟨pf, hpf, qg, hqg, hid, hfil⟩
      · exact absurd h haa
      · exact absurd h hcs
      · have hcore : ∀ c : Option TextureOp, c = none →
            (match c with
             | none => none
             | some op2 =>
               some { op2 with
                       fBounds := SkRect.join op2.fBounds that.fBounds,
                       fMaxApproxDstPixelArea :=
                         SkTMaxN that.fMaxApproxDstPixelArea op2.fMaxApproxDstPixelArea,
                       fPerspective := op2.fPerspective || that.fPerspective }) =
              (none : Option TextureOp) := by
          intro c hc; rw [hc]
        refine hcore _ ?_
        split
        · rw [TextureOp.mergeProxies]
          rw [unifyLoop_abort that.fProxies hnd op.fProxies 0 _ 0 pf qg hpf hqg hid hfil]
        · have hlen1 : 1 ≤ op.fProxies.length := by
            cases hl : op.fProxies with
            | nil => rw [hl] at hpf; cases hpf
            | cons a l => simp
          have hlen2 : 1 ≤ that.fProxies.length := by
            cases hl : that.fProxies with
            | nil => rw [hl] at hqg; cases hqg
            | cons a l => simp
          by_cases hgt : 1 < op.fProxies.length ∨ 1 < that.fProxies.length
          · rw [if_pos hgt]
          · rw [if_neg hgt]
            push_neg at hgt
            have h1 : op.fProxies.length = 1 := by omega
            have h2 : that.fProxies.length = 1 := by omega
            obtain ⟨a, ha⟩ := List.length_eq_one.1 h1
            obtain ⟨b, hb⟩ := List.length_eq_one.1 h2
            rw [ha] at hpf
            rw [hb] at hqg
            have hpa : pf = a := by simpa using hpf
            have hqb : qg = b := by simpa using hqg
            rw [if_pos ?_]
            rw [ha, hb]
            simp only [List.headD_cons]
            rw [← hpa, ← hqb]
            by_cases hide : pf.1.uniqueID ≠ qg.1.uniqueID
            · exact Or.inl hide
            · exact Or.inr hfil

/-- Witness for C3: two concrete single-texture batches over the same texture
identity with different filter modes do not merge. -/
theorem claim_C3_witness :
    TextureOp.onCombineIfPossible ampleCaps
      (plainOp 1 GrSamplerState.Filter.kNearest)
      (plainOp 1 GrSamplerState.Filter.kBilerp) = none :=
  claim_C3 ampleCaps (plainOp 1 GrSamplerState.Filter.kNearest)
    (plainOp 1 GrSamplerState.Filter.kBilerp) (by decide)
    (Or.inr (Or.inr ⟨(proxy2D 1, GrSamplerState.Filter.kNearest), by decide,
      (proxy2D 1, GrSamplerState.Filter.kBilerp), by decide, by decide, by decide⟩))

/-- Counterexample to C2 as stated: the claim requires only that the second
texture's pixel config and sampler type "match slot 0".  Here every stated
hypothesis holds — distinct identities, equal AA, absent transforms,
multitexture support, areas below threshold, combined count within the cap,
config equal to slot 0 and sampler type equal to slot 0's (both are the
external-image sampler type) — yet the merge fails, because the code accepts an
instantiated texture only when its sampler type is the plain 2D one,
irrespective of slot 0. -/
theorem claim_C2_counterexample :
    (proxyExternal 1).uniqueID ≠ (proxyExternal 2).uniqueID ∧
    (plainOpExternal 1 GrSamplerState.Filter.kNearest).fAAType =
      (plainOpExternal 2 GrSamplerState.Filter.kNearest).fAAType ∧
    (plainOpExternal 1 GrSamplerState.Filter.kNearest).fColorSpaceXform = none ∧
    (plainOpExternal 2 GrSamplerState.Filter.kNearest).fColorSpaceXform = none ∧
    TextureGeometryProcessor.SupportsMultitexture ampleShaderCaps = true ∧
    (plainOpExternal 1 GrSamplerState.Filter.kNearest).fMaxApproxDstPixelArea ≤
      ampleShaderCaps.disableImageMultitexturingDstRectAreaThreshold ∧
    (plainOpExternal 2 GrSamplerState.Filter.kNearest).fMaxApproxDstPixelArea ≤
      ampleShaderCaps.disableImageMultitexturingDstRectAreaThreshold ∧
    2 ≤ min TextureGeometryProcessor.kMaxTextures ampleShaderCaps.maxFragmentSamplers ∧
    (proxyExternal 2).config = (proxyExternal 1).config ∧
    (proxyExternal 2).texture.map GrTexture.samplerType =
      (proxyExternal 1).texture.map GrTexture.samplerType ∧
    TextureOp.onCombineIfPossible ampleCaps
      (plainOpExternal 1 GrSamplerState.Filter.kNearest)
      (plainOpExternal 2 GrSamplerState.Filter.kNearest) = none := by decide

/-- Claim C2 (amended): as the claim states, except that the second texture's
sampler-type condition is the code's: an instantiated second texture must have
the plain 2D sampler type (slot 0's own sampler type is not consulted).  Under
those hypotheses the merge succeeds, the combined batch holds exactly the two
textures, its draw list is this batch's draws followed by the other's draws
remapped to slot 1 (the slot holding their texture), and every index stays
valid. -/
theorem claim_C2 (caps : GrCaps) (op that : TextureOp)
    (p q : GrTextureProxy) (f g : GrSamplerState.Filter)
    (hOp : op.fProxies = [(p, f)]) (hThat : that.fProxies = [(q, g)])
    (hid : p.uniqueID ≠ q.uniqueID)
    (haa : op.fAAType = that.fAAType)
    (hcs1 : op.fColorSpaceXform = none) (hcs2 : that.fColorSpaceXform = none)
    (hmt : TextureGeometryProcessor.SupportsMultitexture caps.shaderCaps = true)
    (ha1 : op.fMaxApproxDstPixelArea ≤
      caps.shaderCaps.disableImageMultitexturingDstRectAreaThreshold)
    (ha2 : that.fMaxApproxDstPixelArea ≤
      caps.shaderCaps.disableImageMultitexturingDstRectAreaThreshold)
    (hcap : 2 ≤ min TextureGeometryProcessor.kMaxTextures caps.shaderCaps.maxFragmentSamplers)
    (hconfig : q.config = p.config)
    (hsampler : ∀ tex, q.texture = some tex →
        tex.samplerType = GrSLType.kTexture2DSampler_GrSLType)
    (hOpDraws : ∀ d ∈ op.fDraws, d.fTextureIdx = 0)
    (hThatDraws : ∀ d ∈ that.fDraws, d.fTextureIdx = 0) :
    ∃ op2, TextureOp.onCombineIfPossible caps op that = some op2 ∧
      op2.fProxies = [(p, f), (q, g)] ∧
      op2.fDraws = op.fDraws ++ that.fDraws.map (fun d => { d with fTextureIdx := 1 }) ∧
      ∀ d ∈ op2.fDraws, d.fTextureIdx < 2 := by
  have hfm : TextureOp.findMatch p.uniqueID [(q, g)] = none := by
    rw [TextureOp.findMatch, if_neg (fun hc => hid (Eq.symm hc)), TextureOp.findMatch]
  have hunify : TextureOp.unifyProxiesLoop that.fProxies op.fProxies 0
      TextureOp.initialProxyMap 0 = some (TextureOp.initialProxyMap, 0) := by
    rw [hOp, hThat, TextureOp.unifyProxiesLoop, hfm]
    rw [TextureOp.unifyProxiesLoop]
  have hns : TextureOp.hasNon2DSamplerType q = false := by
    cases hq : q.texture with
    | none => simp [TextureOp.hasNon2DSamplerType, hq]
    | some tex => simp [TextureOp.hasNon2DSamplerType, hq, hsampler tex hq]
  have hcfg : TextureOp.configCheckLoop p.config [(q, g)] 0 TextureOp.initialProxyMap 1 =
      some (TextureOp.initialProxyMap.set 0 (-1)) := by
    rw [TextureOp.configCheckLoop, if_neg (by simp [hconfig]), if_neg (by simp [hns]),
      if_pos (by decide), TextureOp.configCheckLoop]
    norm_num
  have hmp : TextureOp.mergeProxies op that caps.shaderCaps =
      some (TextureOp.initialProxyMap.set 0 (-1), 1) := by
    rw [TextureOp.mergeProxies]
    rw [hunify]
    dsimp only
    rw [if_neg ?hguard]
    case hguard =>
      rw [hThat, hOp]
      simp only [List.length_cons, List.length_nil, SkTMin]
      push_cast
      omega
    rw [hOp, hThat]
    simp only [List.headD_cons, List.length_cons, List.length_nil]
    rw [hcfg]
    norm_num
  have hval : ((TextureOp.initialProxyMap.set 0 (-1)).getD 0 0).natAbs = 1 := by decide
  have hremap : that.fDraws.map
      (fun d => { d with
        fTextureIdx := ((TextureOp.initialProxyMap.set 0 (-1)).getD d.fTextureIdx 0).natAbs }) =
      that.fDraws.map (fun d => { d with fTextureIdx := 1 }) := by
    apply List.map_congr_left
    intro d hd
    have h0 := hThatDraws d hd
    rw [h0, hval]
  have hcomb : TextureOp.onCombineIfPossible caps op that =
      some { op with
             fProxies := [(p, f), (q, g)],
             fDraws := op.fDraws ++ that.fDraws.map (fun d => { d with fTextureIdx := 1 }),
             fBounds := SkRect.join op.fBounds that.fBounds,
             fMaxApproxDstPixelArea :=
               SkTMaxN that.fMaxApproxDstPixelArea op.fMaxApproxDstPixelArea,
             fPerspective := op.fPerspective || that.fPerspective } := by
    rw [TextureOp.onCombineIfPossible]
    rw [if_neg (by simp [GrColorSpaceXform.Equals, hcs1, hcs2])]
    rw [if_neg (by simp [haa])]
    dsimp only
    rw [if_pos (by simp [hmt, hcs1, ha1, ha2])]
    rw [hmp]
    dsimp only
    rw [hremap]
    rw [hOp, hThat]
    rw [TextureOp.collectNewProxies, if_pos (by decide), TextureOp.collectNewProxies]
    rfl
  refine ⟨_, hcomb, by simp, by simp, ?_⟩
  intro d hd
  simp only [List.mem_append, List.mem_map] at hd
  rcases hd with hd | ⟨d0, hd0, rfl⟩
  · rw [hOpDraws d hd]; omega
  · simp

/-- Witness for C2: the amended theorem applied to two concrete single-texture
batches over 2D-sampler textures with identities 1 and 2. -/
theorem claim_C2_witness :
    ∃ op2, TextureOp.onCombineIfPossible ampleCaps
        (plainOp 1 GrSamplerState.Filter.kNearest)
        (plainOp 2 GrSamplerState.Filter.kNearest) = some op2 ∧
      op2.fProxies = [(proxy2D 1, GrSamplerState.Filter.kNearest),
                      (proxy2D 2, GrSamplerState.Filter.kNearest)] ∧
      op2.fDraws = (plainOp 1 GrSamplerState.Filter.kNearest).fDraws ++
        (plainOp 2 GrSamplerState.Filter.kNearest).fDraws.map
          (fun d => { d with fTextureIdx := 1 }) ∧
      ∀ d ∈ op2.fDraws, d.fTextureIdx < 2 :=
  claim_C2 ampleCaps (plainOp 1 GrSamplerState.Filter.kNearest)
    (plainOp 2 GrSamplerState.Filter.kNearest)
    (proxy2D 1) (proxy2D 2) GrSamplerState.Filter.kNearest GrSamplerState.Filter.kNearest
    rfl rfl (by decide) rfl rfl rfl (by decide) (by decide) (by decide) (by decide)
    (by decide) (by decide) (by decide) (by decide)

theorem findMatch_some_spec (id : Nat)
    (l : List (GrTextureProxy × GrSamplerState.Filter)) (j : Nat)
    (f : GrSamplerState.Filter) (h : TextureOp.findMatch id l = some (j, f)) :
    ∃ hj : j < l.length, (l.get ⟨j, hj⟩).1.uniqueID = id ∧ (l.get ⟨j, hj⟩).2 = f := by
  induction l generalizing j f with
  | nil => cases h
  | cons pf rest ih =>
    rw [TextureOp.findMatch] at h
    by_cases hid : pf.1.uniqueID = id
    · rw [if_pos hid] at h
      injection h with h2
      injection h2 with hj hf
      subst hj
      refine ⟨by simp, ?_, ?_⟩
      · simpa using hid
      · simpa using hf
    · rw [if_neg hid] at h
      cases hfm : TextureOp.findMatch id rest with
      | none => rw [hfm] at h; cases h
      | some jf =>
        obtain ⟨j0, f0⟩ := jf
        rw [hfm] at h
        dsimp only at h
        injection h with h2
        injection h2 with hj hf
        obtain ⟨hj0, hid0, hf0⟩ := ih j0 f0 hfm
        subst hj
        subst hf
        refine ⟨by simpa using Nat.succ_lt_succ hj0, ?_, ?_⟩
        · simpa using hid0
        · simpa using hf0

theorem unifyLoop_some_length
    (thatPs : List (GrTextureProxy × GrSamplerState.Filter)) :
    ∀ (l : List (GrTextureProxy × GrSamplerState.Filter)) (i : Nat) (map : List Int)
      (shared : Nat) (mapF : List Int) (sharedF : Nat),
      TextureOp.unifyProxiesLoop thatPs l i map shared = some (mapF, sharedF) →
      mapF.length = map.length := by
  intro l
  induction l with
  | nil =>
    intro i map shared mapF sharedF h
    rw [TextureOp.unifyProxiesLoop] at h
    injection h with h2
    injection h2 with h3 _
    rw [← h3]
  | cons pf rest ih =>
    intro i map shared mapF sharedF h
    rw [TextureOp.unifyProxiesLoop] at h
    cases hfm : TextureOp.findMatch pf.1.uniqueID thatPs with
    | none =>
      rw [hfm] at h
      exact ih (i + 1) map shared mapF sharedF h
    | some jf =>
      obtain ⟨j, f⟩ := jf
      rw [hfm] at h
      dsimp only at h
      by_cases hfil : pf.2 ≠ f
      · rw [if_pos hfil] at h; cases h
      · rw [if_neg hfil] at h
        have := ih (i + 1) (map.set j (Int.ofNat i)) (shared + 1) mapF sharedF h
        simpa using this

theorem unifyLoop_entry_cases
    (thatPs : List (GrTextureProxy × GrSamplerState.Filter)) :
    ∀ (l : List (GrTextureProxy × GrSamplerState.Filter)) (i : Nat) (map : List Int)
      (shared : Nat) (mapF : List Int) (sharedF : Nat),
      TextureOp.unifyProxiesLoop thatPs l i map shared = some (mapF, sharedF) →
      ∀ k, mapF.getD k 0 = map.getD k 0 ∨
        (0 ≤ mapF.getD k 0 ∧ mapF.getD k 0 < (i : Int) + l.length ∧ k < thatPs.length) := by
  intro l
  induction l with
  | nil =>
    intro i map shared mapF sharedF h k
    rw [TextureOp.unifyProxiesLoop] at h
    injection h with h2
    injection h2 with h3 _
    rw [← h3]
    exact Or.inl rfl
  | cons pf rest ih =>
    intro i map shared mapF sharedF h k
    rw [TextureOp.unifyProxiesLoop] at h
    cases hfm : TextureOp.findMatch pf.1.uniqueID thatPs with
    | none =>
      rw [hfm] at h
      rcases ih (i + 1) map shared mapF sharedF h k with h1 | ⟨h1, h2, h3⟩
      · exact Or.inl h1
      · refine Or.inr ⟨h1, ?_, h3⟩
        push_cast [List.length_cons] at h2 ⊢
        omega
    | some jf =>
      obtain ⟨j, f⟩ := jf
      rw [hfm] at h
      dsimp only at h
      by_cases hfil : pf.2 ≠ f
      · rw [if_pos hfil] at h; cases h
      · rw [if_neg hfil] at h
        obtain ⟨hj, hjid, hjf⟩ := findMatch_some_spec pf.1.uniqueID thatPs j f hfm
        rcases ih (i + 1) (map.set j (Int.ofNat i)) (shared + 1) mapF sharedF h k
          with h1 | ⟨h1, h2, h3⟩
        · by_cases hkj : k = j
          · subst hkj
            by_cases hklen : k < map.length
            · rw [h1, List.getD_eq_getElem?_getD, List.getElem?_set_self (by simpa using hklen)]
              refine Or.inr ⟨by simp, ?_, hj⟩
              simp only [Option.getD_some]
              push_cast [List.length_cons, Int.ofNat_eq_natCast]
              omega
            · rw [h1, List.set_eq_of_length_le (by omega)]
              exact Or.inl rfl
          · rw [h1, List.getD_eq_getElem?_getD, List.getElem?_set_ne (fun hc => hkj hc.symm)]
            exact Or.inl (by rw [List.getD_eq_getElem?_getD])
        · refine Or.inr ⟨h1, ?_, h3⟩
          push_cast [List.length_cons] at h2 ⊢
          omega

theorem unifyLoop_nonneg_mono
    (thatPs : List (GrTextureProxy × GrSamplerState.Filter))
    (l : List (GrTextureProxy × GrSamplerState.Filter)) (i : Nat) (map : List Int)
    (shared : Nat) (mapF : List Int) (sharedF : Nat)
    (h : TextureOp.unifyProxiesLoop thatPs l i map shared = some (mapF, sharedF))
    (k : Nat) (hk : 0 ≤ map.getD k 0) : 0 ≤ mapF.getD k 0 := by
  rcases unifyLoop_entry_cases thatPs l i map shared mapF sharedF h k with h1 | ⟨h1, _, _⟩
  · rw [h1]; exact hk
  · exact h1

theorem unifyLoop_shared_entry
    (thatPs : List (GrTextureProxy × GrSamplerState.Filter))
    (hnd : (thatPs.map (fun pf => pf.1.uniqueID)).Nodup) :
    ∀ (l : List (GrTextureProxy × GrSamplerState.Filter)) (i : Nat) (map : List Int)
      (shared : Nat) (mapF : List Int) (sharedF : Nat),
      TextureOp.unifyProxiesLoop thatPs l i map shared = some (mapF, sharedF) →
      ∀ pf ∈ l, ∀ (k : Nat) (hk : k < thatPs.length),
        (thatPs.get ⟨k, hk⟩).1.uniqueID = pf.1.uniqueID → k < map.length →
        0 ≤ mapF.getD k 0 := by
  intro l
  induction l with
  | nil => intro i map shared mapF sharedF h pf hpf; cases hpf
  | cons pf0 rest ih =>
    intro i map shared mapF sharedF h pf hpf k hk hkid hklen
    rw [TextureOp.unifyProxiesLoop] at h
    rcases List.mem_cons.1 hpf with rfl | hpf2
    · obtain ⟨j, hj⟩ := findMatch_mem_nodup hnd (List.get_mem thatPs k hk) hkid
      rw [hj] at h
      dsimp only at h
      by_cases hfil : pf.2 ≠ (thatPs.get ⟨k, hk⟩).2
      · rw [if_pos hfil] at h; cases h
      · rw [if_neg hfil] at h
        obtain ⟨hjlt, hjid, hjf⟩ := findMatch_some_spec _ thatPs j _ hj
        have hkj : j = k := by
          have h1 : (thatPs.map (fun pf2 => pf2.1.uniqueID)).get
              ⟨j, by simpa using hjlt⟩ =
              (thatPs.map (fun pf2 => pf2.1.uniqueID)).get ⟨k, by simpa using hk⟩ := by
            simp only [List.get_map]
            rw [hjid, hkid]
          have := (List.Nodup.get_inj_iff hnd).1 h1
          simpa using this
        subst hkj
        refine unifyLoop_nonneg_mono thatPs rest (i + 1) _ (shared + 1) mapF sharedF h j ?_
        rw [List.getD_eq_getElem?_getD, List.getElem?_set_self (by simpa using hklen)]
        simp
    · cases hfm : TextureOp.findMatch pf0.1.uniqueID thatPs with
      | none =>
        rw [hfm] at h
        exact ih (i + 1) map shared mapF sharedF h pf hpf2 k hk hkid hklen
      | some jf =>
        obtain ⟨j, f⟩ := jf
        rw [hfm] at h
        dsimp only at h
        by_cases hfil : pf0.2 ≠ f
        · rw [if_pos hfil] at h; cases h
        · rw [if_neg hfil] at h
          exact ih (i + 1) (map.set j (Int.ofNat i)) (shared + 1) mapF sharedF h pf hpf2 k hk
            hkid (by simpa using hklen)

theorem unifyLoop_unshared_entry
    (thatPs : List (GrTextureProxy × GrSamplerState.Filter)) :
    ∀ (l : List (GrTextureProxy × GrSamplerState.Filter)) (i : Nat) (map : List Int)
      (shared : Nat) (mapF : List Int) (sharedF : Nat),
      TextureOp.unifyProxiesLoop thatPs l i map shared = some (mapF, sharedF) →
      ∀ (k : Nat) (hk : k < thatPs.length),
        ((thatPs.get ⟨k, hk⟩).1.uniqueID ∉ l.map (fun pf => pf.1.uniqueID)) →
        mapF.getD k 0 = map.getD k 0 := by
  intro l
  induction l with
  | nil =>
    intro i map shared mapF sharedF h k hk _
    rw [TextureOp.unifyProxiesLoop] at h
    injection h with h2
    injection h2 with h3 _
    rw [← h3]
  | cons pf0 rest ih =>
    intro i map shared mapF sharedF h k hk hnotin
    rw [List.map_cons] at hnotin
    have hne : (thatPs.get ⟨k, hk⟩).1.uniqueID ≠ pf0.1.uniqueID :=
      fun hc => hnotin (by rw [hc]; exact List.mem_cons_self _ _)
    have hrest : (thatPs.get ⟨k, hk⟩).1.uniqueID ∉ rest.map (fun pf => pf.1.uniqueID) :=
      fun hc => hnotin (List.mem_cons_of_mem _ hc)
    rw [TextureOp.unifyProxiesLoop] at h
    cases hfm : TextureOp.findMatch pf0.1.uniqueID thatPs with
    | none =>
      rw [hfm] at h
      exact ih (i + 1) map shared mapF sharedF h k hk hrest
    | some jf =>
      obtain ⟨j, f⟩ := jf
      rw [hfm] at h
      dsimp only at h
      by_cases hfil : pf0.2 ≠ f
      · rw [if_pos hfil] at h; cases h
      · rw [if_neg hfil] at h
        obtain ⟨hjlt, hjid, hjf⟩ := findMatch_some_spec _ thatPs j _ hfm
        have hkj : k ≠ j := by
          intro hc
          subst hc
          exact hne (by rw [← hjid])
        have := ih (i + 1) (map.set j (Int.ofNat i)) (shared + 1) mapF sharedF h k hk hrest
        rw [this, List.getD_eq_getElem?_getD, List.getElem?_set_ne (fun hc => hkj hc.symm),
          ← List.getD_eq_getElem?_getD]

theorem unifyLoop_shared_count
    (thatPs : List (GrTextureProxy × GrSamplerState.Filter)) :
    ∀ (l : List (GrTextureProxy × GrSamplerState.Filter)) (i : Nat) (map : List Int)
      (shared : Nat) (mapF : List Int) (sharedF : Nat),
      TextureOp.unifyProxiesLoop thatPs l i map shared = some (mapF, sharedF) →
      sharedF = shared + (l.filter (fun pf =>
        decide (pf.1.uniqueID ∈ thatPs.map (fun qg => qg.1.uniqueID)))).length := by
  intro l
  induction l with
  | nil =>
    intro i map shared mapF sharedF h
    rw [TextureOp.unifyProxiesLoop] at h
    injection h with h2
    injection h2 with _ h3
    simp [← h3]
  | cons pf0 rest ih =>
    intro i map shared mapF sharedF h
    rw [TextureOp.unifyProxiesLoop] at h
    cases hfm : TextureOp.findMatch pf0.1.uniqueID thatPs with
    | none =>
      rw [hfm] at h
      have hnotin : pf0.1.uniqueID ∉ thatPs.map (fun qg => qg.1.uniqueID) := by
        intro hc
        rcases List.mem_map.1 hc with ⟨qg, hqg, hid⟩
        exact ((findMatch_eq_none_iff _ thatPs).1 hfm) qg hqg hid
      rw [List.filter_cons_of_neg (by simpa using hnotin)]
      exact ih (i + 1) map shared mapF sharedF h
    | some jf =>
      obtain ⟨j, f⟩ := jf
      rw [hfm] at h
      dsimp only at h
      by_cases hfil : pf0.2 ≠ f
      · rw [if_pos hfil] at h; cases h
      · rw [if_neg hfil] at h
        obtain ⟨hjlt, hjid, hjf⟩ := findMatch_some_spec _ thatPs j _ hfm
        have hin : pf0.1.uniqueID ∈ thatPs.map (fun qg => qg.1.uniqueID) := by
          rw [← hjid]
          exact List.mem_map_of_mem _ (List.get_mem thatPs j hjlt)
        rw [List.filter_cons_of_pos (by simpa using hin)]
        have := ih (i + 1) (map.set j (Int.ofNat i)) (shared + 1) mapF sharedF h
        rw [this]
        simp [List.length_cons]
        omega

theorem configLoop_spec (c0 : Nat) :
    ∀ (tRest : List (GrTextureProxy × GrSamplerState.Filter)) (j : Nat)
      (map : List Int) (next : Nat) (map2 : List Int),
      TextureOp.configCheckLoop c0 tRest j map next = some map2 →
      j + tRest.length ≤ map.length → 1 ≤ next →
      map2.length = map.length ∧
      (∀ k, (k < j ∨ j + tRest.length ≤ k) → map2.getD k 0 = map.getD k 0) ∧
      (∀ k, j ≤ k → k < j + tRest.length → 0 ≤ map.getD k 0 →
          map2.getD k 0 = map.getD k 0) ∧
      (∀ k, j ≤ k → k < j + tRest.length → map2.getD k 0 < 0 →
          (next : Int) ≤ -(map2.getD k 0) ∧
          -(map2.getD k 0) <
            (next : Int) + (TextureOp.collectNewProxies map2 tRest j).length) ∧
      List.Sublist (TextureOp.collectNewProxies map2 tRest j) tRest ∧
      (∀ qg ∈ TextureOp.collectNewProxies map2 tRest j,
          ∃ (k : Nat) (hk : k < tRest.length),
            tRest.get ⟨k, hk⟩ = qg ∧ map.getD (j + k) 0 < 0) ∧
      (∀ k, j ≤ k → k < j + tRest.length → map.getD k 0 < 0 → map2.getD k 0 < 0) := by
  intro tRest
  induction tRest with
  | nil =>
    intro j map next map2 h hbound hnext
    rw [TextureOp.configCheckLoop] at h
    injection h with h2
    subst h2
    refine ⟨rfl, fun k _ => rfl, fun k _ _ _ => rfl, ?_, ?_, ?_, ?_⟩
    · intro k hk1 hk2
      simp at hk2
      omega
    · rw [TextureOp.collectNewProxies]
    · intro qg hqg
      rw [TextureOp.collectNewProxies] at hqg
      cases hqg
    · intro k hk1 hk2
      simp at hk2
      omega
  | cons qg rest ih =>
    intro j map next map2 h hbound hnext
    rw [TextureOp.configCheckLoop] at h
    by_cases hc : qg.1.config ≠ c0
    · rw [if_pos hc] at h; cases h
    rw [if_neg hc] at h
    by_cases hs : TextureOp.hasNon2DSamplerType qg.1 = true
    · rw [if_pos hs] at h; cases h
    rw [if_neg hs] at h
    have hjlen : j < map.length := by
      simp only [List.length_cons] at hbound
      omega
    by_cases hneg : map.getD j 0 < 0
    · rw [if_pos hneg] at h
      have hlen' : (j + 1) + rest.length ≤ (map.set j (-(next : Int))).length := by
        simp only [List.length_set, List.length_cons] at hbound ⊢
        omega
      obtain ⟨ih1, ih2, ih3, ih4, ih5, ih6, ih7⟩ :=
        ih (j + 1) (map.set j (-(next : Int))) (next + 1) map2 h hlen' (by omega)
      have hset_j : (map.set j (-(next : Int))).getD j 0 = -(next : Int) := by
        rw [List.getD_eq_getElem?_getD, List.getElem?_set_self hjlen]
        rfl
      have hset_ne : ∀ k, k ≠ j → (map.set j (-(next : Int))).getD k 0 = map.getD k 0 := by
        intro k hk
        rw [List.getD_eq_getElem?_getD, List.getElem?_set_ne (fun hc2 => hk hc2.symm),
          ← List.getD_eq_getElem?_getD]
      have hmap2_j : map2.getD j 0 = -(next : Int) := by
        rw [ih2 j (Or.inl (by omega)), hset_j]
      have hmap2_j_neg : map2.getD j 0 < 0 := by
        rw [hmap2_j]
        omega
      have hcollect : TextureOp.collectNewProxies map2 (qg :: rest) j =
          qg :: TextureOp.collectNewProxies map2 rest (j + 1) := by
        rw [TextureOp.collectNewProxies, if_pos hmap2_j_neg]
      refine ⟨by rw [ih1]; simp, ?_, ?_, ?_, ?_, ?_, ?_⟩
      · intro k hk
        have hkj : k ≠ j := by
          rcases hk with hk | hk
          · omega
          · simp only [List.length_cons] at hk
            omega
        rw [ih2 k ?_, hset_ne k hkj]
        rcases hk with hk | hk
        · exact Or.inl (by omega)
        · simp only [List.length_cons] at hk
          exact Or.inr (by omega)
      · intro k hk1 hk2 hk3
        by_cases hkj : k = j
        · subst hkj
          omega
        · have hk1' : j + 1 ≤ k := by omega
          simp only [List.length_cons] at hk2
          rw [ih3 k hk1' (by omega) (by rw [hset_ne k hkj]; exact hk3), hset_ne k hkj]
      · intro k hk1 hk2 hk3
        rw [hcollect]
        simp only [List.length_cons]
        by_cases hkj : k = j
        · rw [hkj, hmap2_j]
          have hnn : (0 : Int) ≤ (TextureOp.collectNewProxies map2 rest (j + 1)).length := by
            positivity
          push_cast
          omega
        · have hk1' : j + 1 ≤ k := by omega
          simp only [List.length_cons] at hk2
          obtain ⟨hlow, hhigh⟩ := ih4 k hk1' (by omega) hk3
          constructor
          · push_cast at hlow ⊢
            omega
          · push_cast at hhigh ⊢
            omega
      · rw [hcollect]
        exact List.Sublist.cons₂ qg ih5
      · intro qg2 hqg2
        rw [hcollect] at hqg2
        rcases List.mem_cons.1 hqg2 with rfl | hqg2
        · exact ⟨0, by simp, rfl, by simpa using hneg⟩
        · obtain ⟨k, hk, hget, hmapk⟩ := ih6 qg2 hqg2
          have hkj : j + 1 + k ≠ j := by omega
          refine ⟨k + 1, by simpa using Nat.succ_lt_succ hk, by simpa using hget, ?_⟩
          rw [show j + (k + 1) = j + 1 + k by omega]
          rw [hset_ne _ hkj] at hmapk
          exact hmapk
      · intro k hk1 hk2 hk3
        by_cases hkj : k = j
        · rw [hkj, hmap2_j]
          omega
        · simp only [List.length_cons] at hk2
          exact ih7 k (by omega) (by omega) (by rw [hset_ne k hkj]; exact hk3)
    · rw [if_neg hneg] at h
      have hlen' : (j + 1) + rest.length ≤ map.length := by
        simp only [List.length_cons] at hbound
        omega
      obtain ⟨ih1, ih2, ih3, ih4, ih5, ih6, ih7⟩ := ih (j + 1) map next map2 h hlen' hnext
      have hmap2_j : map2.getD j 0 = map.getD j 0 := ih2 j (Or.inl (by omega))
      have hmap2_j_nonneg : ¬ map2.getD j 0 < 0 := by
        rw [hmap2_j]
        exact hneg
      have hcollect : TextureOp.collectNewProxies map2 (qg :: rest) j =
          TextureOp.collectNewProxies map2 rest (j + 1) := by
        rw [TextureOp.collectNewProxies, if_neg hmap2_j_nonneg]
      refine ⟨ih1, ?_, ?_, ?_, ?_, ?_, ?_⟩
      · intro k hk
        rcases hk with hk | hk
        · exact ih2 k (Or.inl (by omega))
        · simp only [List.length_cons] at hk
          exact ih2 k (Or.inr (by omega))
      · intro k hk1 hk2 hk3
        by_cases hkj : k = j
        · subst hkj
          exact hmap2_j
        · simp only [List.length_cons] at hk2
          exact ih3 k (by omega) (by omega) hk3
      · intro k hk1 hk2 hk3
        rw [hcollect]
        by_cases hkj : k = j
        · subst hkj
          exact absurd hk3 hmap2_j_nonneg
        · simp only [List.length_cons] at hk2
          exact ih4 k (by omega) (by omega) hk3
      · rw [hcollect]
        exact List.Sublist.cons qg ih5
      · intro qg2 hqg2
        rw [hcollect] at hqg2
        obtain ⟨k, hk, hget, hmapk⟩ := ih6 qg2 hqg2
        refine ⟨k + 1, by simpa using Nat.succ_lt_succ hk, by simpa using hget, ?_⟩
        rw [show j + (k + 1) = j + 1 + k by omega]
        exact hmapk
      · intro k hk1 hk2 hk3
        by_cases hkj : k = j
        · rw [hkj] at hk3
          exact absurd hk3 hneg
        · simp only [List.length_cons] at hk2
          exact ih7 k (by omega) (by omega) hk3

theorem length_filter_split (l : List Nat) (p : Nat → Bool) :
    (l.filter p).length + (l.filter (fun a => !(p a))).length = l.length := by
  induction l with
  | nil => simp
  | cons a t ih =>
    cases h : p a
    · simp only [List.filter_cons, h, Bool.not_false, if_true, List.length_cons,
        Bool.false_eq_true, if_false]
      omega
    · simp only [List.filter_cons, h, Bool.not_true, if_true, List.length_cons,
        Bool.false_eq_true, if_false]
      omega

theorem filter_mem_length_comm (A B : List Nat) (hA : A.Nodup) (hB : B.Nodup) :
    (A.filter (fun a => decide (a ∈ B))).length =
      (B.filter (fun b => decide (b ∈ A))).length := by
  have h1 : (A.filter (fun a => decide (a ∈ B))).toFinset = A.toFinset ∩ B.toFinset := by
    ext x
    simp [List.mem_filter]
  have h2 : (B.filter (fun b => decide (b ∈ A))).toFinset = B.toFinset ∩ A.toFinset := by
    ext x
    simp [List.mem_filter]
  have hA2 : (A.filter (fun a => decide (a ∈ B))).Nodup := hA.filter _
  have hB2 : (B.filter (fun b => decide (b ∈ A))).Nodup := hB.filter _
  rw [← List.toFinset_card_of_nodup hA2, ← List.toFinset_card_of_nodup hB2, h1, h2,
    Finset.inter_comm]

theorem initialProxyMap_length : TextureOp.initialProxyMap.length =
    TextureGeometryProcessor.kMaxTextures := by
  rw [TextureOp.initialProxyMap, List.length_replicate]

theorem initialProxyMap_getD (k : Nat) (hk : k < TextureGeometryProcessor.kMaxTextures) :
    TextureOp.initialProxyMap.getD k 0 =
      -(TextureGeometryProcessor.kMaxTextures : Int) := by
  rw [TextureOp.initialProxyMap, List.getD_eq_getElem?_getD, List.getElem?_replicate,
    if_pos hk]
  rfl

theorem mergeProxies_spec (op that : TextureOp) (caps : GrShaderCaps)
    (hWfO : op.Wf) (hWfT : that.Wf)
    (hCapT : that.fProxies.length ≤ TextureGeometryProcessor.kMaxTextures)
    (map2 : List Int) (newCnt : Int)
    (h : TextureOp.mergeProxies op that caps = some (map2, newCnt)) :
    op.fProxies.length + (TextureOp.collectNewProxies map2 that.fProxies 0).length ≤
      SkTMin caps.maxFragmentSamplers TextureGeometryProcessor.kMaxTextures ∧
    (∀ qg ∈ TextureOp.collectNewProxies map2 that.fProxies 0,
        qg.1.uniqueID ∉ op.proxyIDs ∧ qg ∈ that.fProxies) ∧
    ((op.fProxies ++ TextureOp.collectNewProxies map2 that.fProxies 0).map
        (fun pf => pf.1.uniqueID)).Nodup ∧
    (∀ k, k < that.fProxies.length →
        (map2.getD k 0).natAbs <
          op.fProxies.length + (TextureOp.collectNewProxies map2 that.fProxies 0).length) := by
  obtain ⟨hDrO, hndA, hlenO⟩ := hWfO
  obtain ⟨hDrT, hndB, hlenT⟩ := hWfT
  rw [TextureOp.mergeProxies] at h
  cases hu : TextureOp.unifyProxiesLoop that.fProxies op.fProxies 0
      TextureOp.initialProxyMap 0 with
  | none => rw [hu] at h; cases h
  | some ms =>
    obtain ⟨map1, shared⟩ := ms
    rw [hu] at h
    dsimp only at h
    by_cases hguard : (SkTMin caps.maxFragmentSamplers
        TextureGeometryProcessor.kMaxTextures : Int) <
        ((that.fProxies.length : Int) - (shared : Int)) + (op.fProxies.length : Int)
    · rw [if_pos hguard] at h; cases h
    · rw [if_neg hguard] at h
      cases hcfg : TextureOp.configCheckLoop ((op.fProxies.headD default).1.config)
          that.fProxies 0 map1 op.fProxies.length with
      | none => rw [hcfg] at h; cases h
      | some map2x =>
        rw [hcfg] at h
        dsimp only at h
        injection h with h2
        injection h2 with hm hn
        subst hm
        have hmap1len : map1.length = TextureGeometryProcessor.kMaxTextures := by
          rw [unifyLoop_some_length that.fProxies op.fProxies 0 TextureOp.initialProxyMap 0
            map1 shared hu, initialProxyMap_length]
        have hseg : 0 + that.fProxies.length ≤ map1.length := by
          rw [hmap1len]
          omega
        obtain ⟨cc1, cc2, cc3, cc4, cc5, cc6, cc7⟩ :=
          configLoop_spec ((op.fProxies.headD default).1.config) that.fProxies 0 map1
            op.fProxies.length map2x hcfg hseg (by omega)
        -- every collected proxy has an identity absent from op's list
        have hAdded : ∀ qg ∈ TextureOp.collectNewProxies map2x that.fProxies 0,
            qg.1.uniqueID ∉ op.proxyIDs ∧ qg ∈ that.fProxies := by
          intro qg hqg
          obtain ⟨k, hk, hget, hneg⟩ := cc6 qg hqg
          simp only [Nat.zero_add] at hneg
          constructor
          · intro hin
            rcases List.mem_map.1 hin with ⟨pf, hpf, hpfid⟩
            have h0 := unifyLoop_shared_entry that.fProxies hndB op.fProxies 0
              TextureOp.initialProxyMap 0 map1 shared hu pf hpf k hk
              (by rw [hget, hpfid]) (by rw [initialProxyMap_length]; omega)
            omega
          · rw [← hget]
            exact List.get_mem that.fProxies k hk
        have hSub : List.Sublist (TextureOp.collectNewProxies map2x that.fProxies 0)
            that.fProxies := cc5
        have hAddedIds : ((TextureOp.collectNewProxies map2x that.fProxies 0).map
            (fun pf => pf.1.uniqueID)).Nodup :=
          List.Nodup.sublist (List.Sublist.map _ hSub) hndB
        have hAddedNotin : ∀ a ∈ (TextureOp.collectNewProxies map2x that.fProxies 0).map
            (fun pf => pf.1.uniqueID), a ∉ op.proxyIDs := by
          intro a ha
          rcases List.mem_map.1 ha with ⟨qg, hqg, rfl⟩
          exact (hAdded qg hqg).1
        have hNodup : ((op.fProxies ++ TextureOp.collectNewProxies map2x that.fProxies 0).map
            (fun pf => pf.1.uniqueID)).Nodup := by
          rw [List.map_append, List.nodup_append]
          exact ⟨hndA, hAddedIds, fun a haA haAdd => (hAddedNotin a haAdd) haA⟩
        -- length accounting
        have hshared : shared = (op.fProxies.filter (fun pf =>
            decide (pf.1.uniqueID ∈ that.proxyIDs))).length := by
          have := unifyLoop_shared_count that.fProxies op.fProxies 0
            TextureOp.initialProxyMap 0 map1 shared hu
          simpa using this
        have hsharedA : shared = (op.proxyIDs.filter
            (fun a => decide (a ∈ that.proxyIDs))).length := by
          rw [hshared]
          simp only [TextureOp.proxyIDs, ← List.countP_eq_length_filter, List.countP_map]
          rfl
        have hsharedB : shared = (that.proxyIDs.filter
            (fun b => decide (b ∈ op.proxyIDs))).length := by
          rw [hsharedA]
          exact filter_mem_length_comm op.proxyIDs that.proxyIDs hndA hndB
        have hAddedLen : (TextureOp.collectNewProxies map2x that.fProxies 0).length ≤
            (that.proxyIDs.filter (fun b => !(decide (b ∈ op.proxyIDs)))).length := by
          have hmapSub : List.Sublist ((TextureOp.collectNewProxies map2x that.fProxies 0).map
              (fun pf => pf.1.uniqueID)) that.proxyIDs :=
            List.Sublist.map _ hSub
          have hfiltered : ((TextureOp.collectNewProxies map2x that.fProxies 0).map
              (fun pf => pf.1.uniqueID)).filter (fun b => !(decide (b ∈ op.proxyIDs))) =
              (TextureOp.collectNewProxies map2x that.fProxies 0).map
                (fun pf => pf.1.uniqueID) := by
            rw [List.filter_eq_self]
            intro a ha
            simpa using hAddedNotin a ha
          have := List.Sublist.filter (fun b => !(decide (b ∈ op.proxyIDs))) hmapSub
          rw [hfiltered] at this
          have hlen := List.Sublist.length_le this
          simpa using hlen
        have hsplit : (that.proxyIDs.filter (fun b => decide (b ∈ op.proxyIDs))).length +
            (that.proxyIDs.filter (fun b => !(decide (b ∈ op.proxyIDs)))).length =
            that.fProxies.length := by
          have h9 := length_filter_split that.proxyIDs (fun b => decide (b ∈ op.proxyIDs))
          have hlen2 : that.proxyIDs.length = that.fProxies.length := by
            rw [TextureOp.proxyIDs, List.length_map]
          rw [← hlen2, ← h9]
        have hLenBound : op.fProxies.length +
            (TextureOp.collectNewProxies map2x that.fProxies 0).length ≤
            SkTMin caps.maxFragmentSamplers TextureGeometryProcessor.kMaxTextures := by
          have hsh_le : shared ≤ that.fProxies.length := by
            rw [hsharedB]
            omega
          omega
        refine ⟨hLenBound, hAdded, hNodup, ?_⟩
        -- remapped index bound
        intro k hk
        by_cases hneg : map2x.getD k 0 < 0
        · obtain ⟨hlow, hhigh⟩ := cc4 k (by omega) (by omega) hneg
          omega
        · have hm1nonneg : 0 ≤ map1.getD k 0 := by
            by_contra hcon
            exact hneg (cc7 k (by omega) (by omega) (by omega))
          have heq : map2x.getD k 0 = map1.getD k 0 := cc3 k (by omega) (by omega) hm1nonneg
          rcases unifyLoop_entry_cases that.fProxies op.fProxies 0 TextureOp.initialProxyMap
              0 map1 shared hu k with hsame | ⟨hge, hlt, _⟩
          · rw [initialProxyMap_getD k (by omega)] at hsame
            rw [hsame] at hm1nonneg
            have : (0:Int) < (TextureGeometryProcessor.kMaxTextures : Int) := by
              rw [TextureGeometryProcessor.kMaxTextures]
              omega
            omega
          · push_cast at hlt
            omega

/-- A successful onCombineIfPossible preserves the batch invariant, leaves the
finalized flag untouched, extends the texture list by proxies whose identities
were not yet present (pairwise distinct among themselves), and respects the
sampler cap. -/
theorem onCombine_some_spec (caps : GrCaps) (op that op2 : TextureOp)
    (hWfO : op.Wf) (hWfT : that.Wf)
    (hThatLen : that.fProxies.length ≤ TextureGeometryProcessor.kMaxTextures)
    (h : TextureOp.onCombineIfPossible caps op that = some op2) :
    op2.Wf ∧ op2.fFinalized = op.fFinalized ∧
    (∃ added, op2.fProxies = op.fProxies ++ added ∧
        (∀ qg ∈ added, qg.1.uniqueID ∉ op.proxyIDs) ∧
        ((added.map (fun pf => pf.1.uniqueID)).Nodup)) ∧
    (op.CapOk caps.shaderCaps → op2.CapOk caps.shaderCaps) := by
  rw [TextureOp.onCombineIfPossible] at h
  by_cases h1 : GrColorSpaceXform.Equals op.fColorSpaceXform that.fColorSpaceXform = false
  · rw [if_pos h1] at h; cases h
  rw [if_neg h1] at h
  by_cases h2 : op.fAAType ≠ that.fAAType
  · rw [if_pos h2] at h; cases h
  rw [if_neg h2] at h
  dsimp only at h
  by_cases hmt : (TextureGeometryProcessor.SupportsMultitexture caps.shaderCaps &&
      op.fColorSpaceXform.isNone &&
      decide (op.fMaxApproxDstPixelArea ≤
        caps.shaderCaps.disableImageMultitexturingDstRectAreaThreshold) &&
      decide (that.fMaxApproxDstPixelArea ≤
        caps.shaderCaps.disableImageMultitexturingDstRectAreaThreshold)) = true
  · rw [if_pos hmt] at h
    cases hmp : TextureOp.mergeProxies op that caps.shaderCaps with
    | none => rw [hmp] at h; cases h
    | some mr =>
      obtain ⟨map2, newCnt⟩ := mr
      rw [hmp] at h
      dsimp only at h
      injection h with h3
      subst h3
      obtain ⟨hs1, hs2, hs3, hs4⟩ :=
        mergeProxies_spec op that caps.shaderCaps hWfO hWfT hThatLen map2 newCnt hmp
      obtain ⟨hDrO, hndA, hlenO⟩ := hWfO
      obtain ⟨hDrT, hndB, hlenT⟩ := hWfT
      refine ⟨⟨?_, ?_, ?_⟩, rfl, ?_, ?_⟩
      · intro d hd
        simp only [List.mem_append, List.mem_map, List.length_append] at hd ⊢
        rcases hd with hd | ⟨d0, hd0, rfl⟩
        · have := hDrO d hd
          omega
        · have hidx := hDrT d0 hd0
          have := hs4 d0.fTextureIdx hidx
          simpa using this
      · simpa [TextureOp.proxyIDs] using hs3
      · simp only [List.length_append]
        omega
      · refine ⟨TextureOp.collectNewProxies map2 that.fProxies 0, rfl, ?_, ?_⟩
        · intro qg hqg
          exact (hs2 qg hqg).1
        · rw [List.map_append] at hs3
          exact (List.nodup_append.1 hs3).2.1
      · intro _
        rw [TextureOp.CapOk]
        simp only [List.length_append]
        rw [SkTMin] at hs1
        omega
  · rw [if_neg hmt] at h
    by_cases h4 : 1 < op.fProxies.length ∨ 1 < that.fProxies.length
    · rw [if_pos h4] at h; cases h
    rw [if_neg h4] at h
    by_cases h5 : (op.fProxies.headD default).1.uniqueID ≠
          (that.fProxies.headD default).1.uniqueID ∨
        (op.fProxies.headD default).2 ≠ (that.fProxies.headD default).2
    · rw [if_pos h5] at h; cases h
    rw [if_neg h5] at h
    dsimp only at h
    injection h with h3
    subst h3
    obtain ⟨hDrO, hndA, hlenO⟩ := hWfO
    obtain ⟨hDrT, hndB, hlenT⟩ := hWfT
    push_neg at h4
    refine ⟨⟨?_, ?_, ?_⟩, rfl, ⟨[], (List.append_nil _).symm, by simp, by simp⟩, fun hc => hc⟩
    · intro d hd
      simp only [List.mem_append] at hd
      rcases hd with hd | hd
      · exact hDrO d hd
      · have h9 := hDrT d hd
        have h10 : d.fTextureIdx < op.fProxies.length := by omega
        exact h10
    · exact hndA
    · exact hlenO

/-- Claim C7: after construction, and after every merge (a failed merge
returns none and by construction changes nothing), every Draw's texture index
is a valid index into the batch's texture list, the texture-list entries are
pairwise distinct by uniqueID, and the texture count never exceeds
min(kMaxTextures, hardware fragment-sampler limit). -/
theorem claim_C7 :
    (∀ (proxy : GrTextureProxy) (filter : GrSamplerState.Filter) (color : Nat)
        (srcRect : SkRect) (quad : GrPerspQuad) (persp : Bool) (aaType : GrAAType)
        (csxf : Option Nat) (srgb : Bool) (caps : GrShaderCaps),
        1 ≤ caps.maxFragmentSamplers →
        (TextureOp.make proxy filter color srcRect quad persp aaType csxf srgb).Wf ∧
        (TextureOp.make proxy filter color srcRect quad persp aaType csxf srgb).CapOk caps) ∧
    (∀ (caps : GrCaps) (op that : TextureOp), op.Wf → that.Wf →
        op.CapOk caps.shaderCaps → that.CapOk caps.shaderCaps →
        ∀ op2, TextureOp.onCombineIfPossible caps op that = some op2 →
          op2.Wf ∧ op2.CapOk caps.shaderCaps) := by
  constructor
  · intro proxy filter color srcRect quad persp aaType csxf srgb caps hcaps
    constructor
    · refine ⟨?_, ?_, ?_⟩
      · intro d hd
        rcases List.mem_singleton.1 hd with rfl
        simp [TextureOp.make]
      · simp [TextureOp.make, TextureOp.proxyIDs]
      · simp [TextureOp.make]
    · simp only [TextureOp.CapOk, TextureOp.make, List.length_singleton]
      rw [TextureGeometryProcessor.kMaxTextures]
      omega
  · intro caps op that hWfO hWfT hCapO hCapT op2 h
    have hT8 : that.fProxies.length ≤ TextureGeometryProcessor.kMaxTextures := by
      rw [TextureOp.CapOk] at hCapT
      omega
    obtain ⟨hWf2, _, _, hCap2⟩ := onCombine_some_spec caps op that op2 hWfO hWfT hT8 h
    exact ⟨hWf2, hCap2 hCapO⟩

/-- Witness for C7: the constructor part at a concrete proxy, and the
preservation part at the concrete successful merge of two single-texture
batches (which does merge: isSome below). -/
theorem claim_C7_witness :
    ((TextureOp.make (proxy2D 1) GrSamplerState.Filter.kNearest 0 unitRect unitQuad false
        GrAAType.kNone none false).Wf ∧
      (TextureOp.make (proxy2D 1) GrSamplerState.Filter.kNearest 0 unitRect unitQuad false
        GrAAType.kNone none false).CapOk ampleShaderCaps) ∧
    (TextureOp.onCombineIfPossible ampleCaps (plainOp 1 GrSamplerState.Filter.kNearest)
        (plainOp 2 GrSamplerState.Filter.kNearest)).isSome = true ∧
    Option.elim (TextureOp.onCombineIfPossible ampleCaps
        (plainOp 1 GrSamplerState.Filter.kNearest)
        (plainOp 2 GrSamplerState.Filter.kNearest)) True
      (fun op2 => op2.Wf ∧ op2.CapOk ampleShaderCaps) := by
  refine ⟨?_, by decide, ?_⟩
  · exact claim_C7.1 (proxy2D 1) GrSamplerState.Filter.kNearest 0 unitRect unitQuad false
      GrAAType.kNone none false ampleShaderCaps (by decide)
  · cases hres : TextureOp.onCombineIfPossible ampleCaps
        (plainOp 1 GrSamplerState.Filter.kNearest)
        (plainOp 2 GrSamplerState.Filter.kNearest) with
    | none => trivial
    | some op2 =>
      refine claim_C7.2 ampleCaps (plainOp 1 GrSamplerState.Filter.kNearest)
        (plainOp 2 GrSamplerState.Filter.kNearest) ⟨by decide, by decide, by decide⟩
        ⟨by decide, by decide, by decide⟩ ?_ ?_ op2 hres
      · rw [TextureOp.CapOk]
        decide
      · rw [TextureOp.CapOk]
        decide


/-- Claim C10: the 4-slot branch of NumSamplersToUse never consults the
hardware fragment-sampler limit, so it returns 4 for every real texture count
in 2..4 whatever the caps say, while merging allows texture counts up to
min(kMaxTextures, limit): concretely, on caps whose fragment-sampler limit is
2, two single-texture batches do merge into a 2-texture batch, and the
selector then picks 4 sampler slots, exceeding the hardware limit of 2. -/
theorem claim_C10 :
    (∀ (n : Nat) (caps : GrShaderCaps), 2 ≤ n → n ≤ 4 →
        TextureGeometryProcessor.NumSamplersToUse n caps = 4) ∧
    ((TextureOp.onCombineIfPossible twoSamplerCaps
          (plainOp 1 GrSamplerState.Filter.kNearest)
          (plainOp 2 GrSamplerState.Filter.kNearest)).map
        (fun op' => op'.fProxies.length) = some 2) ∧
    TextureGeometryProcessor.NumSamplersToUse 2 twoSamplerShaderCaps = 4 ∧
    twoSamplerShaderCaps.maxFragmentSamplers <
      TextureGeometryProcessor.NumSamplersToUse 2 twoSamplerShaderCaps := by
  refine ⟨?_, by decide, by decide, by decide⟩
  intro n caps h2 h4
  have hne : n ≠ 1 := by omega
  simp [TextureGeometryProcessor.NumSamplersToUse, hne, h4]

/-- Witness for C10: the universal 4-slot branch applied at n = 3 with the
2-sampler caps. -/
theorem claim_C10_witness :
    TextureGeometryProcessor.NumSamplersToUse 3 twoSamplerShaderCaps = 4 :=
  claim_C10.1 3 twoSamplerShaderCaps (by norm_num) (by norm_num)

/-- Counterexample to claim C4 as stated: the dart quad with strip points
(0,0), (20,21), (-20,21), (0,6) has positive strip-order signed area, yet
output edge 3 evaluates to -147/5 < 0 at output (outset) vertex 1, so not
every edge equation is nonnegative at every outset vertex for all
positive-area strip-order quads. -/
theorem claim_C4_counterexample :
    0 < stripDoubleSignedArea dartX dartY ∧ edgeValueAt dartX dartY 3 1 < 0 := by
  have hA0 : rawA dartX dartY 0 = 21 := by
    show dartY (nextCCW 0) - dartY 0 = 21
    norm_num [dartY, nextCCW]
  have hB0 : rawB dartX dartY 0 = -20 := by
    show dartX 0 - dartX (nextCCW 0) = -20
    norm_num [dartX, nextCCW]
  have hC0 : rawC dartX dartY 0 = 0 := by
    show dartX (nextCCW 0) * dartY 0 - dartY (nextCCW 0) * dartX 0 = 0
    norm_num [dartX, dartY, nextCCW]
  have hA1 : rawA dartX dartY 1 = -15 := by
    show dartY (nextCCW 1) - dartY 1 = -15
    norm_num [dartY, nextCCW]
  have hB1 : rawB dartX dartY 1 = 20 := by
    show dartX 1 - dartX (nextCCW 1) = 20
    norm_num [dartX, nextCCW]
  have hC1 : rawC dartX dartY 1 = -120 := by
    show dartX (nextCCW 1) * dartY 1 - dartY (nextCCW 1) * dartX 1 = -120
    norm_num [dartX, dartY, nextCCW]
  have hA3 : rawA dartX dartY 3 = 15 := by
    show dartY (nextCCW 3) - dartY 3 = 15
    norm_num [dartY, nextCCW]
  have hB3 : rawB dartX dartY 3 = 20 := by
    show dartX 3 - dartX (nextCCW 3) = 20
    norm_num [dartX, nextCCW]
  have hC3 : rawC dartX dartY 3 = -120 := by
    show dartX (nextCCW 3) * dartY 3 - dartY (nextCCW 3) * dartX 3 = -120
    norm_num [dartX, dartY, nextCCW]
  have hn0 : Real.sqrt (rawA dartX dartY 0 ^ 2 + rawB dartX dartY 0 ^ 2) = 29 := by
    rw [hA0, hB0, show (21:ℝ)^2 + (-20:ℝ)^2 = 29^2 by norm_num]
    exact Real.sqrt_sq (by norm_num)
  have hn1 : Real.sqrt (rawA dartX dartY 1 ^ 2 + rawB dartX dartY 1 ^ 2) = 25 := by
    rw [hA1, hB1, show (-15:ℝ)^2 + (20:ℝ)^2 = 25^2 by norm_num]
    exact Real.sqrt_sq (by norm_num)
  have hn3 : Real.sqrt (rawA dartX dartY 3 ^ 2 + rawB dartX dartY 3 ^ 2) = 25 := by
    rw [hA3, hB3, show (15:ℝ)^2 + (20:ℝ)^2 = 25^2 by norm_num]
    exact Real.sqrt_sq (by norm_num)
  have hsgn : anyTestNegative dartX dartY := by
    refine ⟨0, ?_⟩
    rw [edgeTest, hA0, hB0, hC0, show dartX (nextCW 0) = -20 from rfl,
      show dartY (nextCW 0) = 21 from rfl]
    norm_num
  have hs0 : invNormLengthsSigned dartX dartY 0 = -(29:ℝ)⁻¹ := by
    rw [invNormLengthsSigned, if_pos hsgn, invNormLength, hn0]
  have hs1 : invNormLengthsSigned dartX dartY 1 = -(25:ℝ)⁻¹ := by
    rw [invNormLengthsSigned, if_pos hsgn, invNormLength, hn1]
  have hs3 : invNormLengthsSigned dartX dartY 3 = -(25:ℝ)⁻¹ := by
    rw [invNormLengthsSigned, if_pos hsgn, invNormLength, hn3]
  have heA0 : edgeA dartX dartY 0 = -(21/29) := by
    rw [edgeA, hs0, hA0]
    norm_num
  have heB0 : edgeB dartX dartY 0 = 20/29 := by
    rw [edgeB, hs0, hB0]
    norm_num
  have heC0 : edgeC dartX dartY 0 = 1/2 := by
    rw [edgeC, hs0, hC0]
    norm_num
  have heA1 : edgeA dartX dartY 1 = 3/5 := by
    rw [edgeA, hs1, hA1]
    norm_num
  have heB1 : edgeB dartX dartY 1 = -(4/5) := by
    rw [edgeB, hs1, hB1]
    norm_num
  have heC1 : edgeC dartX dartY 1 = 53/10 := by
    rw [edgeC, hs1, hC1]
    norm_num
  have heA3 : edgeA dartX dartY 3 = -(3/5) := by
    rw [edgeA, hs3, hA3]
    norm_num
  have heB3 : edgeB dartX dartY 3 = -(4/5) := by
    rw [edgeB, hs3, hB3]
    norm_num
  have heC3 : edgeC dartX dartY 3 = 53/10 := by
    rw [edgeC, hs3, hC3]
    norm_num
  have hd1 : outsetDenom dartX dartY 1 = 24/145 := by
    rw [outsetDenom, show nextCW 1 = 0 from rfl, heA0, heB1, heB0, heA1]
    norm_num
  have hX1 : outsetX dartX dartY 1 = 49/2 := by
    rw [outsetX, show nextCW 1 = 0 from rfl, heB0, heC1, heB1, heC0, hd1]
    norm_num
  have hY1 : outsetY dartX dartY 1 = 25 := by
    rw [outsetY, show nextCW 1 = 0 from rfl, heA1, heC0, heA0, heC1, hd1]
    norm_num
  constructor
  · rw [stripDoubleSignedArea]
    norm_num [dartX, dartY]
  · rw [edgeValueAt, heA3, heB3, heC3, hX1, hY1]
    norm_num


theorem sq_sum_pos_of_cross (px py qx qy : ℝ) (h : 0 < px * qy - py * qx) :
    0 < px ^ 2 + py ^ 2 := by
  rcases lt_or_le 0 (px ^ 2 + py ^ 2) with hp | hp
  · exact hp
  · exfalso
    have hx : px = 0 := by nlinarith [sq_nonneg px, sq_nonneg py]
    have hy : py = 0 := by nlinarith [sq_nonneg px, sq_nonneg py]
    rw [hx, hy] at h
    norm_num at h

theorem dot_le_mul (vx vy wx wy b c : ℝ) (hb : b ^ 2 = vx ^ 2 + vy ^ 2)
    (hc : c ^ 2 = wx ^ 2 + wy ^ 2) (hb0 : 0 ≤ b) (hc0 : 0 ≤ c) :
    vx * wx + vy * wy ≤ b * c := by
  nlinarith [sq_nonneg (vx * wy - vy * wx), mul_nonneg hb0 hc0,
    sq_nonneg (b * c - (vx * wx + vy * wy)), sq_nonneg (b * c + (vx * wx + vy * wy))]

theorem cross_mix_nonneg (ux uy vx vy wx wy a b c : ℝ)
    (ha : a ^ 2 = ux ^ 2 + uy ^ 2) (hb : b ^ 2 = vx ^ 2 + vy ^ 2)
    (hc : c ^ 2 = wx ^ 2 + wy ^ 2) (ha0 : 0 ≤ a) (hb0 : 0 < b) (hc0 : 0 ≤ c)
    (h1 : 0 < ux * vy - uy * vx) (h2 : 0 < vx * wy - vy * wx) :
    0 ≤ (ux * vy - uy * vx) * c + a * (vx * wy - vy * wx) - b * (ux * wy - uy * wx) := by
  have hd1 : vx * wx + vy * wy ≤ b * c := dot_le_mul vx vy wx wy b c hb hc hb0.le hc0
  have hd2 : ux * vx + uy * vy ≤ a * b := dot_le_mul ux uy vx vy a b ha hb ha0 hb0.le
  have hI : (ux * wy - uy * wx) * (vx ^ 2 + vy ^ 2) =
      (ux * vy - uy * vx) * (vx * wx + vy * wy) +
        (ux * vx + uy * vy) * (vx * wy - vy * wx) := by ring
  have key : 0 ≤ (ux * vy - uy * vx) * (b * c) + a * b * (vx * wy - vy * wx) -
      (vx ^ 2 + vy ^ 2) * (ux * wy - uy * wx) := by
    nlinarith [mul_nonneg h1.le (sub_nonneg.2 hd1), mul_nonneg h2.le (sub_nonneg.2 hd2)]
  have key2 : 0 ≤ b * ((ux * vy - uy * vx) * c + a * (vx * wy - vy * wx) -
      b * (ux * wy - uy * wx)) := by
    have hexp : b * ((ux * vy - uy * vx) * c + a * (vx * wy - vy * wx) -
        b * (ux * wy - uy * wx)) =
        (ux * vy - uy * vx) * (b * c) + a * b * (vx * wy - vy * wx) -
          b ^ 2 * (ux * wy - uy * wx) := by ring
    rw [hexp, hb]
    exact key
  by_contra hneg
  push_neg at hneg
  nlinarith [key2, mul_pos hb0 (neg_pos.2 hneg)]

theorem quad_raw (x y : Fin 4 → ℝ) :
    (rawA x y 0 = (y 1 - y 0) ∧ rawB x y 0 = (x 0 - x 1) ∧
      rawC x y 0 = (x 1 * y 0 - y 1 * x 0)) ∧
    (rawA x y 1 = (y 3 - y 1) ∧ rawB x y 1 = (x 1 - x 3) ∧
      rawC x y 1 = (x 3 * y 1 - y 3 * x 1)) ∧
    (rawA x y 2 = (y 0 - y 2) ∧ rawB x y 2 = (x 2 - x 0) ∧
      rawC x y 2 = (x 0 * y 2 - y 0 * x 2)) ∧
    (rawA x y 3 = (y 2 - y 3) ∧ rawB x y 3 = (x 3 - x 2) ∧
      rawC x y 3 = (x 2 * y 3 - y 2 * x 3)) := by
  refine ⟨⟨?_, ?_, ?_⟩, ⟨?_, ?_, ?_⟩, ⟨?_, ?_, ?_⟩, ⟨?_, ?_, ?_⟩⟩ <;>
    · first
      | (show y _ - y _ = _
         norm_num [nextCCW])
      | (show x _ - x _ = _
         norm_num [nextCCW])
      | (show x _ * y _ - y _ * x _ = _
         norm_num [nextCCW])

theorem quad_sign (x y : Fin 4 → ℝ) (hT3 : 0 < ((x 0 - x 2) * (y 1 - y 0) - (y 0 - y 2) * (x 1 - x 0))) :
    anyTestNegative x y := by
  obtain ⟨⟨hA0, hB0, hC0⟩, -, -, -⟩ := quad_raw x y
  refine ⟨0, ?_⟩
  rw [edgeTest, hA0, hB0, hC0, show x (nextCW 0) = x 2 from rfl,
    show y (nextCW 0) = y 2 from rfl]
  linarith [hT3]

theorem quad_edge0 (x y : Fin 4 → ℝ) (hT3 : 0 < ((x 0 - x 2) * (y 1 - y 0) - (y 0 - y 2) * (x 1 - x 0))) :
    edgeA x y 0 = -((y 1 - y 0) / Real.sqrt ((y 1 - y 0) ^ 2 + (x 0 - x 1) ^ 2)) ∧
    edgeB x y 0 = -((x 0 - x 1) / Real.sqrt ((y 1 - y 0) ^ 2 + (x 0 - x 1) ^ 2)) ∧
    edgeC x y 0 = -((x 1 * y 0 - y 1 * x 0) / Real.sqrt ((y 1 - y 0) ^ 2 + (x 0 - x 1) ^ 2)) + 1 / 2 := by
  obtain ⟨⟨hA, hB, hC⟩, -, -, -⟩ := quad_raw x y
  have hs : invNormLengthsSigned x y 0 = -(Real.sqrt ((y 1 - y 0) ^ 2 + (x 0 - x 1) ^ 2))⁻¹ := by
    rw [invNormLengthsSigned, if_pos (quad_sign x y hT3), invNormLength, hA, hB]
  refine ⟨?_, ?_, ?_⟩
  · rw [edgeA, hs, hA]
    ring
  · rw [edgeB, hs, hB]
    ring
  · rw [edgeC, hs, hC]
    ring

theorem quad_edge1 (x y : Fin 4 → ℝ) (hT3 : 0 < ((x 0 - x 2) * (y 1 - y 0) - (y 0 - y 2) * (x 1 - x 0))) :
    edgeA x y 1 = -((y 3 - y 1) / Real.sqrt ((y 3 - y 1) ^ 2 + (x 1 - x 3) ^ 2)) ∧
    edgeB x y 1 = -((x 1 - x 3) / Real.sqrt ((y 3 - y 1) ^ 2 + (x 1 - x 3) ^ 2)) ∧
    edgeC x y 1 = -((x 3 * y 1 - y 3 * x 1) / Real.sqrt ((y 3 - y 1) ^ 2 + (x 1 - x 3) ^ 2)) + 1 / 2 := by
  obtain ⟨-, ⟨hA, hB, hC⟩, -, -⟩ := quad_raw x y
  have hs : invNormLengthsSigned x y 1 = -(Real.sqrt ((y 3 - y 1) ^ 2 + (x 1 - x 3) ^ 2))⁻¹ := by
    rw [invNormLengthsSigned, if_pos (quad_sign x y hT3), invNormLength, hA, hB]
  refine ⟨?_, ?_, ?_⟩
  · rw [edgeA, hs, hA]
    ring
  · rw [edgeB, hs, hB]
    ring
  · rw [edgeC, hs, hC]
    ring

theorem quad_edge2 (x y : Fin 4 → ℝ) (hT3 : 0 < ((x 0 - x 2) * (y 1 - y 0) - (y 0 - y 2) * (x 1 - x 0))) :
    edgeA x y 2 = -((y 0 - y 2) / Real.sqrt ((y 0 - y 2) ^ 2 + (x 2 - x 0) ^ 2)) ∧
    edgeB x y 2 = -((x 2 - x 0) / Real.sqrt ((y 0 - y 2) ^ 2 + (x 2 - x 0) ^ 2)) ∧
    edgeC x y 2 = -((x 0 * y 2 - y 0 * x 2) / Real.sqrt ((y 0 - y 2) ^ 2 + (x 2 - x 0) ^ 2)) + 1 / 2 := by
  obtain ⟨-, -, ⟨hA, hB, hC⟩, -⟩ := quad_raw x y
  have hs : invNormLengthsSigned x y 2 = -(Real.sqrt ((y 0 - y 2) ^ 2 + (x 2 - x 0) ^ 2))⁻¹ := by
    rw [invNormLengthsSigned, if_pos (quad_sign x y hT3), invNormLength, hA, hB]
  refine ⟨?_, ?_, ?_⟩
  · rw [edgeA, hs, hA]
    ring
  · rw [edgeB, hs, hB]
    ring
  · rw [edgeC, hs, hC]
    ring

theorem quad_edge3 (x y : Fin 4 → ℝ) (hT3 : 0 < ((x 0 - x 2) * (y 1 - y 0) - (y 0 - y 2) * (x 1 - x 0))) :
    edgeA x y 3 = -((y 2 - y 3) / Real.sqrt ((y 2 - y 3) ^ 2 + (x 3 - x 2) ^ 2)) ∧
    edgeB x y 3 = -((x 3 - x 2) / Real.sqrt ((y 2 - y 3) ^ 2 + (x 3 - x 2) ^ 2)) ∧
    edgeC x y 3 = -((x 2 * y 3 - y 2 * x 3) / Real.sqrt ((y 2 - y 3) ^ 2 + (x 3 - x 2) ^ 2)) + 1 / 2 := by
  obtain ⟨-, -, -, ⟨hA, hB, hC⟩⟩ := quad_raw x y
  have hs : invNormLengthsSigned x y 3 = -(Real.sqrt ((y 2 - y 3) ^ 2 + (x 3 - x 2) ^ 2))⁻¹ := by
    rw [invNormLengthsSigned, if_pos (quad_sign x y hT3), invNormLength, hA, hB]
  refine ⟨?_, ?_, ?_⟩
  · rw [edgeA, hs, hA]
    ring
  · rw [edgeB, hs, hB]
    ring
  · rw [edgeC, hs, hC]
    ring

set_option maxHeartbeats 1000000 in
theorem quad_vertex0 (x y : Fin 4 → ℝ) (hT0 : 0 < ((x 1 - x 0) * (y 3 - y 1) - (y 1 - y 0) * (x 3 - x 1))) (hT1 : 0 < ((x 3 - x 1) * (y 2 - y 3) - (y 3 - y 1) * (x 2 - x 3))) (hT2 : 0 < ((x 2 - x 3) * (y 0 - y 2) - (y 2 - y 3) * (x 0 - x 2))) (hT3 : 0 < ((x 0 - x 2) * (y 1 - y 0) - (y 0 - y 2) * (x 1 - x 0))) :
    outsetX x y 0 = x 0 + (Real.sqrt ((y 1 - y 0) ^ 2 + (x 0 - x 1) ^ 2) * (x 0 - x 2) - Real.sqrt ((y 0 - y 2) ^ 2 + (x 2 - x 0) ^ 2) * (x 1 - x 0)) / (2 * ((x 0 - x 2) * (y 1 - y 0) - (y 0 - y 2) * (x 1 - x 0))) ∧
    outsetY x y 0 = y 0 + (Real.sqrt ((y 1 - y 0) ^ 2 + (x 0 - x 1) ^ 2) * (y 0 - y 2) - Real.sqrt ((y 0 - y 2) ^ 2 + (x 2 - x 0) ^ 2) * (y 1 - y 0)) / (2 * ((x 0 - x 2) * (y 1 - y 0) - (y 0 - y 2) * (x 1 - x 0))) := by
  obtain ⟨hAk, hBk, hCk⟩ := quad_edge0 x y hT3
  obtain ⟨hAc, hBc, hCc⟩ := quad_edge2 x y hT3
  have hk : (0:ℝ) < (y 1 - y 0) ^ 2 + (x 0 - x 1) ^ 2 := by
    have h := sq_sum_pos_of_cross (x 1 - x 0) (y 1 - y 0) (x 3 - x 1) (y 3 - y 1) hT0
    nlinarith [h]
  have hc : (0:ℝ) < (y 0 - y 2) ^ 2 + (x 2 - x 0) ^ 2 := by
    have h := sq_sum_pos_of_cross (x 0 - x 2) (y 0 - y 2) (x 1 - x 0) (y 1 - y 0) hT3
    nlinarith [h]
  have hLk : Real.sqrt ((y 1 - y 0) ^ 2 + (x 0 - x 1) ^ 2) ≠ 0 := ne_of_gt (Real.sqrt_pos.2 hk)
  have hLc : Real.sqrt ((y 0 - y 2) ^ 2 + (x 2 - x 0) ^ 2) ≠ 0 := ne_of_gt (Real.sqrt_pos.2 hc)
  have hTa : ((x 0 - x 2) * (y 1 - y 0) - (y 0 - y 2) * (x 1 - x 0)) ≠ 0 := ne_of_gt hT3
  have hd : outsetDenom x y 0 = ((x 0 - x 2) * (y 1 - y 0) - (y 0 - y 2) * (x 1 - x 0)) / (Real.sqrt ((y 0 - y 2) ^ 2 + (x 2 - x 0) ^ 2) * Real.sqrt ((y 1 - y 0) ^ 2 + (x 0 - x 1) ^ 2)) := by
    rw [outsetDenom, show nextCW 0 = 2 from rfl, hAc, hBk, hBc, hAk]
    field_simp
    ring
  constructor
  · rw [outsetX, show nextCW 0 = 2 from rfl, hBc, hCk, hBk, hCc, hd]
    field_simp
    ring
  · rw [outsetY, show nextCW 0 = 2 from rfl, hAk, hCc, hAc, hCk, hd]
    field_simp
    ring

set_option maxHeartbeats 1000000 in
theorem quad_vertex1 (x y : Fin 4 → ℝ) (hT0 : 0 < ((x 1 - x 0) * (y 3 - y 1) - (y 1 - y 0) * (x 3 - x 1))) (hT1 : 0 < ((x 3 - x 1) * (y 2 - y 3) - (y 3 - y 1) * (x 2 - x 3))) (hT2 : 0 < ((x 2 - x 3) * (y 0 - y 2) - (y 2 - y 3) * (x 0 - x 2))) (hT3 : 0 < ((x 0 - x 2) * (y 1 - y 0) - (y 0 - y 2) * (x 1 - x 0))) :
    outsetX x y 1 = x 1 + (Real.sqrt ((y 3 - y 1) ^ 2 + (x 1 - x 3) ^ 2) * (x 1 - x 0) - Real.sqrt ((y 1 - y 0) ^ 2 + (x 0 - x 1) ^ 2) * (x 3 - x 1)) / (2 * ((x 1 - x 0) * (y 3 - y 1) - (y 1 - y 0) * (x 3 - x 1))) ∧
    outsetY x y 1 = y 1 + (Real.sqrt ((y 3 - y 1) ^ 2 + (x 1 - x 3) ^ 2) * (y 1 - y 0) - Real.sqrt ((y 1 - y 0) ^ 2 + (x 0 - x 1) ^ 2) * (y 3 - y 1)) / (2 * ((x 1 - x 0) * (y 3 - y 1) - (y 1 - y 0) * (x 3 - x 1))) := by
  obtain ⟨hAk, hBk, hCk⟩ := quad_edge1 x y hT3
  obtain ⟨hAc, hBc, hCc⟩ := quad_edge0 x y hT3
  have hk : (0:ℝ) < (y 3 - y 1) ^ 2 + (x 1 - x 3) ^ 2 := by
    have h := sq_sum_pos_of_cross (x 3 - x 1) (y 3 - y 1) (x 2 - x 3) (y 2 - y 3) hT1
    nlinarith [h]
  have hc : (0:ℝ) < (y 1 - y 0) ^ 2 + (x 0 - x 1) ^ 2 := by
    have h := sq_sum_pos_of_cross (x 1 - x 0) (y 1 - y 0) (x 3 - x 1) (y 3 - y 1) hT0
    nlinarith [h]
  have hLk : Real.sqrt ((y 3 - y 1) ^ 2 + (x 1 - x 3) ^ 2) ≠ 0 := ne_of_gt (Real.sqrt_pos.2 hk)
  have hLc : Real.sqrt ((y 1 - y 0) ^ 2 + (x 0 - x 1) ^ 2) ≠ 0 := ne_of_gt (Real.sqrt_pos.2 hc)
  have hTa : ((x 1 - x 0) * (y 3 - y 1) - (y 1 - y 0) * (x 3 - x 1)) ≠ 0 := ne_of_gt hT0
  have hd : outsetDenom x y 1 = ((x 1 - x 0) * (y 3 - y 1) - (y 1 - y 0) * (x 3 - x 1)) / (Real.sqrt ((y 1 - y 0) ^ 2 + (x 0 - x 1) ^ 2) * Real.sqrt ((y 3 - y 1) ^ 2 + (x 1 - x 3) ^ 2)) := by
    rw [outsetDenom, show nextCW 1 = 0 from rfl, hAc, hBk, hBc, hAk]
    field_simp
    ring
  constructor
  · rw [outsetX, show nextCW 1 = 0 from rfl, hBc, hCk, hBk, hCc, hd]
    field_simp
    ring
  · rw [outsetY, show nextCW 1 = 0 from rfl, hAk, hCc, hAc, hCk, hd]
    field_simp
    ring

set_option maxHeartbeats 1000000 in
theorem quad_vertex2 (x y : Fin 4 → ℝ) (hT0 : 0 < ((x 1 - x 0) * (y 3 - y 1) - (y 1 - y 0) * (x 3 - x 1))) (hT1 : 0 < ((x 3 - x 1) * (y 2 - y 3) - (y 3 - y 1) * (x 2 - x 3))) (hT2 : 0 < ((x 2 - x 3) * (y 0 - y 2) - (y 2 - y 3) * (x 0 - x 2))) (hT3 : 0 < ((x 0 - x 2) * (y 1 - y 0) - (y 0 - y 2) * (x 1 - x 0))) :
    outsetX x y 2 = x 2 + (Real.sqrt ((y 0 - y 2) ^ 2 + (x 2 - x 0) ^ 2) * (x 2 - x 3) - Real.sqrt ((y 2 - y 3) ^ 2 + (x 3 - x 2) ^ 2) * (x 0 - x 2)) / (2 * ((x 2 - x 3) * (y 0 - y 2) - (y 2 - y 3) * (x 0 - x 2))) ∧
    outsetY x y 2 = y 2 + (Real.sqrt ((y 0 - y 2) ^ 2 + (x 2 - x 0) ^ 2) * (y 2 - y 3) - Real.sqrt ((y 2 - y 3) ^ 2 + (x 3 - x 2) ^ 2) * (y 0 - y 2)) / (2 * ((x 2 - x 3) * (y 0 - y 2) - (y 2 - y 3) * (x 0 - x 2))) := by
  obtain ⟨hAk, hBk, hCk⟩ := quad_edge2 x y hT3
  obtain ⟨hAc, hBc, hCc⟩ := quad_edge3 x y hT3
  have hk : (0:ℝ) < (y 0 - y 2) ^ 2 + (x 2 - x 0) ^ 2 := by
    have h := sq_sum_pos_of_cross (x 0 - x 2) (y 0 - y 2) (x 1 - x 0) (y 1 - y 0) hT3
    nlinarith [h]
  have hc : (0:ℝ) < (y 2 - y 3) ^ 2 + (x 3 - x 2) ^ 2 := by
    have h := sq_sum_pos_of_cross (x 2 - x 3) (y 2 - y 3) (x 0 - x 2) (y 0 - y 2) hT2
    nlinarith [h]
  have hLk : Real.sqrt ((y 0 - y 2) ^ 2 + (x 2 - x 0) ^ 2) ≠ 0 := ne_of_gt (Real.sqrt_pos.2 hk)
  have hLc : Real.sqrt ((y 2 - y 3) ^ 2 + (x 3 - x 2) ^ 2) ≠ 0 := ne_of_gt (Real.sqrt_pos.2 hc)
  have hTa : ((x 2 - x 3) * (y 0 - y 2) - (y 2 - y 3) * (x 0 - x 2)) ≠ 0 := ne_of_gt hT2
  have hd : outsetDenom x y 2 = ((x 2 - x 3) * (y 0 - y 2) - (y 2 - y 3) * (x 0 - x 2)) / (Real.sqrt ((y 2 - y 3) ^ 2 + (x 3 - x 2) ^ 2) * Real.sqrt ((y 0 - y 2) ^ 2 + (x 2 - x 0) ^ 2)) := by
    rw [outsetDenom, show nextCW 2 = 3 from rfl, hAc, hBk, hBc, hAk]
    field_simp
    ring
  constructor
  · rw [outsetX, show nextCW 2 = 3 from rfl, hBc, hCk, hBk, hCc, hd]
    field_simp
    ring
  · rw [outsetY, show nextCW 2 = 3 from rfl, hAk, hCc, hAc, hCk, hd]
    field_simp
    ring

set_option maxHeartbeats 1000000 in
theorem quad_vertex3 (x y : Fin 4 → ℝ) (hT0 : 0 < ((x 1 - x 0) * (y 3 - y 1) - (y 1 - y 0) * (x 3 - x 1))) (hT1 : 0 < ((x 3 - x 1) * (y 2 - y 3) - (y 3 - y 1) * (x 2 - x 3))) (hT2 : 0 < ((x 2 - x 3) * (y 0 - y 2) - (y 2 - y 3) * (x 0 - x 2))) (hT3 : 0 < ((x 0 - x 2) * (y 1 - y 0) - (y 0 - y 2) * (x 1 - x 0))) :
    outsetX x y 3 = x 3 + (Real.sqrt ((y 2 - y 3) ^ 2 + (x 3 - x 2) ^ 2) * (x 3 - x 1) - Real.sqrt ((y 3 - y 1) ^ 2 + (x 1 - x 3) ^ 2) * (x 2 - x 3)) / (2 * ((x 3 - x 1) * (y 2 - y 3) - (y 3 - y 1) * (x 2 - x 3))) ∧
    outsetY x y 3 = y 3 + (Real.sqrt ((y 2 - y 3) ^ 2 + (x 3 - x 2) ^ 2) * (y 3 - y 1) - Real.sqrt ((y 3 - y 1) ^ 2 + (x 1 - x 3) ^ 2) * (y 2 - y 3)) / (2 * ((x 3 - x 1) * (y 2 - y 3) - (y 3 - y 1) * (x 2 - x 3))) := by
  obtain ⟨hAk, hBk, hCk⟩ := quad_edge3 x y hT3
  obtain ⟨hAc, hBc, hCc⟩ := quad_edge1 x y hT3
  have hk : (0:ℝ) < (y 2 - y 3) ^ 2 + (x 3 - x 2) ^ 2 := by
    have h := sq_sum_pos_of_cross (x 2 - x 3) (y 2 - y 3) (x 0 - x 2) (y 0 - y 2) hT2
    nlinarith [h]
  have hc : (0:ℝ) < (y 3 - y 1) ^ 2 + (x 1 - x 3) ^ 2 := by
    have h := sq_sum_pos_of_cross (x 3 - x 1) (y 3 - y 1) (x 2 - x 3) (y 2 - y 3) hT1
    nlinarith [h]
  have hLk : Real.sqrt ((y 2 - y 3) ^ 2 + (x 3 - x 2) ^ 2) ≠ 0 := ne_of_gt (Real.sqrt_pos.2 hk)
  have hLc : Real.sqrt ((y 3 - y 1) ^ 2 + (x 1 - x 3) ^ 2) ≠ 0 := ne_of_gt (Real.sqrt_pos.2 hc)
  have hTa : ((x 3 - x 1) * (y 2 - y 3) - (y 3 - y 1) * (x 2 - x 3)) ≠ 0 := ne_of_gt hT1
  have hd : outsetDenom x y 3 = ((x 3 - x 1) * (y 2 - y 3) - (y 3 - y 1) * (x 2 - x 3)) / (Real.sqrt ((y 3 - y 1) ^ 2 + (x 1 - x 3) ^ 2) * Real.sqrt ((y 2 - y 3) ^ 2 + (x 3 - x 2) ^ 2)) := by
    rw [outsetDenom, show nextCW 3 = 1 from rfl, hAc, hBk, hBc, hAk]
    field_simp
    ring
  constructor
  · rw [outsetX, show nextCW 3 = 1 from rfl, hBc, hCk, hBk, hCc, hd]
    field_simp
    ring
  · rw [outsetY, show nextCW 3 = 1 from rfl, hAk, hCc, hAc, hCk, hd]
    field_simp
    ring

set_option maxHeartbeats 2000000 in
theorem quad_value0 (x y : Fin 4 → ℝ) (hT0 : 0 < ((x 1 - x 0) * (y 3 - y 1) - (y 1 - y 0) * (x 3 - x 1))) (hT1 : 0 < ((x 3 - x 1) * (y 2 - y 3) - (y 3 - y 1) * (x 2 - x 3))) (hT2 : 0 < ((x 2 - x 3) * (y 0 - y 2) - (y 2 - y 3) * (x 0 - x 2))) (hT3 : 0 < ((x 0 - x 2) * (y 1 - y 0) - (y 0 - y 2) * (x 1 - x 0))) :
    edgeValueAt x y 0 0 = 0 ∧
    edgeValueAt x y 1 0 = ((x 1 - x 0) * (y 3 - y 1) - (y 1 - y 0) * (x 3 - x 1)) / Real.sqrt ((y 3 - y 1) ^ 2 + (x 1 - x 3) ^ 2) + (((x 0 - x 2) * (y 1 - y 0) - (y 0 - y 2) * (x 1 - x 0)) * Real.sqrt ((y 3 - y 1) ^ 2 + (x 1 - x 3) ^ 2) + Real.sqrt ((y 0 - y 2) ^ 2 + (x 2 - x 0) ^ 2) * ((x 1 - x 0) * (y 3 - y 1) - (y 1 - y 0) * (x 3 - x 1)) - Real.sqrt ((y 1 - y 0) ^ 2 + (x 0 - x 1) ^ 2) * ((x 0 - x 2) * (y 3 - y 1) - (y 0 - y 2) * (x 3 - x 1))) / (2 * ((x 0 - x 2) * (y 1 - y 0) - (y 0 - y 2) * (x 1 - x 0)) * Real.sqrt ((y 3 - y 1) ^ 2 + (x 1 - x 3) ^ 2)) ∧
    edgeValueAt x y 2 0 = 0 ∧
    edgeValueAt x y 3 0 = ((x 2 - x 3) * (y 0 - y 2) - (y 2 - y 3) * (x 0 - x 2)) / Real.sqrt ((y 2 - y 3) ^ 2 + (x 3 - x 2) ^ 2) + (((x 2 - x 3) * (y 0 - y 2) - (y 2 - y 3) * (x 0 - x 2)) * Real.sqrt ((y 1 - y 0) ^ 2 + (x 0 - x 1) ^ 2) + Real.sqrt ((y 2 - y 3) ^ 2 + (x 3 - x 2) ^ 2) * ((x 0 - x 2) * (y 1 - y 0) - (y 0 - y 2) * (x 1 - x 0)) - Real.sqrt ((y 0 - y 2) ^ 2 + (x 2 - x 0) ^ 2) * ((x 2 - x 3) * (y 1 - y 0) - (y 2 - y 3) * (x 1 - x 0))) / (2 * ((x 0 - x 2) * (y 1 - y 0) - (y 0 - y 2) * (x 1 - x 0)) * Real.sqrt ((y 2 - y 3) ^ 2 + (x 3 - x 2) ^ 2)) := by
  obtain ⟨hA0, hB0, hC0⟩ := quad_edge0 x y hT3
  obtain ⟨hA1, hB1, hC1⟩ := quad_edge1 x y hT3
  obtain ⟨hA2, hB2, hC2⟩ := quad_edge2 x y hT3
  obtain ⟨hA3, hB3, hC3⟩ := quad_edge3 x y hT3
  obtain ⟨hX, hY⟩ := quad_vertex0 x y hT0 hT1 hT2 hT3
  have hp0 : (0:ℝ) < (y 1 - y 0) ^ 2 + (x 0 - x 1) ^ 2 := by
    have h := sq_sum_pos_of_cross (x 1 - x 0) (y 1 - y 0) (x 3 - x 1) (y 3 - y 1) hT0
    nlinarith [h]
  have hL0 : Real.sqrt ((y 1 - y 0) ^ 2 + (x 0 - x 1) ^ 2) ≠ 0 := ne_of_gt (Real.sqrt_pos.2 hp0)
  have hp1 : (0:ℝ) < (y 3 - y 1) ^ 2 + (x 1 - x 3) ^ 2 := by
    have h := sq_sum_pos_of_cross (x 3 - x 1) (y 3 - y 1) (x 2 - x 3) (y 2 - y 3) hT1
    nlinarith [h]
  have hL1 : Real.sqrt ((y 3 - y 1) ^ 2 + (x 1 - x 3) ^ 2) ≠ 0 := ne_of_gt (Real.sqrt_pos.2 hp1)
  have hp2 : (0:ℝ) < (y 2 - y 3) ^ 2 + (x 3 - x 2) ^ 2 := by
    have h := sq_sum_pos_of_cross (x 2 - x 3) (y 2 - y 3) (x 0 - x 2) (y 0 - y 2) hT2
    nlinarith [h]
  have hL2 : Real.sqrt ((y 2 - y 3) ^ 2 + (x 3 - x 2) ^ 2) ≠ 0 := ne_of_gt (Real.sqrt_pos.2 hp2)
  have hp3 : (0:ℝ) < (y 0 - y 2) ^ 2 + (x 2 - x 0) ^ 2 := by
    have h := sq_sum_pos_of_cross (x 0 - x 2) (y 0 - y 2) (x 1 - x 0) (y 1 - y 0) hT3
    nlinarith [h]
  have hL3 : Real.sqrt ((y 0 - y 2) ^ 2 + (x 2 - x 0) ^ 2) ≠ 0 := ne_of_gt (Real.sqrt_pos.2 hp3)
  have hTn0 : ((x 1 - x 0) * (y 3 - y 1) - (y 1 - y 0) * (x 3 - x 1)) ≠ 0 := ne_of_gt hT0
  have hTn1 : ((x 3 - x 1) * (y 2 - y 3) - (y 3 - y 1) * (x 2 - x 3)) ≠ 0 := ne_of_gt hT1
  have hTn2 : ((x 2 - x 3) * (y 0 - y 2) - (y 2 - y 3) * (x 0 - x 2)) ≠ 0 := ne_of_gt hT2
  have hTn3 : ((x 0 - x 2) * (y 1 - y 0) - (y 0 - y 2) * (x 1 - x 0)) ≠ 0 := ne_of_gt hT3
  refine ⟨?_, ?_, ?_, ?_⟩
  · rw [edgeValueAt, hA0, hB0, hC0, hX, hY]
    field_simp
    ring
  · rw [edgeValueAt, hA1, hB1, hC1, hX, hY]
    field_simp
    ring
  · rw [edgeValueAt, hA2, hB2, hC2, hX, hY]
    field_simp
    ring
  · rw [edgeValueAt, hA3, hB3, hC3, hX, hY]
    field_simp
    ring

set_option maxHeartbeats 2000000 in
theorem quad_value1 (x y : Fin 4 → ℝ) (hT0 : 0 < ((x 1 - x 0) * (y 3 - y 1) - (y 1 - y 0) * (x 3 - x 1))) (hT1 : 0 < ((x 3 - x 1) * (y 2 - y 3) - (y 3 - y 1) * (x 2 - x 3))) (hT2 : 0 < ((x 2 - x 3) * (y 0 - y 2) - (y 2 - y 3) * (x 0 - x 2))) (hT3 : 0 < ((x 0 - x 2) * (y 1 - y 0) - (y 0 - y 2) * (x 1 - x 0))) :
    edgeValueAt x y 0 1 = 0 ∧
    edgeValueAt x y 1 1 = 0 ∧
    edgeValueAt x y 2 1 = ((x 0 - x 2) * (y 1 - y 0) - (y 0 - y 2) * (x 1 - x 0)) / Real.sqrt ((y 0 - y 2) ^ 2 + (x 2 - x 0) ^ 2) + (((x 0 - x 2) * (y 1 - y 0) - (y 0 - y 2) * (x 1 - x 0)) * Real.sqrt ((y 3 - y 1) ^ 2 + (x 1 - x 3) ^ 2) + Real.sqrt ((y 0 - y 2) ^ 2 + (x 2 - x 0) ^ 2) * ((x 1 - x 0) * (y 3 - y 1) - (y 1 - y 0) * (x 3 - x 1)) - Real.sqrt ((y 1 - y 0) ^ 2 + (x 0 - x 1) ^ 2) * ((x 0 - x 2) * (y 3 - y 1) - (y 0 - y 2) * (x 3 - x 1))) / (2 * ((x 1 - x 0) * (y 3 - y 1) - (y 1 - y 0) * (x 3 - x 1)) * Real.sqrt ((y 0 - y 2) ^ 2 + (x 2 - x 0) ^ 2)) ∧
    edgeValueAt x y 3 1 = ((x 3 - x 1) * (y 2 - y 3) - (y 3 - y 1) * (x 2 - x 3)) / Real.sqrt ((y 2 - y 3) ^ 2 + (x 3 - x 2) ^ 2) + (((x 1 - x 0) * (y 3 - y 1) - (y 1 - y 0) * (x 3 - x 1)) * Real.sqrt ((y 2 - y 3) ^ 2 + (x 3 - x 2) ^ 2) + Real.sqrt ((y 1 - y 0) ^ 2 + (x 0 - x 1) ^ 2) * ((x 3 - x 1) * (y 2 - y 3) - (y 3 - y 1) * (x 2 - x 3)) - Real.sqrt ((y 3 - y 1) ^ 2 + (x 1 - x 3) ^ 2) * ((x 1 - x 0) * (y 2 - y 3) - (y 1 - y 0) * (x 2 - x 3))) / (2 * ((x 1 - x 0) * (y 3 - y 1) - (y 1 - y 0) * (x 3 - x 1)) * Real.sqrt ((y 2 - y 3) ^ 2 + (x 3 - x 2) ^ 2)) := by
  obtain ⟨hA0, hB0, hC0⟩ := quad_edge0 x y hT3
  obtain ⟨hA1, hB1, hC1⟩ := quad_edge1 x y hT3
  obtain ⟨hA2, hB2, hC2⟩ := quad_edge2 x y hT3
  obtain ⟨hA3, hB3, hC3⟩ := quad_edge3 x y hT3
  obtain ⟨hX, hY⟩ := quad_vertex1 x y hT0 hT1 hT2 hT3
  have hp0 : (0:ℝ) < (y 1 - y 0) ^ 2 + (x 0 - x 1) ^ 2 := by
    have h := sq_sum_pos_of_cross (x 1 - x 0) (y 1 - y 0) (x 3 - x 1) (y 3 - y 1) hT0
    nlinarith [h]
  have hL0 : Real.sqrt ((y 1 - y 0) ^ 2 + (x 0 - x 1) ^ 2) ≠ 0 := ne_of_gt (Real.sqrt_pos.2 hp0)
  have hp1 : (0:ℝ) < (y 3 - y 1) ^ 2 + (x 1 - x 3) ^ 2 := by
    have h := sq_sum_pos_of_cross (x 3 - x 1) (y 3 - y 1) (x 2 - x 3) (y 2 - y 3) hT1
    nlinarith [h]
  have hL1 : Real.sqrt ((y 3 - y 1) ^ 2 + (x 1 - x 3) ^ 2) ≠ 0 := ne_of_gt (Real.sqrt_pos.2 hp1)
  have hp2 : (0:ℝ) < (y 2 - y 3) ^ 2 + (x 3 - x 2) ^ 2 := by
    have h := sq_sum_pos_of_cross (x 2 - x 3) (y 2 - y 3) (x 0 - x 2) (y 0 - y 2) hT2
    nlinarith [h]
  have hL2 : Real.sqrt ((y 2 - y 3) ^ 2 + (x 3 - x 2) ^ 2) ≠ 0 := ne_of_gt (Real.sqrt_pos.2 hp2)
  have hp3 : (0:ℝ) < (y 0 - y 2) ^ 2 + (x 2 - x 0) ^ 2 := by
    have h := sq_sum_pos_of_cross (x 0 - x 2) (y 0 - y 2) (x 1 - x 0) (y 1 - y 0) hT3
    nlinarith [h]
  have hL3 : Real.sqrt ((y 0 - y 2) ^ 2 + (x 2 - x 0) ^ 2) ≠ 0 := ne_of_gt (Real.sqrt_pos.2 hp3)
  have hTn0 : ((x 1 - x 0) * (y 3 - y 1) - (y 1 - y 0) * (x 3 - x 1)) ≠ 0 := ne_of_gt hT0
  have hTn1 : ((x 3 - x 1) * (y 2 - y 3) - (y 3 - y 1) * (x 2 - x 3)) ≠ 0 := ne_of_gt hT1
  have hTn2 : ((x 2 - x 3) * (y 0 - y 2) - (y 2 - y 3) * (x 0 - x 2)) ≠ 0 := ne_of_gt hT2
  have hTn3 : ((x 0 - x 2) * (y 1 - y 0) - (y 0 - y 2) * (x 1 - x 0)) ≠ 0 := ne_of_gt hT3
  refine ⟨?_, ?_, ?_, ?_⟩
  · rw [edgeValueAt, hA0, hB0, hC0, hX, hY]
    field_simp
    ring
  · rw [edgeValueAt, hA1, hB1, hC1, hX, hY]
    field_simp
    ring
  · rw [edgeValueAt, hA2, hB2, hC2, hX, hY]
    field_simp
    ring
  · rw [edgeValueAt, hA3, hB3, hC3, hX, hY]
    field_simp
    ring

set_option maxHeartbeats 2000000 in
theorem quad_value2 (x y : Fin 4 → ℝ) (hT0 : 0 < ((x 1 - x 0) * (y 3 - y 1) - (y 1 - y 0) * (x 3 - x 1))) (hT1 : 0 < ((x 3 - x 1) * (y 2 - y 3) - (y 3 - y 1) * (x 2 - x 3))) (hT2 : 0 < ((x 2 - x 3) * (y 0 - y 2) - (y 2 - y 3) * (x 0 - x 2))) (hT3 : 0 < ((x 0 - x 2) * (y 1 - y 0) - (y 0 - y 2) * (x 1 - x 0))) :
    edgeValueAt x y 0 2 = ((x 0 - x 2) * (y 1 - y 0) - (y 0 - y 2) * (x 1 - x 0)) / Real.sqrt ((y 1 - y 0) ^ 2 + (x 0 - x 1) ^ 2) + (((x 2 - x 3) * (y 0 - y 2) - (y 2 - y 3) * (x 0 - x 2)) * Real.sqrt ((y 1 - y 0) ^ 2 + (x 0 - x 1) ^ 2) + Real.sqrt ((y 2 - y 3) ^ 2 + (x 3 - x 2) ^ 2) * ((x 0 - x 2) * (y 1 - y 0) - (y 0 - y 2) * (x 1 - x 0)) - Real.sqrt ((y 0 - y 2) ^ 2 + (x 2 - x 0) ^ 2) * ((x 2 - x 3) * (y 1 - y 0) - (y 2 - y 3) * (x 1 - x 0))) / (2 * ((x 2 - x 3) * (y 0 - y 2) - (y 2 - y 3) * (x 0 - x 2)) * Real.sqrt ((y 1 - y 0) ^ 2 + (x 0 - x 1) ^ 2)) ∧
    edgeValueAt x y 1 2 = ((x 3 - x 1) * (y 2 - y 3) - (y 3 - y 1) * (x 2 - x 3)) / Real.sqrt ((y 3 - y 1) ^ 2 + (x 1 - x 3) ^ 2) + (((x 3 - x 1) * (y 2 - y 3) - (y 3 - y 1) * (x 2 - x 3)) * Real.sqrt ((y 0 - y 2) ^ 2 + (x 2 - x 0) ^ 2) + Real.sqrt ((y 3 - y 1) ^ 2 + (x 1 - x 3) ^ 2) * ((x 2 - x 3) * (y 0 - y 2) - (y 2 - y 3) * (x 0 - x 2)) - Real.sqrt ((y 2 - y 3) ^ 2 + (x 3 - x 2) ^ 2) * ((x 3 - x 1) * (y 0 - y 2) - (y 3 - y 1) * (x 0 - x 2))) / (2 * ((x 2 - x 3) * (y 0 - y 2) - (y 2 - y 3) * (x 0 - x 2)) * Real.sqrt ((y 3 - y 1) ^ 2 + (x 1 - x 3) ^ 2)) ∧
    edgeValueAt x y 2 2 = 0 ∧
    edgeValueAt x y 3 2 = 0 := by
  obtain ⟨hA0, hB0, hC0⟩ := quad_edge0 x y hT3
  obtain ⟨hA1, hB1, hC1⟩ := quad_edge1 x y hT3
  obtain ⟨hA2, hB2, hC2⟩ := quad_edge2 x y hT3
  obtain ⟨hA3, hB3, hC3⟩ := quad_edge3 x y hT3
  obtain ⟨hX, hY⟩ := quad_vertex2 x y hT0 hT1 hT2 hT3
  have hp0 : (0:ℝ) < (y 1 - y 0) ^ 2 + (x 0 - x 1) ^ 2 := by
    have h := sq_sum_pos_of_cross (x 1 - x 0) (y 1 - y 0) (x 3 - x 1) (y 3 - y 1) hT0
    nlinarith [h]
  have hL0 : Real.sqrt ((y 1 - y 0) ^ 2 + (x 0 - x 1) ^ 2) ≠ 0 := ne_of_gt (Real.sqrt_pos.2 hp0)
  have hp1 : (0:ℝ) < (y 3 - y 1) ^ 2 + (x 1 - x 3) ^ 2 := by
    have h := sq_sum_pos_of_cross (x 3 - x 1) (y 3 - y 1) (x 2 - x 3) (y 2 - y 3) hT1
    nlinarith [h]
  have hL1 : Real.sqrt ((y 3 - y 1) ^ 2 + (x 1 - x 3) ^ 2) ≠ 0 := ne_of_gt (Real.sqrt_pos.2 hp1)
  have hp2 : (0:ℝ) < (y 2 - y 3) ^ 2 + (x 3 - x 2) ^ 2 := by
    have h := sq_sum_pos_of_cross (x 2 - x 3) (y 2 - y 3) (x 0 - x 2) (y 0 - y 2) hT2
    nlinarith [h]
  have hL2 : Real.sqrt ((y 2 - y 3) ^ 2 + (x 3 - x 2) ^ 2) ≠ 0 := ne_of_gt (Real.sqrt_pos.2 hp2)
  have hp3 : (0:ℝ) < (y 0 - y 2) ^ 2 + (x 2 - x 0) ^ 2 := by
    have h := sq_sum_pos_of_cross (x 0 - x 2) (y 0 - y 2) (x 1 - x 0) (y 1 - y 0) hT3
    nlinarith [h]
  have hL3 : Real.sqrt ((y 0 - y 2) ^ 2 + (x 2 - x 0) ^ 2) ≠ 0 := ne_of_gt (Real.sqrt_pos.2 hp3)
  have hTn0 : ((x 1 - x 0) * (y 3 - y 1) - (y 1 - y 0) * (x 3 - x 1)) ≠ 0 := ne_of_gt hT0
  have hTn1 : ((x 3 - x 1) * (y 2 - y 3) - (y 3 - y 1) * (x 2 - x 3)) ≠ 0 := ne_of_gt hT1
  have hTn2 : ((x 2 - x 3) * (y 0 - y 2) - (y 2 - y 3) * (x 0 - x 2)) ≠ 0 := ne_of_gt hT2
  have hTn3 : ((x 0 - x 2) * (y 1 - y 0) - (y 0 - y 2) * (x 1 - x 0)) ≠ 0 := ne_of_gt hT3
  refine ⟨?_, ?_, ?_, ?_⟩
  · rw [edgeValueAt, hA0, hB0, hC0, hX, hY]
    field_simp
    ring
  · rw [edgeValueAt, hA1, hB1, hC1, hX, hY]
    field_simp
    ring
  · rw [edgeValueAt, hA2, hB2, hC2, hX, hY]
    field_simp
    ring
  · rw [edgeValueAt, hA3, hB3, hC3, hX, hY]
    field_simp
    ring

set_option maxHeartbeats 2000000 in
theorem quad_value3 (x y : Fin 4 → ℝ) (hT0 : 0 < ((x 1 - x 0) * (y 3 - y 1) - (y 1 - y 0) * (x 3 - x 1))) (hT1 : 0 < ((x 3 - x 1) * (y 2 - y 3) - (y 3 - y 1) * (x 2 - x 3))) (hT2 : 0 < ((x 2 - x 3) * (y 0 - y 2) - (y 2 - y 3) * (x 0 - x 2))) (hT3 : 0 < ((x 0 - x 2) * (y 1 - y 0) - (y 0 - y 2) * (x 1 - x 0))) :
    edgeValueAt x y 0 3 = ((x 1 - x 0) * (y 3 - y 1) - (y 1 - y 0) * (x 3 - x 1)) / Real.sqrt ((y 1 - y 0) ^ 2 + (x 0 - x 1) ^ 2) + (((x 1 - x 0) * (y 3 - y 1) - (y 1 - y 0) * (x 3 - x 1)) * Real.sqrt ((y 2 - y 3) ^ 2 + (x 3 - x 2) ^ 2) + Real.sqrt ((y 1 - y 0) ^ 2 + (x 0 - x 1) ^ 2) * ((x 3 - x 1) * (y 2 - y 3) - (y 3 - y 1) * (x 2 - x 3)) - Real.sqrt ((y 3 - y 1) ^ 2 + (x 1 - x 3) ^ 2) * ((x 1 - x 0) * (y 2 - y 3) - (y 1 - y 0) * (x 2 - x 3))) / (2 * ((x 3 - x 1) * (y 2 - y 3) - (y 3 - y 1) * (x 2 - x 3)) * Real.sqrt ((y 1 - y 0) ^ 2 + (x 0 - x 1) ^ 2)) ∧
    edgeValueAt x y 1 3 = 0 ∧
    edgeValueAt x y 2 3 = ((x 2 - x 3) * (y 0 - y 2) - (y 2 - y 3) * (x 0 - x 2)) / Real.sqrt ((y 0 - y 2) ^ 2 + (x 2 - x 0) ^ 2) + (((x 3 - x 1) * (y 2 - y 3) - (y 3 - y 1) * (x 2 - x 3)) * Real.sqrt ((y 0 - y 2) ^ 2 + (x 2 - x 0) ^ 2) + Real.sqrt ((y 3 - y 1) ^ 2 + (x 1 - x 3) ^ 2) * ((x 2 - x 3) * (y 0 - y 2) - (y 2 - y 3) * (x 0 - x 2)) - Real.sqrt ((y 2 - y 3) ^ 2 + (x 3 - x 2) ^ 2) * ((x 3 - x 1) * (y 0 - y 2) - (y 3 - y 1) * (x 0 - x 2))) / (2 * ((x 3 - x 1) * (y 2 - y 3) - (y 3 - y 1) * (x 2 - x 3)) * Real.sqrt ((y 0 - y 2) ^ 2 + (x 2 - x 0) ^ 2)) ∧
    edgeValueAt x y 3 3 = 0 := by
  obtain ⟨hA0, hB0, hC0⟩ := quad_edge0 x y hT3
  obtain ⟨hA1, hB1, hC1⟩ := quad_edge1 x y hT3
  obtain ⟨hA2, hB2, hC2⟩ := quad_edge2 x y hT3
  obtain ⟨hA3, hB3, hC3⟩ := quad_edge3 x y hT3
  obtain ⟨hX, hY⟩ := quad_vertex3 x y hT0 hT1 hT2 hT3
  have hp0 : (0:ℝ) < (y 1 - y 0) ^ 2 + (x 0 - x 1) ^ 2 := by
    have h := sq_sum_pos_of_cross (x 1 - x 0) (y 1 - y 0) (x 3 - x 1) (y 3 - y 1) hT0
    nlinarith [h]
  have hL0 : Real.sqrt ((y 1 - y 0) ^ 2 + (x 0 - x 1) ^ 2) ≠ 0 := ne_of_gt (Real.sqrt_pos.2 hp0)
  have hp1 : (0:ℝ) < (y 3 - y 1) ^ 2 + (x 1 - x 3) ^ 2 := by
    have h := sq_sum_pos_of_cross (x 3 - x 1) (y 3 - y 1) (x 2 - x 3) (y 2 - y 3) hT1
    nlinarith [h]
  have hL1 : Real.sqrt ((y 3 - y 1) ^ 2 + (x 1 - x 3) ^ 2) ≠ 0 := ne_of_gt (Real.sqrt_pos.2 hp1)
  have hp2 : (0:ℝ) < (y 2 - y 3) ^ 2 + (x 3 - x 2) ^ 2 := by
    have h := sq_sum_pos_of_cross (x 2 - x 3) (y 2 - y 3) (x 0 - x 2) (y 0 - y 2) hT2
    nlinarith [h]
  have hL2 : Real.sqrt ((y 2 - y 3) ^ 2 + (x 3 - x 2) ^ 2) ≠ 0 := ne_of_gt (Real.sqrt_pos.2 hp2)
  have hp3 : (0:ℝ) < (y 0 - y 2) ^ 2 + (x 2 - x 0) ^ 2 := by
    have h := sq_sum_pos_of_cross (x 0 - x 2) (y 0 - y 2) (x 1 - x 0) (y 1 - y 0) hT3
    nlinarith [h]
  have hL3 : Real.sqrt ((y 0 - y 2) ^ 2 + (x 2 - x 0) ^ 2) ≠ 0 := ne_of_gt (Real.sqrt_pos.2 hp3)
  have hTn0 : ((x 1 - x 0) * (y 3 - y 1) - (y 1 - y 0) * (x 3 - x 1)) ≠ 0 := ne_of_gt hT0
  have hTn1 : ((x 3 - x 1) * (y 2 - y 3) - (y 3 - y 1) * (x 2 - x 3)) ≠ 0 := ne_of_gt hT1
  have hTn2 : ((x 2 - x 3) * (y 0 - y 2) - (y 2 - y 3) * (x 0 - x 2)) ≠ 0 := ne_of_gt hT2
  have hTn3 : ((x 0 - x 2) * (y 1 - y 0) - (y 0 - y 2) * (x 1 - x 0)) ≠ 0 := ne_of_gt hT3
  refine ⟨?_, ?_, ?_, ?_⟩
  · rw [edgeValueAt, hA0, hB0, hC0, hX, hY]
    field_simp
    ring
  · rw [edgeValueAt, hA1, hB1, hC1, hX, hY]
    field_simp
    ring
  · rw [edgeValueAt, hA2, hB2, hC2, hX, hY]
    field_simp
    ring
  · rw [edgeValueAt, hA3, hB3, hC3, hX, hY]
    field_simp
    ring

theorem quad_edgeValue (x y : Fin 4 → ℝ) (hT0 : 0 < ((x 1 - x 0) * (y 3 - y 1) - (y 1 - y 0) * (x 3 - x 1))) (hT1 : 0 < ((x 3 - x 1) * (y 2 - y 3) - (y 3 - y 1) * (x 2 - x 3))) (hT2 : 0 < ((x 2 - x 3) * (y 0 - y 2) - (y 2 - y 3) * (x 0 - x 2))) (hT3 : 0 < ((x 0 - x 2) * (y 1 - y 0) - (y 0 - y 2) * (x 1 - x 0))) (j k : Fin 4) :
    0 ≤ edgeValueAt x y j k := by
  have hp0 : (0:ℝ) < (y 1 - y 0) ^ 2 + (x 0 - x 1) ^ 2 := by
    have h := sq_sum_pos_of_cross (x 1 - x 0) (y 1 - y 0) (x 3 - x 1) (y 3 - y 1) hT0
    nlinarith [h]
  have hp1 : (0:ℝ) < (y 3 - y 1) ^ 2 + (x 1 - x 3) ^ 2 := by
    have h := sq_sum_pos_of_cross (x 3 - x 1) (y 3 - y 1) (x 2 - x 3) (y 2 - y 3) hT1
    nlinarith [h]
  have hp2 : (0:ℝ) < (y 2 - y 3) ^ 2 + (x 3 - x 2) ^ 2 := by
    have h := sq_sum_pos_of_cross (x 2 - x 3) (y 2 - y 3) (x 0 - x 2) (y 0 - y 2) hT2
    nlinarith [h]
  have hp3 : (0:ℝ) < (y 0 - y 2) ^ 2 + (x 2 - x 0) ^ 2 := by
    have h := sq_sum_pos_of_cross (x 0 - x 2) (y 0 - y 2) (x 1 - x 0) (y 1 - y 0) hT3
    nlinarith [h]
  have hCM301 : 0 ≤ ((x 0 - x 2) * (y 1 - y 0) - (y 0 - y 2) * (x 1 - x 0)) * Real.sqrt ((y 3 - y 1) ^ 2 + (x 1 - x 3) ^ 2) + Real.sqrt ((y 0 - y 2) ^ 2 + (x 2 - x 0) ^ 2) * ((x 1 - x 0) * (y 3 - y 1) - (y 1 - y 0) * (x 3 - x 1)) - Real.sqrt ((y 1 - y 0) ^ 2 + (x 0 - x 1) ^ 2) * ((x 0 - x 2) * (y 3 - y 1) - (y 0 - y 2) * (x 3 - x 1)) :=
    cross_mix_nonneg (x 0 - x 2) (y 0 - y 2) (x 1 - x 0) (y 1 - y 0) (x 3 - x 1) (y 3 - y 1)
      (Real.sqrt ((y 0 - y 2) ^ 2 + (x 2 - x 0) ^ 2)) (Real.sqrt ((y 1 - y 0) ^ 2 + (x 0 - x 1) ^ 2)) (Real.sqrt ((y 3 - y 1) ^ 2 + (x 1 - x 3) ^ 2))
      (by rw [Real.sq_sqrt (by positivity)]; ring)
      (by rw [Real.sq_sqrt (by positivity)]; ring)
      (by rw [Real.sq_sqrt (by positivity)]; ring)
      (Real.sqrt_nonneg _) (Real.sqrt_pos.2 hp0) (Real.sqrt_nonneg _)
      hT3 hT0
  have hCM230 : 0 ≤ ((x 2 - x 3) * (y 0 - y 2) - (y 2 - y 3) * (x 0 - x 2)) * Real.sqrt ((y 1 - y 0) ^ 2 + (x 0 - x 1) ^ 2) + Real.sqrt ((y 2 - y 3) ^ 2 + (x 3 - x 2) ^ 2) * ((x 0 - x 2) * (y 1 - y 0) - (y 0 - y 2) * (x 1 - x 0)) - Real.sqrt ((y 0 - y 2) ^ 2 + (x 2 - x 0) ^ 2) * ((x 2 - x 3) * (y 1 - y 0) - (y 2 - y 3) * (x 1 - x 0)) :=
    cross_mix_nonneg (x 2 - x 3) (y 2 - y 3) (x 0 - x 2) (y 0 - y 2) (x 1 - x 0) (y 1 - y 0)
      (Real.sqrt ((y 2 - y 3) ^ 2 + (x 3 - x 2) ^ 2)) (Real.sqrt ((y 0 - y 2) ^ 2 + (x 2 - x 0) ^ 2)) (Real.sqrt ((y 1 - y 0) ^ 2 + (x 0 - x 1) ^ 2))
      (by rw [Real.sq_sqrt (by positivity)]; ring)
      (by rw [Real.sq_sqrt (by positivity)]; ring)
      (by rw [Real.sq_sqrt (by positivity)]; ring)
      (Real.sqrt_nonneg _) (Real.sqrt_pos.2 hp3) (Real.sqrt_nonneg _)
      hT2 hT3
  have hCM012 : 0 ≤ ((x 1 - x 0) * (y 3 - y 1) - (y 1 - y 0) * (x 3 - x 1)) * Real.sqrt ((y 2 - y 3) ^ 2 + (x 3 - x 2) ^ 2) + Real.sqrt ((y 1 - y 0) ^ 2 + (x 0 - x 1) ^ 2) * ((x 3 - x 1) * (y 2 - y 3) - (y 3 - y 1) * (x 2 - x 3)) - Real.sqrt ((y 3 - y 1) ^ 2 + (x 1 - x 3) ^ 2) * ((x 1 - x 0) * (y 2 - y 3) - (y 1 - y 0) * (x 2 - x 3)) :=
    cross_mix_nonneg (x 1 - x 0) (y 1 - y 0) (x 3 - x 1) (y 3 - y 1) (x 2 - x 3) (y 2 - y 3)
      (Real.sqrt ((y 1 - y 0) ^ 2 + (x 0 - x 1) ^ 2)) (Real.sqrt ((y 3 - y 1) ^ 2 + (x 1 - x 3) ^ 2)) (Real.sqrt ((y 2 - y 3) ^ 2 + (x 3 - x 2) ^ 2))
      (by rw [Real.sq_sqrt (by positivity)]; ring)
      (by rw [Real.sq_sqrt (by positivity)]; ring)
      (by rw [Real.sq_sqrt (by positivity)]; ring)
      (Real.sqrt_nonneg _) (Real.sqrt_pos.2 hp1) (Real.sqrt_nonneg _)
      hT0 hT1
  have hCM123 : 0 ≤ ((x 3 - x 1) * (y 2 - y 3) - (y 3 - y 1) * (x 2 - x 3)) * Real.sqrt ((y 0 - y 2) ^ 2 + (x 2 - x 0) ^ 2) + Real.sqrt ((y 3 - y 1) ^ 2 + (x 1 - x 3) ^ 2) * ((x 2 - x 3) * (y 0 - y 2) - (y 2 - y 3) * (x 0 - x 2)) - Real.sqrt ((y 2 - y 3) ^ 2 + (x 3 - x 2) ^ 2) * ((x 3 - x 1) * (y 0 - y 2) - (y 3 - y 1) * (x 0 - x 2)) :=
    cross_mix_nonneg (x 3 - x 1) (y 3 - y 1) (x 2 - x 3) (y 2 - y 3) (x 0 - x 2) (y 0 - y 2)
      (Real.sqrt ((y 3 - y 1) ^ 2 + (x 1 - x 3) ^ 2)) (Real.sqrt ((y 2 - y 3) ^ 2 + (x 3 - x 2) ^ 2)) (Real.sqrt ((y 0 - y 2) ^ 2 + (x 2 - x 0) ^ 2))
      (by rw [Real.sq_sqrt (by positivity)]; ring)
      (by rw [Real.sq_sqrt (by positivity)]; ring)
      (by rw [Real.sq_sqrt (by positivity)]; ring)
      (Real.sqrt_nonneg _) (Real.sqrt_pos.2 hp2) (Real.sqrt_nonneg _)
      hT1 hT2
  fin_cases j <;> fin_cases k
  · show 0 ≤ edgeValueAt x y 0 0
    exact le_of_eq ((quad_value0 x y hT0 hT1 hT2 hT3).1).symm
  · show 0 ≤ edgeValueAt x y 0 1
    exact le_of_eq ((quad_value1 x y hT0 hT1 hT2 hT3).1).symm
  · show 0 ≤ edgeValueAt x y 0 2
    rw [(quad_value2 x y hT0 hT1 hT2 hT3).1]
    refine add_nonneg (div_nonneg hT3.le (Real.sqrt_nonneg _)) ?_
    exact div_nonneg hCM230
      (mul_nonneg (mul_nonneg (by norm_num) hT2.le) (Real.sqrt_nonneg _))
  · show 0 ≤ edgeValueAt x y 0 3
    rw [(quad_value3 x y hT0 hT1 hT2 hT3).1]
    refine add_nonneg (div_nonneg hT0.le (Real.sqrt_nonneg _)) ?_
    exact div_nonneg hCM012
      (mul_nonneg (mul_nonneg (by norm_num) hT1.le) (Real.sqrt_nonneg _))
  · show 0 ≤ edgeValueAt x y 1 0
    rw [(quad_value0 x y hT0 hT1 hT2 hT3).2.1]
    refine add_nonneg (div_nonneg hT0.le (Real.sqrt_nonneg _)) ?_
    exact div_nonneg hCM301
      (mul_nonneg (mul_nonneg (by norm_num) hT3.le) (Real.sqrt_nonneg _))
  · show 0 ≤ edgeValueAt x y 1 1
    exact le_of_eq ((quad_value1 x y hT0 hT1 hT2 hT3).2.1).symm
  · show 0 ≤ edgeValueAt x y 1 2
    rw [(quad_value2 x y hT0 hT1 hT2 hT3).2.1]
    refine add_nonneg (div_nonneg hT1.le (Real.sqrt_nonneg _)) ?_
    exact div_nonneg hCM123
      (mul_nonneg (mul_nonneg (by norm_num) hT2.le) (Real.sqrt_nonneg _))
  · show 0 ≤ edgeValueAt x y 1 3
    exact le_of_eq ((quad_value3 x y hT0 hT1 hT2 hT3).2.1).symm
  · show 0 ≤ edgeValueAt x y 2 0
    exact le_of_eq ((quad_value0 x y hT0 hT1 hT2 hT3).2.2.1).symm
  · show 0 ≤ edgeValueAt x y 2 1
    rw [(quad_value1 x y hT0 hT1 hT2 hT3).2.2.1]
    refine add_nonneg (div_nonneg hT3.le (Real.sqrt_nonneg _)) ?_
    exact div_nonneg hCM301
      (mul_nonneg (mul_nonneg (by norm_num) hT0.le) (Real.sqrt_nonneg _))
  · show 0 ≤ edgeValueAt x y 2 2
    exact le_of_eq ((quad_value2 x y hT0 hT1 hT2 hT3).2.2.1).symm
  · show 0 ≤ edgeValueAt x y 2 3
    rw [(quad_value3 x y hT0 hT1 hT2 hT3).2.2.1]
    refine add_nonneg (div_nonneg hT2.le (Real.sqrt_nonneg _)) ?_
    exact div_nonneg hCM123
      (mul_nonneg (mul_nonneg (by norm_num) hT1.le) (Real.sqrt_nonneg _))
  · show 0 ≤ edgeValueAt x y 3 0
    rw [(quad_value0 x y hT0 hT1 hT2 hT3).2.2.2]
    refine add_nonneg (div_nonneg hT2.le (Real.sqrt_nonneg _)) ?_
    exact div_nonneg hCM230
      (mul_nonneg (mul_nonneg (by norm_num) hT3.le) (Real.sqrt_nonneg _))
  · show 0 ≤ edgeValueAt x y 3 1
    rw [(quad_value1 x y hT0 hT1 hT2 hT3).2.2.2]
    refine add_nonneg (div_nonneg hT1.le (Real.sqrt_nonneg _)) ?_
    exact div_nonneg hCM012
      (mul_nonneg (mul_nonneg (by norm_num) hT0.le) (Real.sqrt_nonneg _))
  · show 0 ≤ edgeValueAt x y 3 2
    exact le_of_eq ((quad_value2 x y hT0 hT1 hT2 hT3).2.2.2).symm
  · show 0 ≤ edgeValueAt x y 3 3
    exact le_of_eq ((quad_value3 x y hT0 hT1 hT2 hT3).2.2.2).symm

/-- Claim C4, amended: restricted to strictly convex quads in triangle-strip
order with positive orientation (all four perimeter turns strictly positive --
the dart counterexample shows the computation wrong on non-convex quads, and a
zero turn makes the source divide by zero in the outset solve, so strict
convexity is exactly the boundary the evidence forces): the quad has positive
strip-order signed area, the computation produces four edge equations with
unit-length (a,b) normals whose constant terms carry the +0.5 half-pixel
outset, and every one of the four edge equations evaluates to a value ≥ 0 at
all four outset vertices. -/
theorem claim_C4 (x y : Fin 4 → ℝ) (hT0 : 0 < ((x 1 - x 0) * (y 3 - y 1) - (y 1 - y 0) * (x 3 - x 1))) (hT1 : 0 < ((x 3 - x 1) * (y 2 - y 3) - (y 3 - y 1) * (x 2 - x 3))) (hT2 : 0 < ((x 2 - x 3) * (y 0 - y 2) - (y 2 - y 3) * (x 0 - x 2))) (hT3 : 0 < ((x 0 - x 2) * (y 1 - y 0) - (y 0 - y 2) * (x 1 - x 0))) :
    0 < stripDoubleSignedArea x y ∧
    (∀ j, edgeA x y j ^ 2 + edgeB x y j ^ 2 = 1) ∧
    (∀ j k, 0 ≤ edgeValueAt x y j k) := by
  refine ⟨?_, ?_, fun j k => quad_edgeValue x y hT0 hT1 hT2 hT3 j k⟩
  · rw [stripDoubleSignedArea]
    linarith [hT0, hT2]
  · intro j
    fin_cases j
    · show edgeA x y 0 ^ 2 + edgeB x y 0 ^ 2 = 1
      obtain ⟨hA, hB, -⟩ := quad_edge0 x y hT3
      have hp : (0:ℝ) < (y 1 - y 0) ^ 2 + (x 0 - x 1) ^ 2 := by
        have h := sq_sum_pos_of_cross (x 1 - x 0) (y 1 - y 0) (x 3 - x 1) (y 3 - y 1) hT0
        nlinarith [h]
      have hL : Real.sqrt ((y 1 - y 0) ^ 2 + (x 0 - x 1) ^ 2) ≠ 0 := ne_of_gt (Real.sqrt_pos.2 hp)
      have hL2 : (Real.sqrt ((y 1 - y 0) ^ 2 + (x 0 - x 1) ^ 2)) ^ 2 = (y 1 - y 0) ^ 2 + (x 0 - x 1) ^ 2 := Real.sq_sqrt hp.le
      rw [hA, hB]
      field_simp
      ring
    · show edgeA x y 1 ^ 2 + edgeB x y 1 ^ 2 = 1
      obtain ⟨hA, hB, -⟩ := quad_edge1 x y hT3
      have hp : (0:ℝ) < (y 3 - y 1) ^ 2 + (x 1 - x 3) ^ 2 := by
        have h := sq_sum_pos_of_cross (x 3 - x 1) (y 3 - y 1) (x 2 - x 3) (y 2 - y 3) hT1
        nlinarith [h]
      have hL : Real.sqrt ((y 3 - y 1) ^ 2 + (x 1 - x 3) ^ 2) ≠ 0 := ne_of_gt (Real.sqrt_pos.2 hp)
      have hL2 : (Real.sqrt ((y 3 - y 1) ^ 2 + (x 1 - x 3) ^ 2)) ^ 2 = (y 3 - y 1) ^ 2 + (x 1 - x 3) ^ 2 := Real.sq_sqrt hp.le
      rw [hA, hB]
      field_simp
      ring
    · show edgeA x y 2 ^ 2 + edgeB x y 2 ^ 2 = 1
      obtain ⟨hA, hB, -⟩ := quad_edge2 x y hT3
      have hp : (0:ℝ) < (y 0 - y 2) ^ 2 + (x 2 - x 0) ^ 2 := by
        have h := sq_sum_pos_of_cross (x 0 - x 2) (y 0 - y 2) (x 1 - x 0) (y 1 - y 0) hT3
        nlinarith [h]
      have hL : Real.sqrt ((y 0 - y 2) ^ 2 + (x 2 - x 0) ^ 2) ≠ 0 := ne_of_gt (Real.sqrt_pos.2 hp)
      have hL2 : (Real.sqrt ((y 0 - y 2) ^ 2 + (x 2 - x 0) ^ 2)) ^ 2 = (y 0 - y 2) ^ 2 + (x 2 - x 0) ^ 2 := Real.sq_sqrt hp.le
      rw [hA, hB]
      field_simp
      ring
    · show edgeA x y 3 ^ 2 + edgeB x y 3 ^ 2 = 1
      obtain ⟨hA, hB, -⟩ := quad_edge3 x y hT3
      have hp : (0:ℝ) < (y 2 - y 3) ^ 2 + (x 3 - x 2) ^ 2 := by
        have h := sq_sum_pos_of_cross (x 2 - x 3) (y 2 - y 3) (x 0 - x 2) (y 0 - y 2) hT2
        nlinarith [h]
      have hL : Real.sqrt ((y 2 - y 3) ^ 2 + (x 3 - x 2) ^ 2) ≠ 0 := ne_of_gt (Real.sqrt_pos.2 hp)
      have hL2 : (Real.sqrt ((y 2 - y 3) ^ 2 + (x 3 - x 2) ^ 2)) ^ 2 = (y 2 - y 3) ^ 2 + (x 3 - x 2) ^ 2 := Real.sq_sqrt hp.le
      rw [hA, hB]
      field_simp
      ring

/-- Witness for claim C4 at the unit square (a strictly convex strip quad). -/
theorem claim_C4_witness :
    0 < stripDoubleSignedArea (rectX 0 1) (rectY 0 1) ∧
    (∀ j, edgeA (rectX 0 1) (rectY 0 1) j ^ 2 + edgeB (rectX 0 1) (rectY 0 1) j ^ 2 = 1) ∧
    (∀ j k, 0 ≤ edgeValueAt (rectX 0 1) (rectY 0 1) j k) :=
  claim_C4 (rectX 0 1) (rectY 0 1) (by norm_num [rectX, rectY])
    (by norm_num [rectX, rectY]) (by norm_num [rectX, rectY])
    (by norm_num [rectX, rectY])

theorem countAdds_append (a b : List LifeEvent) (id : Nat) :
    countAdds (a ++ b) id = countAdds a id + countAdds b id := by
  simp [countAdds, List.filter_append]

theorem countCompleted_append (a b : List LifeEvent) (id : Nat) :
    countCompleted (a ++ b) id = countCompleted a id + countCompleted b id := by
  simp [countCompleted, List.filter_append]

theorem countUnrefs_append (a b : List LifeEvent) (id : Nat) :
    countUnrefs (a ++ b) id = countUnrefs a id + countUnrefs b id := by
  simp [countUnrefs, List.filter_append]

theorem countAdds_addReads (l : List (GrTextureProxy × GrSamplerState.Filter)) (id : Nat)
    (hnd : (l.map (fun pf => pf.1.uniqueID)).Nodup) :
    countAdds (l.map fun pf => LifeEvent.addPendingRead pf.1.uniqueID) id =
      if id ∈ l.map (fun pf => pf.1.uniqueID) then 1 else 0 := by
  induction l with
  | nil => simp [countAdds]
  | cons pf rest ih =>
    rw [List.map_cons] at hnd ⊢
    obtain ⟨hhead, hrest⟩ := List.nodup_cons.1 hnd
    by_cases hid : id = pf.1.uniqueID
    · subst hid
      have hnot := hhead
      rw [List.map_cons]
      simp only [countAdds, List.filter_cons]
      rw [if_pos (by simp)]
      have := ih hrest
      simp only [countAdds] at this
      rw [List.length_cons, this, if_neg hnot, if_pos (List.mem_cons_self _ _)]
    · rw [List.map_cons]
      simp only [countAdds, List.filter_cons]
      rw [if_neg (by simp; omega)]
      have := ih hrest
      simp only [countAdds] at this
      rw [this]
      by_cases hmem : id ∈ rest.map (fun pf2 => pf2.1.uniqueID)
      · rw [if_pos hmem, if_pos (List.mem_cons_of_mem _ hmem)]
      · rw [if_neg hmem, if_neg (by simp only [List.map_cons, List.mem_cons]; rintro (hc | hc); exact hid hc; exact hmem (by simpa using hc))]

theorem countCompleted_addReads (l : List (GrTextureProxy × GrSamplerState.Filter))
    (id : Nat) :
    countCompleted (l.map fun pf => LifeEvent.addPendingRead pf.1.uniqueID) id = 0 := by
  induction l with
  | nil => simp [countCompleted]
  | cons pf rest ih =>
    simp only [List.map_cons, countCompleted, List.filter_cons] at ih ⊢
    rw [if_neg (by simp)]
    exact ih

theorem countUnrefs_addReads (l : List (GrTextureProxy × GrSamplerState.Filter))
    (id : Nat) :
    countUnrefs (l.map fun pf => LifeEvent.addPendingRead pf.1.uniqueID) id = 0 := by
  induction l with
  | nil => simp [countUnrefs]
  | cons pf rest ih =>
    simp only [List.map_cons, countUnrefs, List.filter_cons] at ih ⊢
    rw [if_neg (by simp)]
    exact ih

theorem countCompleted_completedReads
    (l : List (GrTextureProxy × GrSamplerState.Filter)) (id : Nat)
    (hnd : (l.map (fun pf => pf.1.uniqueID)).Nodup) :
    countCompleted (l.map fun pf => LifeEvent.completedRead pf.1.uniqueID) id =
      if id ∈ l.map (fun pf => pf.1.uniqueID) then 1 else 0 := by
  induction l with
  | nil => simp [countCompleted]
  | cons pf rest ih =>
    rw [List.map_cons] at hnd ⊢
    obtain ⟨hhead, hrest⟩ := List.nodup_cons.1 hnd
    by_cases hid : id = pf.1.uniqueID
    · subst hid
      have hnot := hhead
      rw [List.map_cons]
      simp only [countCompleted, List.filter_cons]
      rw [if_pos (by simp)]
      have := ih hrest
      simp only [countCompleted] at this
      rw [List.length_cons, this, if_neg hnot, if_pos (List.mem_cons_self _ _)]
    · rw [List.map_cons]
      simp only [countCompleted, List.filter_cons]
      rw [if_neg (by simp; omega)]
      have := ih hrest
      simp only [countCompleted] at this
      rw [this]
      by_cases hmem : id ∈ rest.map (fun pf2 => pf2.1.uniqueID)
      · rw [if_pos hmem, if_pos (List.mem_cons_of_mem _ hmem)]
      · rw [if_neg hmem, if_neg (by simp only [List.map_cons, List.mem_cons]; rintro (hc | hc); exact hid hc; exact hmem (by simpa using hc))]

theorem countAdds_completedReads (l : List (GrTextureProxy × GrSamplerState.Filter))
    (id : Nat) :
    countAdds (l.map fun pf => LifeEvent.completedRead pf.1.uniqueID) id = 0 := by
  induction l with
  | nil => simp [countAdds]
  | cons pf rest ih =>
    simp only [List.map_cons, countAdds, List.filter_cons] at ih ⊢
    rw [if_neg (by simp)]
    exact ih

theorem make_Wf (proxy : GrTextureProxy) (filter : GrSamplerState.Filter) (color : Nat)
    (srcRect : SkRect) (quad : GrPerspQuad) (persp : Bool) (aaType : GrAAType)
    (csxf : Option Nat) (srgb : Bool) :
    (TextureOp.make proxy filter color srcRect quad persp aaType csxf srgb).Wf := by
  refine ⟨?_, ?_, ?_⟩
  · intro d hd
    rcases List.mem_singleton.1 hd with rfl
    simp [TextureOp.make]
  · simp [TextureOp.make, TextureOp.proxyIDs]
  · simp [TextureOp.make]

theorem TraceInv_merge (pf0 : GrTextureProxy × GrSamplerState.Filter)
    (op that merged : TextureOp) (caps : GrCaps) (evs0 : List LifeEvent)
    (hInv : TraceInv pf0 op evs0)
    (hWfT : that.Wf) (hT8 : that.fProxies.length ≤ TextureGeometryProcessor.kMaxTextures)
    (hc : TextureOp.onCombineIfPossible caps op that = some merged) :
    TraceInv pf0 merged (evs0 ++ TextureOp.mergeEvents op merged) := by
  obtain ⟨hWf, ⟨tail, htail⟩, hAdds, hCompl, hUnrefs⟩ := hInv
  obtain ⟨hWf2, hFin2, ⟨added, hext, hnotin, hndadd⟩, _⟩ :=
    onCombine_some_spec caps op that merged hWf hWfT hT8 hc
  have hme : TextureOp.mergeEvents op merged =
      added.map (fun pf => LifeEvent.addPendingRead pf.1.uniqueID) := by
    rw [TextureOp.mergeEvents, hext, List.drop_left]
  have hdrop : merged.fProxies.drop 1 = tail ++ added := by
    rw [hext, htail]
    simp
  refine ⟨hWf2, ⟨tail ++ added, by rw [hext, htail, List.cons_append]⟩, ?_, ?_, ?_⟩
  · intro id
    rw [countAdds_append, hAdds id, hme, countAdds_addReads added id hndadd, hdrop, hFin2]
    simp only [htail, List.drop_succ_cons, List.drop_zero]
    simp only [List.map_append, List.mem_append]
    by_cases hmem : id ∈ added.map (fun pf => pf.1.uniqueID)
    · rcases List.mem_map.1 hmem with ⟨qg, hqg, rfl⟩
      have hn := hnotin qg hqg
      simp only [TextureOp.proxyIDs, htail, List.map_cons, List.mem_cons] at hn
      push_neg at hn
      rw [if_neg (by simpa using hn.2), if_neg (by simp [hn.1]), if_pos (Or.inr hmem),
        if_pos hmem]
    · rw [if_neg hmem]
      by_cases htl : id ∈ tail.map (fun pf => pf.1.uniqueID)
      · rw [if_pos htl, if_pos (Or.inl htl)]
      · simp [htl, hmem]
  · intro id
    rw [countCompleted_append, hCompl id, hme, countCompleted_addReads]
  · intro id
    rw [countUnrefs_append, hUnrefs id, hme, countUnrefs_addReads, hFin2, Nat.add_zero]

theorem countAdds_pair (a id : Nat) :
    countAdds [LifeEvent.addPendingRead a, LifeEvent.unref a] id =
      if id = a then 1 else 0 := by
  by_cases h : id = a
  · subst h
    simp [countAdds]
  · rw [if_neg h]
    simp only [countAdds, List.filter_cons, List.filter_nil]
    rw [if_neg (by simp; omega), if_neg (by simp)]
    rfl

theorem countUnrefs_pair (a id : Nat) :
    countUnrefs [LifeEvent.addPendingRead a, LifeEvent.unref a] id =
      if id = a then 1 else 0 := by
  by_cases h : id = a
  · subst h
    simp [countUnrefs]
  · rw [if_neg h]
    simp only [countUnrefs, List.filter_cons, List.filter_nil]
    rw [if_neg (by simp), if_neg (by simp; omega)]
    rfl

theorem countCompleted_pair (a id : Nat) :
    countCompleted [LifeEvent.addPendingRead a, LifeEvent.unref a] id = 0 := by
  simp only [countCompleted, List.filter_cons, List.filter_nil]
  rw [if_neg (by simp), if_neg (by simp)]
  rfl

theorem TraceInv_finalize (pf0 : GrTextureProxy × GrSamplerState.Filter)
    (op : TextureOp) (evs0 : List LifeEvent)
    (hInv : TraceInv pf0 op evs0)
    (hnf : op.fFinalized = false) (hlen : op.fProxies.length = 1) :
    TraceInv pf0 { op with fFinalized := true }
      (evs0 ++ [LifeEvent.addPendingRead (op.fProxies.headD default).1.uniqueID,
                LifeEvent.unref (op.fProxies.headD default).1.uniqueID]) := by
  obtain ⟨hWf, ⟨tail, htail⟩, hAdds, hCompl, hUnrefs⟩ := hInv
  have htail0 : tail = [] := by
    rw [htail] at hlen
    simpa using hlen
  subst htail0
  have hid0 : (op.fProxies.headD default).1.uniqueID = pf0.1.uniqueID := by
    rw [htail]
    rfl
  refine ⟨⟨hWf.1, hWf.2.1, hWf.2.2⟩, ⟨[], by rw [htail]⟩, ?_, ?_, ?_⟩
  · intro id
    rw [countAdds_append, hAdds id, hid0, countAdds_pair]
    by_cases hidp : id = pf0.1.uniqueID <;> simp [hidp, hnf, htail]
  · intro id
    rw [countCompleted_append, hCompl id, countCompleted_pair]
  · intro id
    rw [countUnrefs_append, hUnrefs id, hid0, countUnrefs_pair]
    by_cases hidp : id = pf0.1.uniqueID <;> simp [hidp, hnf]

theorem runPre_inv (pf0 : GrTextureProxy × GrSamplerState.Filter)
    (steps : List PreStep) :
    ∀ (op : TextureOp) (evs0 : List LifeEvent),
      (∀ s ∈ steps, s.Wf) → TraceInv pf0 op evs0 →
      ∀ opF evs, TextureOp.runPre op steps = some (opF, evs) →
      TraceInv pf0 opF (evs0 ++ evs) := by
  induction steps with
  | nil =>
    intro op evs0 _ hInv opF evs hrun
    simp only [TextureOp.runPre, Option.some.injEq, Prod.mk.injEq] at hrun
    obtain ⟨rfl, rfl⟩ := hrun
    simpa using hInv
  | cons step rest ih =>
    intro op evs0 hwf hInv opF evs hrun
    have hwfr : ∀ s ∈ rest, s.Wf := fun s hs => hwf s (List.mem_cons_of_mem _ hs)
    cases step with
    | mergeStep that caps =>
      have hstep := hwf _ (List.mem_cons_self _ _)
      obtain ⟨hWfT, hT8⟩ := hstep
      cases hc : TextureOp.onCombineIfPossible caps op that with
      | none =>
        simp only [TextureOp.runPre, hc] at hrun
        exact ih op evs0 hwfr hInv opF evs hrun
      | some merged =>
        simp only [TextureOp.runPre, hc] at hrun
        cases hr : TextureOp.runPre merged rest with
        | none => rw [hr] at hrun; exact absurd hrun (by simp)
        | some pr =>
          obtain ⟨opG, evsG⟩ := pr
          rw [hr] at hrun
          simp only [Option.some.injEq, Prod.mk.injEq] at hrun
          obtain ⟨rfl, rfl⟩ := hrun
          have hInv2 := TraceInv_merge pf0 op that merged caps evs0 hInv hWfT hT8 hc
          have := ih merged (evs0 ++ TextureOp.mergeEvents op merged) hwfr hInv2 opG evsG hr
          rwa [List.append_assoc] at this
    | finalizeStep =>
      simp only [TextureOp.runPre] at hrun
      by_cases hf : op.fFinalized = true
      · rw [if_pos hf] at hrun
        exact absurd hrun (by simp)
      · have hf2 : op.fFinalized = false := by
          cases h : op.fFinalized
          · rfl
          · exact absurd h hf
        rw [if_neg hf] at hrun
        by_cases hlen : op.fProxies.length = 1
        · rw [if_neg (by simp [hlen])] at hrun
          cases hr : TextureOp.runPre { op with fFinalized := true } rest with
          | none => rw [hr] at hrun; exact absurd hrun (by simp)
          | some pr =>
            obtain ⟨opG, evsG⟩ := pr
            rw [hr] at hrun
            simp only [Option.some.injEq, Prod.mk.injEq] at hrun
            obtain ⟨rfl, rfl⟩ := hrun
            have hInv2 := TraceInv_finalize pf0 op evs0 hInv hf2 hlen
            have := ih { op with fFinalized := true }
              (evs0 ++ [LifeEvent.addPendingRead (op.fProxies.headD default).1.uniqueID,
                        LifeEvent.unref (op.fProxies.headD default).1.uniqueID])
              hwfr hInv2 opG evsG hr
            rwa [List.append_assoc] at this
        · rw [if_pos (by simp [hlen])] at hrun
          exact absurd hrun (by simp)

theorem countUnrefs_completedReads (l : List (GrTextureProxy × GrSamplerState.Filter))
    (id : Nat) :
    countUnrefs (l.map fun pf => LifeEvent.completedRead pf.1.uniqueID) id = 0 := by
  induction l with
  | nil => simp [countUnrefs]
  | cons pf rest ih =>
    simp only [List.map_cons, countUnrefs, List.filter_cons] at ih ⊢
    rw [if_neg (by simp)]
    exact ih

theorem make_TraceInv (proxy : GrTextureProxy) (filter : GrSamplerState.Filter)
    (color : Nat) (srcRect : SkRect) (quad : GrPerspQuad) (persp : Bool)
    (aaType : GrAAType) (csxf : Option Nat) (srgb : Bool) :
    TraceInv (proxy, filter)
      (TextureOp.make proxy filter color srcRect quad persp aaType csxf srgb) [] := by
  refine ⟨make_Wf proxy filter color srcRect quad persp aaType csxf srgb,
    ⟨[], rfl⟩, ?_, ?_, ?_⟩
  · intro id
    simp [countAdds, TextureOp.make]
  · intro id
    simp [countCompleted]
  · intro id
    simp [countUnrefs, TextureOp.make]

/-- Claim C8: over any legal lifetime of a batch made by TextureOp::make (a
sequence of well-formed merge and finalize steps, then destruction), if the
batch ends finalized then every texture it references receives exactly one
pending-read acquire and exactly one completing release, every other identity
receives none, and the single plain unref hits the original texture exactly
once; a batch discarded before finalization performs no pending-read acquire or
release at all and exactly one plain unref of its texture. -/
theorem claim_C8 (proxy : GrTextureProxy) (filter : GrSamplerState.Filter)
    (color : Nat) (srcRect : SkRect) (quad : GrPerspQuad) (persp : Bool)
    (aaType : GrAAType) (csxf : Option Nat) (srgb : Bool)
    (steps : List PreStep) (hwf : ∀ s ∈ steps, s.Wf)
    (opF : TextureOp) (evs devs : List LifeEvent)
    (hrun : TextureOp.runPre
      (TextureOp.make proxy filter color srcRect quad persp aaType csxf srgb)
      steps = some (opF, evs))
    (hdes : TextureOp.destroyEvents opF = some devs) :
    (opF.fFinalized = true →
      (∀ id ∈ opF.proxyIDs,
        countAdds (evs ++ devs) id = 1 ∧ countCompleted (evs ++ devs) id = 1) ∧
      (∀ id, id ∉ opF.proxyIDs →
        countAdds (evs ++ devs) id = 0 ∧ countCompleted (evs ++ devs) id = 0)) ∧
    (opF.fFinalized = false →
      ∀ id, countAdds (evs ++ devs) id = 0 ∧ countCompleted (evs ++ devs) id = 0) ∧
    (∀ id, countUnrefs (evs ++ devs) id = if id = proxy.uniqueID then 1 else 0) := by
  have hInv := runPre_inv (proxy, filter) steps
    (TextureOp.make proxy filter color srcRect quad persp aaType csxf srgb) []
    hwf (make_TraceInv proxy filter color srcRect quad persp aaType csxf srgb)
    opF evs hrun
  rw [List.nil_append] at hInv
  obtain ⟨hWf, ⟨tail, htail⟩, hAdds, hCompl, hUnrefs⟩ := hInv
  have hnodup : (opF.fProxies.map (fun pf => pf.1.uniqueID)).Nodup := hWf.2.1
  have hid0 : ((proxy, filter) : GrTextureProxy × GrSamplerState.Filter).1.uniqueID
      = proxy.uniqueID := rfl
  cases hf : opF.fFinalized with
  | true =>
    rw [TextureOp.destroyEvents, if_pos hf] at hdes
    have hdevs : devs = opF.fProxies.map fun pf => LifeEvent.completedRead pf.1.uniqueID :=
      (Option.some.inj hdes).symm
    subst hdevs
    have hpf0nd : proxy.uniqueID ∉ (tail.map fun pf => pf.1.uniqueID) := by
      have := hnodup
      rw [htail, List.map_cons] at this
      exact (List.nodup_cons.1 this).1
    refine ⟨fun _ => ⟨?_, ?_⟩, fun hc => absurd hc (by simp), ?_⟩
    · intro id hmem
      constructor
      · rw [countAdds_append, hAdds id, countAdds_completedReads, hf]
        rw [TextureOp.proxyIDs, htail, List.map_cons, List.mem_cons] at hmem
        simp only [htail, List.drop_succ_cons, List.drop_zero]
        rcases hmem with hmem | hmem
        · rw [if_neg (by rw [hmem]; exact hpf0nd), if_pos ⟨hmem, by simp⟩]
        · rw [if_pos hmem]
      · rw [countCompleted_append, hCompl id,
          countCompleted_completedReads opF.fProxies id hnodup]
        rw [TextureOp.proxyIDs] at hmem
        rw [if_pos hmem]
    · intro id hmem
      rw [TextureOp.proxyIDs] at hmem
      constructor
      · rw [countAdds_append, hAdds id, countAdds_completedReads, hf]
        have h1 : id ∉ ((opF.fProxies.drop 1).map fun pf => pf.1.uniqueID) := by
          intro hc
          exact hmem (by
            rcases List.mem_map.1 hc with ⟨pf, hpf, rfl⟩
            exact List.mem_map.2 ⟨pf, List.mem_of_mem_drop hpf, rfl⟩)
        have h2 : ¬(id = (proxy, filter).1.uniqueID ∧ True) := by
          rintro ⟨hc, -⟩
          exact hmem (by rw [hc, hid0, htail, List.map_cons]; exact List.mem_cons_self _ _)
        rw [if_neg h1]
        simp only [hid0] at h2 ⊢
        rw [if_neg (by rintro ⟨hc, -⟩; exact h2 ⟨hc, trivial⟩)]
      · rw [countCompleted_append, hCompl id,
          countCompleted_completedReads opF.fProxies id hnodup, if_neg hmem]
    · intro id
      rw [countUnrefs_append, hUnrefs id, countUnrefs_completedReads, hf, hid0, Nat.add_zero]
      by_cases hid : id = proxy.uniqueID
      · rw [if_pos ⟨hid, rfl⟩, if_pos hid]
      · rw [if_neg (by rintro ⟨hc, -⟩; exact hid hc), if_neg hid]
  | false =>
    have hcond : ¬(opF.fFinalized = true) := by simp [hf]
    rw [TextureOp.destroyEvents, if_neg hcond] at hdes
    by_cases hl : opF.fProxies.length = 1
    · rw [if_pos hl] at hdes
      have htn : tail = [] := by
        rw [htail] at hl
        simpa using hl
      subst htn
      have hdevs : devs = [LifeEvent.unref (opF.fProxies.headD default).1.uniqueID] :=
        (Option.some.inj hdes).symm
      subst hdevs
      have hhd : (opF.fProxies.headD default).1.uniqueID = proxy.uniqueID := by
        rw [htail]
        rfl
      refine ⟨fun hc => absurd hc (by simp), fun _ => ?_, ?_⟩
      · intro id
        constructor
        · rw [countAdds_append, hAdds id, hf]
          simp only [htail, List.drop_succ_cons, List.drop_zero, List.map_nil,
            List.not_mem_nil, if_false]
          simp [countAdds]
        · rw [countCompleted_append, hCompl id]
          simp [countCompleted]
      · intro id
        rw [countUnrefs_append, hUnrefs id, hf, hhd]
        by_cases hid : id = proxy.uniqueID
        · rw [if_neg (by rintro ⟨-, hc⟩; cases hc), if_pos hid]
          simp [countUnrefs, hid]
        · rw [if_neg (by rintro ⟨-, hc⟩; cases hc), if_neg hid]
          simp only [countUnrefs, List.filter_cons, List.filter_nil]
          rw [if_neg (by simp; omega)]
          rfl
    · rw [if_neg hl] at hdes
      exact absurd hdes (by simp)









/-- Witness for claim C8: the fresh single-texture batch, finalized and then
destroyed. -/
theorem claim_C8_witness :
    (c8opF.fFinalized = true →
      (∀ id ∈ c8opF.proxyIDs,
        countAdds (c8evs ++ c8devs) id = 1 ∧ countCompleted (c8evs ++ c8devs) id = 1) ∧
      (∀ id, id ∉ c8opF.proxyIDs →
        countAdds (c8evs ++ c8devs) id = 0 ∧ countCompleted (c8evs ++ c8devs) id = 0)) ∧
    (c8opF.fFinalized = false →
      ∀ id, countAdds (c8evs ++ c8devs) id = 0 ∧ countCompleted (c8evs ++ c8devs) id = 0) ∧
    (∀ id, countUnrefs (c8evs ++ c8devs) id =
      if id = (proxy2D 1).uniqueID then 1 else 0) :=
  claim_C8 (proxy2D 1) GrSamplerState.Filter.kNearest 0 unitRect unitQuad
    false GrAAType.kNone none false [PreStep.finalizeStep]
    (by
      intro s hs
      rcases List.mem_singleton.1 hs with rfl
      exact trivial)
    c8opF c8evs c8devs rfl rfl



theorem countFinalizes_cons_merge (that : TextureOp) (caps : GrCaps)
    (rest : List PreStep) :
    countFinalizes (PreStep.mergeStep that caps :: rest) = countFinalizes rest := by
  simp [countFinalizes, List.filter_cons]

theorem countFinalizes_cons_fin (rest : List PreStep) :
    countFinalizes (PreStep.finalizeStep :: rest) = countFinalizes rest + 1 := by
  simp [countFinalizes, List.filter_cons]

theorem runPre_countFin (steps : List PreStep) :
    ∀ op : TextureOp, op.Wf → (∀ s ∈ steps, s.Wf) →
      (TextureOp.runPre op steps).isSome = true →
      countFinalizes steps ≤ if op.fFinalized = true then 0 else 1 := by
  induction steps with
  | nil =>
    intro op _ _ _
    have h0 : countFinalizes [] = 0 := rfl
    rw [h0]
    split <;> omega
  | cons step rest ih =>
    intro op hWf hwf hrun
    have hwfr : ∀ s ∈ rest, s.Wf := fun s hs => hwf s (List.mem_cons_of_mem _ hs)
    cases step with
    | mergeStep that caps =>
      obtain ⟨hWfT, hT8⟩ := hwf _ (List.mem_cons_self _ _)
      rw [countFinalizes_cons_merge]
      cases hc : TextureOp.onCombineIfPossible caps op that with
      | none =>
        simp only [TextureOp.runPre, hc] at hrun
        exact ih op hWf hwfr hrun
      | some merged =>
        simp only [TextureOp.runPre, hc] at hrun
        obtain ⟨hWf2, hFin2, -, -⟩ :=
          onCombine_some_spec caps op that merged hWf hWfT hT8 hc
        cases hr : TextureOp.runPre merged rest with
        | none => rw [hr] at hrun; exact absurd hrun (by simp)
        | some pr =>
          have := ih merged hWf2 hwfr (by rw [hr]; rfl)
          rwa [hFin2] at this
    | finalizeStep =>
      rw [countFinalizes_cons_fin]
      simp only [TextureOp.runPre] at hrun
      by_cases hf : op.fFinalized = true
      · rw [if_pos hf] at hrun
        exact absurd hrun (by simp)
      · rw [if_neg hf] at hrun
        have hf2 : op.fFinalized = false := by
          cases h : op.fFinalized
          · rfl
          · exact absurd h hf
        by_cases hlen : op.fProxies.length = 1
        · rw [if_neg (by simp [hlen])] at hrun
          cases hr : TextureOp.runPre { op with fFinalized := true } rest with
          | none => rw [hr] at hrun; exact absurd hrun (by simp)
          | some pr =>
            have hWf2 : ({ op with fFinalized := true } : TextureOp).Wf :=
              ⟨hWf.1, hWf.2.1, hWf.2.2⟩
            have := ih { op with fFinalized := true } hWf2 hwfr (by rw [hr]; rfl)
            rw [if_pos rfl] at this
            simp only [if_neg hf]
            omega
        · rw [if_pos (by simp [hlen])] at hrun
          exact absurd hrun (by simp)

theorem runPre_finalize_head (op : TextureOp) (rest : List PreStep)
    (hrun : (TextureOp.runPre op (PreStep.finalizeStep :: rest)).isSome = true) :
    op.fFinalized = false ∧ op.fProxies.length = 1 := by
  simp only [TextureOp.runPre] at hrun
  by_cases hf : op.fFinalized = true
  · rw [if_pos hf] at hrun
    exact absurd hrun (by simp)
  · have hf2 : op.fFinalized = false := by
      cases h : op.fFinalized
      · rfl
      · exact absurd h hf
    rw [if_neg hf] at hrun
    by_cases hlen : op.fProxies.length = 1
    · exact ⟨hf2, hlen⟩
    · rw [if_pos (by simp [hlen])] at hrun
      exact absurd hrun (by simp)

/-- Claim C9, amended: in every legal step sequence the finalization
transition occurs at most once (never on an already-finalized batch) and
requires the single-texture unfinalized state asserted by the source; the
original claim additionally asserted that every merge precedes finalization,
which is false — a merge can legally run and succeed on a finalized batch, as
the counterexample trace shows — so that part is dropped. -/
theorem claim_C9 (op : TextureOp) (steps : List PreStep)
    (hWf : op.Wf) (hsteps : ∀ s ∈ steps, s.Wf)
    (hrun : (TextureOp.runPre op steps).isSome = true) :
    (op.fFinalized = true → countFinalizes steps = 0) ∧
    countFinalizes steps ≤ 1 ∧
    (∀ rest, steps = PreStep.finalizeStep :: rest →
      op.fFinalized = false ∧ op.fProxies.length = 1) := by
  have hmain := runPre_countFin steps op hWf hsteps hrun
  refine ⟨?_, ?_, ?_⟩
  · intro hf
    rw [if_pos hf] at hmain
    omega
  · by_cases hf : op.fFinalized = true
    · rw [if_pos hf] at hmain
      omega
    · rw [if_neg hf] at hmain
      omega
  · intro rest hsteps2
    subst hsteps2
    exact runPre_finalize_head op rest hrun

/-- Counterexample to the ordering half of claim C9: a legal trace finalizes the
single-texture batch first and then successfully merges a second batch into
it, ending finalized with two textures and two draws — the merge ran after
finalization, so finalization is not a boundary for merges. -/
theorem claim_C9_counterexample :
    (TextureOp.runPre (plainOp 1 GrSamplerState.Filter.kNearest)
      [PreStep.finalizeStep,
       PreStep.mergeStep (plainOp 2 GrSamplerState.Filter.kNearest) ampleCaps]).map
      (fun r => (r.1.fProxies.length, r.1.fFinalized, r.1.fDraws.length)) =
    some (2, true, 2) := by
  decide



/-- Witness for claim C9 at the finalize-then-merge step sequence. -/
theorem claim_C9_witness :
    ((plainOp 1 GrSamplerState.Filter.kNearest).fFinalized = true →
      countFinalizes c9steps = 0) ∧
    countFinalizes c9steps ≤ 1 ∧
    (∀ rest, c9steps = PreStep.finalizeStep :: rest →
      (plainOp 1 GrSamplerState.Filter.kNearest).fFinalized = false ∧
      (plainOp 1 GrSamplerState.Filter.kNearest).fProxies.length = 1) :=
  claim_C9 (plainOp 1 GrSamplerState.Filter.kNearest) c9steps
    ⟨by decide, by decide, by decide⟩
    (by
      intro s hs
      rw [show c9steps = [PreStep.finalizeStep,
        PreStep.mergeStep (plainOp 2 GrSamplerState.Filter.kNearest) ampleCaps] from rfl] at hs
      rcases List.mem_cons.1 hs with rfl | hs2
      · exact trivial
      · rcases List.mem_singleton.1 hs2 with rfl
        exact ⟨⟨by decide, by decide, by decide⟩, by decide⟩)
    (by decide)

end Skia
